import Mathlib

/-!
# Proxy handshake engine (`src/engine/proxy.cpp`)

A shallow embedding of `CProxySocket` (HTTP CONNECT, SOCKS4 and SOCKS5 client handshakes)
and theorems about it.

* `std::string` and `std::wstring` values are lists of code units (`List Nat`).
* `int` members are `Int`; an `int` passed as an `unsigned int` length goes through `uint`.
* The socket is a parameter: a `Transport σ` gives the result of every `read`, `peek` and
  `write`.  `Wire` is the concrete FIFO transport used where a claim speaks about the
  bytes left in the transport.
* Functions of libfilezilla and of the platform that the file calls but does not define
  (`fz::to_utf8`, `fz::get_address_type`, `getaddrinfo`, ...) are fields of `Env`.
* Loops and the `OnReceive`/`OnSend` recursion are driven by a fuel argument; `none` means
  the fuel ran out (or, in one documented place, that the source dereferences a null pointer).
-/

namespace Proxy

/-! ## Constants and enumerations -/

/-- The errno values used by the file (Linux numbering; only their distinctness matters). -/
def EAGAIN : Int := 11
def ENOMEM : Int := 12
def EINVAL : Int := 22
def EPROTONOSUPPORT : Int := 93
def ECONNABORTED : Int := 103
def ECONNRESET : Int := 104
def EALREADY : Int := 114
def EINPROGRESS : Int := 115

/-- The enumeration `CProxySocket::ProxyType` of `proxy.h`; `proxytype_count` stands for any
enumerator besides the four the file names. -/
inductive ProxyType
  | unknown | HTTP | SOCKS5 | SOCKS4 | proxytype_count
  deriving DecidableEq, Repr

/-- The enumeration `ProxyState` (`noconn`, `handshake`, `conn`). -/
inductive ProxyState
  | noconn | handshake | conn
  deriving DecidableEq, Repr

/-- The enumeration `handshake_state` at the top of the file. -/
inductive handshake_state
  | http_wait
  | socks5_method
  | socks5_auth
  | socks5_request
  | socks5_request_addrtype
  | socks5_request_address
  | socks4_handshake
  deriving DecidableEq, Repr

/-- The result of `fz::get_address_type`. -/
inductive address_type
  | unknown | ipv4 | ipv6
  deriving DecidableEq, Repr

/-- The enumeration `fz::socket_event_flag`. -/
inductive socket_event_flag
  | connection_next | connection | read | write | close
  deriving DecidableEq, Repr

/-- An event sent to `m_pEvtHandler` with `send_event<fz::socket_event>`. -/
structure socket_event where
  flag : socket_event_flag
  error : Int
  deriving DecidableEq, Repr

/-- The message categories passed to `LogMessage`. -/
inductive MessageType
  | Status | Error | Response | Debug_Warning
  deriving DecidableEq, Repr

/-- One entry of the `addrinfo` list filled by `getaddrinfo`. -/
structure addrinfo where
  ai_family : Int
  ai_addr : List Nat
  deriving DecidableEq, Repr

/-- The address family `AF_INET`. -/
def AF_INET : Int := 2

/-- What the file takes from libfilezilla, libc and the build: each field is the function or
constant of that name. -/
structure Env where
  /-- Whether plain `char` is a signed type on the platform (it is on x86). -/
  char_is_signed : Bool
  /-- The `fz::to_utf8` of a `std::wstring`. -/
  to_utf8 : List Nat → List Nat
  /-- The `fz::to_string` of a `std::wstring`. -/
  to_string : List Nat → List Nat
  /-- The `fz::to_wstring_from_utf8` of a C string. -/
  to_wstring_from_utf8 : List Nat → List Nat
  /-- The `fz::get_address_type` of a `std::wstring`. -/
  get_address_type_w : List Nat → address_type
  /-- The `fz::get_address_type` of a `std::string`. -/
  get_address_type : List Nat → address_type
  /-- The call `getaddrinfo(host, nullptr, &hints, &result)` with `hints.ai_family = AF_INET`:
  the return value and the first entry of the result list. -/
  getaddrinfo : List Nat → Int × Option addrinfo
  /-- The `fz::socket::address_to_string(addr, len, false)`. -/
  address_to_string : List Nat → List Nat
  /-- The `fz::base64_encode`. -/
  base64_encode : List Nat → List Nat
  /-- The `fz::get_ipv6_long_form` of a `std::string`. -/
  get_ipv6_long_form : List Nat → List Nat
  /-- The `fz::hex_char_to_int`. -/
  hex_char_to_int : Nat → Int
  /-- The build constant `PACKAGE_STRING`. -/
  PACKAGE_STRING : List Nat
  /-- The indeterminate initial contents of a `new char[n]`: `uninit n i` is byte `i`. -/
  uninit : Nat → Nat → Nat

/-! ## Byte and string helpers -/

/-- The code units of an ASCII literal. -/
def ascii (s : String) : List Nat := s.toList.map Char.toNat

/-- Conversion of an `int` to `unsigned int` (32 bits), as happens to a length argument. -/
def uint (x : Int) : Nat := (x % 4294967296).toNat

/-- Conversion of an `int` to `unsigned char`. -/
def uchar (x : Int) : Nat := (x % 256).toNat

/-- The value of a stored byte read through a plain `char`. -/
def char_val (env : Env) (b : Nat) : Int :=
  if env.char_is_signed ∧ 128 ≤ b then (b : Int) - 256 else (b : Int)

/-- The array `new char[n]`. -/
def new_char (env : Env) (n : Nat) : List Nat := (List.range n).map (env.uninit n)

/-- The store `buf[i] = b`; a store outside the array (undefined in the source) is dropped. -/
def poke (buf : List Nat) (i : Int) (b : Nat) : List Nat :=
  if 0 ≤ i then buf.set i.toNat b else buf

/-- The bytes of `bytes` written to `buf + pos` (what `read`, `peek` and `memcpy` do). -/
def store : List Nat → Int → List Nat → List Nat
  | buf, _, [] => buf
  | buf, pos, b :: bs => store (poke buf pos b) (pos + 1) bs

/-- The C string starting at `buf`: the bytes before the first NUL. -/
def c_str (buf : List Nat) : List Nat := buf.takeWhile (fun b => b != 0)

/-- Index of the first occurrence of `needle` in `hay`. -/
def find_sub (needle : List Nat) : List Nat → Option Nat
  | [] => if needle = [] then some 0 else none
  | c :: cs =>
    if needle.isPrefixOf (c :: cs) then some 0
    else (find_sub needle cs).map (fun i => i + 1)

/-- The libc `strstr(buf, needle)`, as an offset from `buf`. -/
def strstr (buf needle : List Nat) : Option Nat := find_sub needle (c_str buf)

/-- The libc `strchr(buf, c)` for a non-NUL `c`, as an offset from `buf`. -/
def strchr (buf : List Nat) (c : Nat) : Option Nat := find_sub [c] (c_str buf)

/-- The header terminator `"\r\n\r\n"`. -/
def CRLFCRLF : List Nat := [13, 10, 13, 10]

/-- The `%u` conversion of `fz::sprintf`. -/
def sprintf_u (n : Nat) : List Nat := (Nat.toDigits 10 n).map Char.toNat

/-- Worker of `replaced_substrings`: `skip` counts the bytes of a match still to pass over. -/
def replaced_go (find rep : List Nat) : Nat → List Nat → List Nat
  | _, [] => []
  | skip + 1, _ :: cs => replaced_go find rep skip cs
  | 0, c :: cs =>
    if find ≠ [] ∧ find.isPrefixOf (c :: cs) then rep ++ replaced_go find rep (find.length - 1) cs
    else c :: replaced_go find rep 0 cs

/-- The `fz::replaced_substrings(in, find, replacement)`. -/
def replaced_substrings (inp find rep : List Nat) : List Nat := replaced_go find rep 0 inp

/-! ## The transport -/

/-- Result of `socket_->read` / `socket_->peek`: `-1` with an error code, or the bytes
transferred (their number is the return value, `0` for an empty list). -/
inductive IoResult
  | error (e : Int)
  | ok (bytes : List Nat)
  deriving DecidableEq, Repr

/-- Result of `socket_->write`: `-1` with an error code, or the number of bytes taken. -/
inductive WriteResult
  | error (e : Int)
  | ok (written : Nat)
  deriving DecidableEq, Repr

/-- The socket below the proxy layer, as a state machine over `σ`. -/
structure Transport (σ : Type) where
  read : σ → Nat → IoResult × σ
  peek : σ → Nat → IoResult × σ
  write : σ → List Nat → WriteResult × σ

/-- One transport call or NUL store made by the driver, recorded for the theorems (not part of
the program state): the buffer offset, the length passed, and for reads and peeks the number
of bytes waiting in `sendBuffer_` at that moment. -/
inductive IoOp
  | peek (pos : Int) (len : Nat) (pending : Nat)
  | read (pos : Int) (len : Nat) (pending : Nat)
  | write (bytes : List Nat)
  | nul (idx : Int)
  deriving DecidableEq, Repr

/-! ## The session -/

/-- The members of `CProxySocket` the file uses, with the socket state, the events sent to the
parent handler, the log of the owner and the record of transport calls. -/
structure CProxySocket (σ : Type) where
  socket_ : σ
  m_proxyState : ProxyState
  m_handshakeState : handshake_state
  m_proxyType : ProxyType
  m_host : List Nat
  m_port : Nat
  m_user : List Nat
  m_pass : List Nat
  sendBuffer_ : List Nat
  m_pRecvBuffer : List Nat
  m_recvBufferPos : Int
  m_recvBufferLen : Int
  m_can_read : Bool
  m_can_write : Bool
  events : List socket_event
  log : List (MessageType × String)
  trace : List IoOp
  deriving DecidableEq, Repr

variable {σ : Type}

/-- The call `m_pEvtHandler->send_event<fz::socket_event>(this, flag, error)`. -/
def send_event (s : CProxySocket σ) (flag : socket_event_flag) (error : Int) : CProxySocket σ :=
  { s with events := s.events ++ [⟨flag, error⟩] }

/-- The call `m_pOwner->LogMessage(t, msg, ...)`; the format string is recorded. -/
def LogMessage (s : CProxySocket σ) (t : MessageType) (msg : String) : CProxySocket σ :=
  { s with log := s.log ++ [(t, msg)] }

/-- The statements `m_proxyState = noconn; send_event(close, error)`. -/
def fail_close (s : CProxySocket σ) (error : Int) : CProxySocket σ :=
  send_event { s with m_proxyState := ProxyState.noconn } socket_event_flag.close error

/-- The statements `m_proxyState = noconn; LogMessage(t, msg); send_event(close, error)`. -/
def fail_log_close (s : CProxySocket σ) (t : MessageType) (msg : String) (error : Int) :
    CProxySocket σ :=
  send_event (LogMessage { s with m_proxyState := ProxyState.noconn } t msg)
    socket_event_flag.close error

/-- The statements `LogMessage(t, msg); m_proxyState = noconn; send_event(close, error)`. -/
def log_fail_close (s : CProxySocket σ) (t : MessageType) (msg : String) (error : Int) :
    CProxySocket σ :=
  send_event { LogMessage s t msg with m_proxyState := ProxyState.noconn }
    socket_event_flag.close error

/-- The statements `m_proxyState = conn; send_event(connection, 0)`. -/
def succeed (s : CProxySocket σ) : CProxySocket σ :=
  send_event { s with m_proxyState := ProxyState.conn } socket_event_flag.connection 0

/-- A freshly constructed session: `noconn`, nothing buffered, no receive buffer. -/
def CProxySocket.init (sock : σ) : CProxySocket σ :=
  { socket_ := sock
    m_proxyState := ProxyState.noconn
    m_handshakeState := handshake_state.http_wait
    m_proxyType := ProxyType.unknown
    m_host := []
    m_port := 0
    m_user := []
    m_pass := []
    sendBuffer_ := []
    m_pRecvBuffer := []
    m_recvBufferPos := 0
    m_recvBufferLen := 0
    m_can_read := false
    m_can_write := false
    events := []
    log := []
    trace := [] }

/-! ## `CProxySocket::Handshake` -/

/-- The loop `for (auto p = ip.c_str(); *p && i < 4; ++p)` that turns dotted decimal text into
octets at `out[4..7]`; `out[i + 4] *= 10; out[i + 4] += c - '0'` is `unsigned char` arithmetic
(the result modulo 256 does not depend on the signedness of `c`). -/
def parse_ipv4 : List Nat → Nat → List Nat → List Nat
  | [], _, out => out
  | c :: p, i, out =>
    if c = 0 ∨ ¬ i < 4 then out
    else if c = 46 then parse_ipv4 p (i + 1) out
    else
      let x : Nat := uchar ((out.getD (i + 4) 0 : Int) * 10)
      parse_ipv4 p i (out.set (i + 4) (uchar ((x : Int) + ((c : Int) - 48))))

/-- The HTTP request text built with `fz::sprintf` in `Handshake`. -/
def http_request (env : Env) (host : List Nat) (port : Nat) (user : List Nat)
    (m_user m_pass : List Nat) : List Nat :=
  let auth : List Nat :=
    if user ≠ [] then
      ascii "Proxy-Authorization: Basic " ++ env.base64_encode (m_user ++ ascii ":" ++ m_pass)
        ++ ascii "\r\n"
    else []
  let host_raw := env.to_utf8 host
  ascii "CONNECT " ++ host_raw ++ ascii ":" ++ sprintf_u port ++ ascii " HTTP/1.1\r\nHost: "
    ++ host_raw ++ ascii ":" ++ sprintf_u port ++ ascii "\r\n" ++ auth ++ ascii "User-Agent: "
    ++ replaced_substrings env.PACKAGE_STRING (ascii " ") (ascii "/") ++ ascii "\r\n\r\n"

/-- The nine bytes written through `out = sendBuffer_.get(9)` for SOCKS4. -/
def socks4_request (m_port : Nat) (ip : List Nat) : List Nat :=
  let out : List Nat := List.replicate 9 0
  let out := out.set 0 4
  let out := out.set 1 1
  let out := out.set 2 ((m_port >>> 8) &&& 0xFF)
  let out := out.set 3 (m_port &&& 0xFF)
  let out := store out 4 (List.replicate 5 0)
  parse_ipv4 ip 0 out

/-- The member function `CProxySocket::Handshake`: the return value and the session after. -/
def Handshake (env : Env) (type : ProxyType) (host : List Nat) (port : Nat)
    (user pass : List Nat) (s : CProxySocket σ) : Int × CProxySocket σ :=
  if type = ProxyType.unknown ∨ host = [] ∨ port < 1 ∨ port > 65535 then (EINVAL, s)
  else if s.m_proxyState ≠ ProxyState.noconn then (EALREADY, s)
  else if type ≠ ProxyType.HTTP ∧ type ≠ ProxyType.SOCKS5 ∧ type ≠ ProxyType.SOCKS4 then
    (EPROTONOSUPPORT, s)
  else
    let s := { s with
      m_user := env.to_utf8 user
      m_pass := env.to_utf8 pass
      m_host := host
      m_port := port
      m_proxyType := type
      m_proxyState := ProxyState.handshake }
    if type = ProxyType.HTTP then
      (EINPROGRESS,
        { s with
          m_handshakeState := handshake_state.http_wait
          sendBuffer_ := s.sendBuffer_ ++ http_request env host port user s.m_user s.m_pass
          m_pRecvBuffer := new_char env 4096
          m_recvBufferLen := 4096
          m_recvBufferPos := 0 })
    else if type = ProxyType.SOCKS4 then
      let addressType := env.get_address_type_w s.m_host
      if addressType = address_type.ipv6 then
        (EINVAL, LogMessage s MessageType.Error
          "IPv6 addresses are not supported with SOCKS4 proxy")
      else
        let ip : List Nat :=
          if addressType = address_type.ipv4 then env.to_string s.m_host
          else
            match env.getaddrinfo (env.to_string s.m_host) with
            | (res, some result) =>
              if res = 0 ∧ result.ai_family = AF_INET then env.address_to_string result.ai_addr
              else []
            | (_, none) => []
        if addressType ≠ address_type.ipv4 ∧ ip = [] then
          (EINVAL, LogMessage s MessageType.Error
            "Cannot resolve hostname to IPv4 address for use with SOCKS4 proxy.")
        else
          let s := LogMessage s MessageType.Status "SOCKS4 proxy will connect to: %s"
          (EINPROGRESS,
            { s with
              sendBuffer_ := s.sendBuffer_ ++ socks4_request s.m_port ip
              m_pRecvBuffer := new_char env 8
              m_recvBufferLen := 8
              m_recvBufferPos := 0
              m_handshakeState := handshake_state.socks4_handshake })
    else
      if s.m_user.length > 255 ∨ s.m_pass.length > 255 then
        (EINVAL, LogMessage s MessageType.Status
          "SOCKS5 does not support usernames or passwords longer than 255 characters.")
      else
        let out : List Nat := if user ≠ [] then [5, 2, 0, 2] else [5, 1, 0]
        (EINPROGRESS,
          { s with
            sendBuffer_ := s.sendBuffer_ ++ out
            m_pRecvBuffer := new_char env 1024
            m_recvBufferLen := 2
            m_recvBufferPos := 0
            m_handshakeState := handshake_state.socks5_method })

/-! ## `CProxySocket::OnReceive` and `CProxySocket::OnSend` -/

/-- The second pass (`i == 1`) of the inner `for` of the `http_wait` case and the code after
it, up to the `continue` of the outer loop, which is left to the caller: the result is the
session and whether the outer loop goes on.  `end_` is the offset found by `strstr`.
A `none` is the null dereference `*end = 0` when `strchr` finds no CR. -/
def http_read (env : Env) (T : Transport σ) (s : CProxySocket σ) (do_read : Int)
    (end_ : Option Nat) : Option (CProxySocket σ × Bool) :=
  let r := T.read s.socket_ (uint do_read)
  let s := { s with
    socket_ := r.2
    trace := s.trace ++ [IoOp.read s.m_recvBufferPos (uint do_read) s.sendBuffer_.length] }
  match r.1 with
  | IoResult.error error =>
    if error ≠ EAGAIN then some (fail_close s error, false)
    else some ({ s with m_can_read := false }, false)
  | IoResult.ok bytes =>
    let read : Int := bytes.length
    let s := { s with m_pRecvBuffer := store s.m_pRecvBuffer s.m_recvBufferPos bytes }
    if read = 0 then some (fail_close s ECONNABORTED, false)
    else if s.sendBuffer_ ≠ [] then
      some (fail_log_close s MessageType.Debug_Warning
        "Incoming data before request fully sent" ECONNABORTED, false)
    else if read ≠ do_read then
      some (fail_log_close s MessageType.Debug_Warning
        "Could not read what got peeked" ECONNABORTED, false)
    else
      let s := { s with m_recvBufferPos := s.m_recvBufferPos + read }
      match end_ with
      | none => some (s, true)
      | some _ =>
        match strchr s.m_pRecvBuffer 13 with
        | none => none
        | some cr =>
          let s := { s with m_pRecvBuffer := poke s.m_pRecvBuffer cr 0 }
          let reply := env.to_wstring_from_utf8 (c_str s.m_pRecvBuffer)
          let s := LogMessage s MessageType.Response "Proxy reply: %s"
          if reply.take 10 ≠ ascii "HTTP/1.1 2" ∧ reply.take 10 ≠ ascii "HTTP/1.0 2" then
            some (fail_close s ECONNRESET, false)
          else some (succeed s, false)

/-- One round of the outer `for (;;)` of the `http_wait` case: the peek pass (`i == 0`), then
`http_read`. -/
def http_round (env : Env) (T : Transport σ) (s : CProxySocket σ) :
    Option (CProxySocket σ × Bool) :=
  let do_read : Int := s.m_recvBufferLen - s.m_recvBufferPos - 1
  let r := T.peek s.socket_ (uint do_read)
  let s := { s with
    socket_ := r.2
    trace := s.trace ++ [IoOp.peek s.m_recvBufferPos (uint do_read) s.sendBuffer_.length] }
  match r.1 with
  | IoResult.error error =>
    if error ≠ EAGAIN then some (fail_close s error, false)
    else some ({ s with m_can_read := false }, false)
  | IoResult.ok bytes =>
    let read : Int := bytes.length
    let s := { s with m_pRecvBuffer := store s.m_pRecvBuffer s.m_recvBufferPos bytes }
    if read = 0 then some (fail_close s ECONNABORTED, false)
    else if s.sendBuffer_ ≠ [] then
      some (fail_log_close s MessageType.Debug_Warning
        "Incoming data before request fully sent" ECONNABORTED, false)
    else
      let s := { s with
        m_pRecvBuffer := poke s.m_pRecvBuffer (s.m_recvBufferPos + read) 0
        trace := s.trace ++ [IoOp.nul (s.m_recvBufferPos + read)] }
      match strstr s.m_pRecvBuffer CRLFCRLF with
      | none =>
        if s.m_recvBufferPos + read + 1 = s.m_recvBufferLen then
          some (fail_log_close s MessageType.Debug_Warning "Incoming header too large" ENOMEM,
            false)
        else http_read env T s read none
      | some e => http_read env T s ((e : Int) + 4 - s.m_recvBufferPos) (some e)

/-- The `http_wait` case of `OnReceive`: the outer `for (;;)`. -/
def http_wait_loop (env : Env) (T : Transport σ) : Nat → CProxySocket σ → Option (CProxySocket σ)
  | 0, _ => none
  | fuel + 1, s =>
    match http_round env T s with
    | none => none
    | some (s, true) => http_wait_loop env T fuel s
    | some (s, false) => some s

/-- How the read at the head of a round of the SOCKS loops ends: with a `return`, with a
`continue` (the frame is not complete), or with the frame complete. -/
inductive ReadStep (σ : Type)
  | done (s : CProxySocket σ)
  | more (s : CProxySocket σ)
  | frame (s : CProxySocket σ)

/-- The head of a round of the `while` loops of the SOCKS4 and the SOCKS5 cases (the same
statements in both): the `read`, its error handling and the update of `m_recvBufferPos` and
`m_recvBufferLen`, up to `m_recvBufferPos = 0`. -/
def socks_read (T : Transport σ) (s : CProxySocket σ) : ReadStep σ :=
  let r := T.read s.socket_ (uint s.m_recvBufferLen)
  let s := { s with
    socket_ := r.2
    trace := s.trace ++
      [IoOp.read s.m_recvBufferPos (uint s.m_recvBufferLen) s.sendBuffer_.length] }
  match r.1 with
  | IoResult.error error =>
    if error ≠ EAGAIN then ReadStep.done (fail_close s error)
    else ReadStep.done { s with m_can_read := false }
  | IoResult.ok bytes =>
    let read : Int := bytes.length
    let s := { s with m_pRecvBuffer := store s.m_pRecvBuffer s.m_recvBufferPos bytes }
    if read = 0 then ReadStep.done (fail_close s ECONNABORTED)
    else
      let s := { s with
        m_recvBufferPos := s.m_recvBufferPos + read
        m_recvBufferLen := s.m_recvBufferLen - read }
      if s.m_recvBufferLen ≠ 0 then ReadStep.more s
      else ReadStep.frame { s with m_recvBufferPos := 0 }

/-- The text chosen by `switch (m_pRecvBuffer[1])` in the `socks4_handshake` case. -/
def socks4_error (code : Nat) : String :=
  match code with
  | 0x5B => "Request rejected or failed"
  | 0x5C => "Request failed - client is not running identd (or not reachable from server)"
  | 0x5D => "Request failed - client's identd could not confirm the user ID string"
  | _ => "Unassigned error code %d"

/-- One round of the `while` loop of the `socks4_handshake` case; `loop` is the rest of the
loop. -/
def socks4_body (T : Transport σ) (loop : CProxySocket σ → Option (CProxySocket σ))
    (s : CProxySocket σ) : Option (CProxySocket σ) :=
  if s.m_recvBufferLen ≠ 0 ∧ s.m_can_read = true ∧ s.m_proxyState = ProxyState.handshake then
    match socks_read T s with
    | ReadStep.done r => some r
    | ReadStep.more s => loop s
    | ReadStep.frame s =>
      if s.m_pRecvBuffer.getD 1 0 ≠ 0x5A then
        some (log_fail_close s MessageType.Error
          ("Proxy request failed: " ++ socks4_error (s.m_pRecvBuffer.getD 1 0)) ECONNABORTED)
      else loop (succeed s)
  else some s

/-- The `socks4_handshake` case of `OnReceive`: the `while` loop. -/
def socks4_loop (T : Transport σ) : Nat → CProxySocket σ → Option (CProxySocket σ)
  | 0, _ => none
  | fuel + 1, s => socks4_body T (socks4_loop T fuel) s

/-- The first inner `switch` of the SOCKS5 case: the version check of the frame just read;
`none` when the check passes. -/
def socks5_check_version (s : CProxySocket σ) : Option (CProxySocket σ) :=
  match s.m_handshakeState with
  | handshake_state.socks5_auth =>
    if s.m_pRecvBuffer.getD 0 0 ≠ 1 then
      some (log_fail_close s MessageType.Error
        "Unknown protocol version of SOCKS Username/Password Authentication subnegotiation: %d"
        ECONNABORTED)
    else none
  | handshake_state.socks5_request_address => none
  | handshake_state.socks5_request_addrtype => none
  | _ =>
    if s.m_pRecvBuffer.getD 0 0 ≠ 5 then
      some (log_fail_close s MessageType.Error "Unknown SOCKS protocol version: %d" ECONNABORTED)
    else none

/-- The text chosen by `switch (m_pRecvBuffer[1])` in the `socks5_request` case. -/
def socks5_errorMsg (code : Nat) : String :=
  match code with
  | 1 => "General SOCKS server failure"
  | 2 => "Connection not allowed by ruleset"
  | 3 => "Network unreachable"
  | 4 => "Host unreachable"
  | 5 => "Connection refused"
  | 6 => "TTL expired"
  | 7 => "Command not supported"
  | 8 => "Address type not supported"
  | _ => "Unassigned error code %d"

/-- The second inner `switch` of the SOCKS5 case: the transition out of the current handshake
state.  The left result is a `return` (the session is final for this call), the right one
falls through to the third `switch`. -/
def socks5_transition (env : Env) (s : CProxySocket σ) : CProxySocket σ ⊕ CProxySocket σ :=
  match s.m_handshakeState with
  | handshake_state.socks5_method =>
    let method := s.m_pRecvBuffer.getD 1 0
    if method = 0 then Sum.inr { s with m_handshakeState := handshake_state.socks5_request }
    else if method = 2 then Sum.inr { s with m_handshakeState := handshake_state.socks5_auth }
    else Sum.inl (log_fail_close s MessageType.Error "No supported SOCKS5 auth method"
      ECONNABORTED)
  | handshake_state.socks5_auth =>
    if s.m_pRecvBuffer.getD 1 0 ≠ 0 then
      Sum.inl (log_fail_close s MessageType.Error "Proxy authentication failed" ECONNABORTED)
    else Sum.inr { s with m_handshakeState := handshake_state.socks5_request }
  | handshake_state.socks5_request =>
    if s.m_pRecvBuffer.getD 1 0 ≠ 0 then
      Sum.inl (log_fail_close s MessageType.Error
        ("Proxy request failed. Reply from proxy: " ++ socks5_errorMsg (s.m_pRecvBuffer.getD 1 0))
        ECONNABORTED)
    else
      Sum.inr { s with
        m_handshakeState := handshake_state.socks5_request_addrtype
        m_recvBufferLen := 3 }
  | handshake_state.socks5_request_addrtype =>
    let atyp := s.m_pRecvBuffer.getD 1 0
    if atyp = 1 then
      Sum.inr { s with
        m_recvBufferLen := 5
        m_handshakeState := handshake_state.socks5_request_address }
    else if atyp = 3 then
      Sum.inr { s with
        m_recvBufferLen := char_val env (s.m_pRecvBuffer.getD 2 0) + 2
        m_handshakeState := handshake_state.socks5_request_address }
    else if atyp = 4 then
      Sum.inr { s with
        m_recvBufferLen := 17
        m_handshakeState := handshake_state.socks5_request_address }
    else
      Sum.inl (log_fail_close s MessageType.Error
        "Proxy request failed: Unknown address type in CONNECT reply" ECONNABORTED)
  | handshake_state.socks5_request_address => Sum.inl (succeed s)
  | _ => Sum.inr s

/-- The frame built in the `socks5_auth` case of the third `switch`. -/
def socks5_auth_request (m_user m_pass : List Nat) : List Nat :=
  let ulen := uchar (min m_user.length 255)
  let plen := uchar (min m_pass.length 255)
  let out : List Nat := List.replicate (ulen + plen + 3) 0
  let out := out.set 0 1
  let out := out.set 1 ulen
  let out := store out 2 (m_user.take ulen)
  let out := out.set (ulen + 2) plen
  let out := store out (ulen + 3) (m_pass.take plen)
  out.take (ulen + plen + 3)

/-- The frame built in the `socks5_request` case of the third `switch`. -/
def socks5_connect_request (env : Env) (m_host : List Nat) (m_port : Nat) : List Nat :=
  let host := env.to_utf8 m_host
  let addrlen := max host.length 16
  let out : List Nat := List.replicate (7 + addrlen) 0
  let out := out.set 0 5
  let out := out.set 1 1
  let out := out.set 2 0
  let type := env.get_address_type host
  let r : List Nat × Nat :=
    if type = address_type.ipv6 then
      let ipv6 := env.get_ipv6_long_form host
      let out := (List.range 16).foldl (fun o i =>
        o.set (4 + i) (uchar (env.hex_char_to_int (ipv6.getD (i * 2 + i / 2) 0) * 16
          + env.hex_char_to_int (ipv6.getD (i * 2 + 1 + i / 2) 0)))) out
      (out.set 3 4, 16)
    else if type = address_type.ipv4 then
      let out := store out 4 (List.replicate 4 0)
      let out := parse_ipv4 host 0 out
      (out.set 3 1, 4)
    else
      let out := out.set 3 3
      let hlen := uchar (min host.length 255)
      let out := out.set 4 hlen
      let out := store out 5 (host.take hlen)
      (out, hlen + 1)
  let out := r.1
  let addrlen := r.2
  let out := out.set (addrlen + 4) ((m_port >>> 8) &&& 0xFF)
  let out := out.set (addrlen + 5) (m_port &&& 0xFF)
  out.take (6 + addrlen)

/-- The third inner `switch` of the SOCKS5 case: what the new handshake state sends. -/
def socks5_queue (env : Env) (s : CProxySocket σ) : CProxySocket σ :=
  match s.m_handshakeState with
  | handshake_state.socks5_auth =>
    { s with
      sendBuffer_ := s.sendBuffer_ ++ socks5_auth_request s.m_user s.m_pass
      m_recvBufferLen := 2 }
  | handshake_state.socks5_request =>
    { s with
      sendBuffer_ := s.sendBuffer_ ++ socks5_connect_request env s.m_host s.m_port
      m_recvBufferLen := 2 }
  | _ => s

/-- The three inner `switch` statements of the SOCKS5 case, run on a complete frame: a left
result is a `return`, a right one goes on to `if (sendBuffer_ && m_can_write)`. -/
def socks5_parse (env : Env) (s : CProxySocket σ) : CProxySocket σ ⊕ CProxySocket σ :=
  match socks5_check_version s with
  | some r => Sum.inl r
  | none =>
    match socks5_transition env s with
    | Sum.inl r => Sum.inl r
    | Sum.inr s => Sum.inr (socks5_queue env s)

/-- The part of a round of the SOCKS5 loop that follows a complete frame ("All data got read,
parse it"): the three `switch` statements, then `if (sendBuffer_ && m_can_write) OnSend()` and
the next round.  `loop` is the rest of the loop and `send` the call of `OnSend`. -/
def socks5_frame (env : Env) (loop send : CProxySocket σ → Option (CProxySocket σ))
    (s : CProxySocket σ) : Option (CProxySocket σ) :=
  match socks5_parse env s with
  | Sum.inl r => some r
  | Sum.inr s =>
    if s.sendBuffer_ ≠ [] ∧ s.m_can_write = true then
      match send s with
      | none => none
      | some s => loop s
    else loop s

/-- One round of the `while` loop of the SOCKS5 cases; `loop` is the rest of the loop and
`send` the call of `OnSend`. -/
def socks5_body (env : Env) (T : Transport σ)
    (loop send : CProxySocket σ → Option (CProxySocket σ)) (s : CProxySocket σ) :
    Option (CProxySocket σ) :=
  if s.m_recvBufferLen ≠ 0 ∧ s.m_can_read = true ∧ s.m_proxyState = ProxyState.handshake then
    match socks_read T s with
    | ReadStep.done r => some r
    | ReadStep.more s => loop s
    | ReadStep.frame s => socks5_frame env loop send s
  else some s

/-- The body of `OnReceive`; `http`, `socks4` and `socks5` are the loops of its cases. -/
def OnReceive_body (http socks4 socks5 : CProxySocket σ → Option (CProxySocket σ))
    (s : CProxySocket σ) : Option (CProxySocket σ) :=
  let s := { s with m_can_read := true }
  if s.m_proxyState ≠ ProxyState.handshake then some s
  else
    match s.m_handshakeState with
    | handshake_state.http_wait => http s
    | handshake_state.socks4_handshake => socks4 s
    | _ => if s.sendBuffer_ ≠ [] then some s else socks5 s

/-- The body of `OnSend`; `loop` is its `for (;;)`. -/
def OnSend_body (loop : CProxySocket σ → Option (CProxySocket σ)) (s : CProxySocket σ) :
    Option (CProxySocket σ) :=
  let s := { s with m_can_write := true }
  if s.m_proxyState ≠ ProxyState.handshake ∨ s.sendBuffer_ = [] then some s
  else loop s

/-- One round of the `for (;;)` of `OnSend`; `loop` is the rest of the loop and `recv` the call
of `OnReceive`. -/
def send_body (T : Transport σ) (loop recv : CProxySocket σ → Option (CProxySocket σ))
    (s : CProxySocket σ) : Option (CProxySocket σ) :=
  let r := T.write s.socket_ s.sendBuffer_
  let s := { s with socket_ := r.2, trace := s.trace ++ [IoOp.write s.sendBuffer_] }
  match r.1 with
  | WriteResult.error error =>
    if error ≠ EAGAIN then some (fail_close s error)
    else some { s with m_can_write := false }
  | WriteResult.ok written =>
    let s := { s with sendBuffer_ := s.sendBuffer_.drop written }
    if s.sendBuffer_ = [] then
      if s.m_can_read = true then recv s else some s
    else loop s

mutual

/-- The member function `CProxySocket::OnReceive`. -/
def OnReceive (env : Env) (T : Transport σ) : Nat → CProxySocket σ → Option (CProxySocket σ)
  | 0, _ => none
  | fuel + 1, s =>
    OnReceive_body (http_wait_loop env T fuel) (socks4_loop T fuel)
      (fun s => socks5_loop env T fuel s) s

/-- The `while` loop of the SOCKS5 cases of `OnReceive`. -/
def socks5_loop (env : Env) (T : Transport σ) : Nat → CProxySocket σ → Option (CProxySocket σ)
  | 0, _ => none
  | fuel + 1, s =>
    socks5_body env T (fun s => socks5_loop env T fuel s) (fun s => OnSend env T fuel s) s

/-- The member function `CProxySocket::OnSend`. -/
def OnSend (env : Env) (T : Transport σ) : Nat → CProxySocket σ → Option (CProxySocket σ)
  | 0, _ => none
  | fuel + 1, s => OnSend_body (fun s => send_loop env T fuel s) s

/-- The `for (;;)` loop of `OnSend`. -/
def send_loop (env : Env) (T : Transport σ) : Nat → CProxySocket σ → Option (CProxySocket σ)
  | 0, _ => none
  | fuel + 1, s =>
    send_body T (fun s => send_loop env T fuel s) (fun s => OnReceive env T fuel s) s

end

/-- The member function `CProxySocket::OnSocketEvent`. -/
def OnSocketEvent (env : Env) (T : Transport σ) (fuel : Nat) (t : socket_event_flag)
    (error : Int) (s : CProxySocket σ) : Option (CProxySocket σ) :=
  match t with
  | socket_event_flag.connection_next =>
    if error ≠ 0 then
      some (LogMessage s MessageType.Status
        "Connection attempt failed with \"%s\", trying next address.")
    else some s
  | socket_event_flag.connection =>
    if error ≠ 0 then
      let s := if s.m_proxyState = ProxyState.handshake then
        { s with m_proxyState := ProxyState.noconn } else s
      some (send_event s socket_event_flag.connection error)
    else
      some (LogMessage s MessageType.Status
        "Connection with proxy established, performing handshake...")
  | socket_event_flag.read => OnReceive env T fuel s
  | socket_event_flag.write => OnSend env T fuel s
  | socket_event_flag.close => OnReceive env T fuel s

/-! ## A FIFO transport -/

/-- What a read finds when no byte is waiting. -/
inductive RxEnd
  | again
  | eof
  | fail (e : Int)
  deriving DecidableEq, Repr

/-- A non-blocking stream socket: `rx` holds the bytes received from the proxy and not yet
read, `rxEnd` says what an empty queue gives, `tx` collects the bytes accepted from the
driver, and `txPlan` lists the results of the next writes (after it, every write is taken
whole). -/
structure Wire where
  rx : List Nat
  rxEnd : RxEnd
  tx : List Nat
  txPlan : List WriteResult
  deriving DecidableEq, Repr

/-- The result of a read or peek of `len` bytes on the queue. -/
def Wire.look (w : Wire) (len : Nat) : IoResult :=
  if len = 0 then IoResult.ok []
  else
    match w.rx with
    | [] =>
      match w.rxEnd with
      | RxEnd.again => IoResult.error EAGAIN
      | RxEnd.eof => IoResult.ok []
      | RxEnd.fail e => IoResult.error e
    | _ :: _ => IoResult.ok (w.rx.take len)

/-- The `read` of the queue socket: the bytes returned are removed. -/
def Wire.read (w : Wire) (len : Nat) : IoResult × Wire :=
  (w.look len, { w with rx := w.rx.drop len })

/-- The `peek` of the queue socket: nothing is removed. -/
def Wire.peek (w : Wire) (len : Nat) : IoResult × Wire := (w.look len, w)

/-- The `write` of the queue socket. -/
def Wire.write (w : Wire) (bytes : List Nat) : WriteResult × Wire :=
  match w.txPlan with
  | [] => (WriteResult.ok bytes.length, { w with tx := w.tx ++ bytes })
  | WriteResult.error e :: plan => (WriteResult.error e, { w with txPlan := plan })
  | WriteResult.ok n :: plan =>
    (WriteResult.ok (min n bytes.length), { w with tx := w.tx ++ bytes.take n, txPlan := plan })

/-- The queue socket as a `Transport`. -/
def wire : Transport Wire :=
  { read := Wire.read, peek := Wire.peek, write := Wire.write }

/-- Bytes arriving from the proxy are put at the end of the receive queue. -/
def Wire.arrive (w : Wire) (bytes : List Nat) : Wire := { w with rx := w.rx ++ bytes }

/-- A session's socket receives `bytes`. -/
def arrive (s : CProxySocket Wire) (bytes : List Nat) : CProxySocket Wire :=
  { s with socket_ := s.socket_.arrive bytes }

/-- The driver run over a list of chunks: each chunk arrives, then `OnReceive` is called. -/
def deliver (env : Env) (fuel : Nat) : List (List Nat) → CProxySocket Wire →
    Option (CProxySocket Wire)
  | [], s => some s
  | c :: cs, s =>
    match OnReceive env wire fuel (arrive s c) with
    | none => none
    | some s => deliver env fuel cs s

/-! ## A sample environment -/

/-- A classifier in the manner of `fz::get_address_type` for the sample environment: text with
a colon counts as IPv6, four dot-separated runs of digits as IPv4. -/
def sample_address_type (h : List Nat) : address_type :=
  if h.contains 58 then address_type.ipv6
  else if h.all (fun c => c = 46 ∨ (48 ≤ c ∧ c ≤ 57)) ∧ h.count 46 = 3 then address_type.ipv4
  else address_type.unknown

/-- A sample environment for ASCII input: signed `char`, conversions that keep the code
units, no name resolution, zero-filled fresh arrays. -/
def sampleEnv : Env :=
  { char_is_signed := true
    to_utf8 := id
    to_string := id
    to_wstring_from_utf8 := id
    get_address_type_w := sample_address_type
    get_address_type := sample_address_type
    getaddrinfo := fun _ => (-2, none)
    address_to_string := id
    base64_encode := id
    get_ipv6_long_form := id
    hex_char_to_int := fun c => if 48 ≤ c ∧ c ≤ 57 then (c : Int) - 48 else -1
    PACKAGE_STRING := ascii "FileZilla 3.0"
    uninit := fun _ _ => 0 }

/-- An idle queue socket: nothing received, reads would block, writes are taken whole. -/
def idleWire : Wire := { rx := [], rxEnd := RxEnd.again, tx := [], txPlan := [] }

/-- The text of the IPv4 literal `a.b.c.d` in decimal. -/
def dotted_quad (a b c d : Nat) : List Nat :=
  sprintf_u a ++ [46] ++ sprintf_u b ++ [46] ++ sprintf_u c ++ [46] ++ sprintf_u d

/-- The value the octet loop accumulates over a run of digits, starting from `v`. -/
def octet_acc (v : Nat) (ds : List Nat) : Nat :=
  ds.foldl (fun (v c : Nat) => uchar (((uchar ((v : Int) * 10) : Nat) : Int) + ((c : Int) - 48))) v

/-- A session on an idle queue socket after `Handshake` and the first `OnSend` (the write
event that follows the connection to the proxy). -/
def started (env : Env) (type : ProxyType) (host : List Nat) (port : Nat)
    (user pass : List Nat) : CProxySocket Wire :=
  let s := (Handshake env type host port user pass (CProxySocket.init idleWire)).2
  (OnSend env wire 2 s).getD s

/-- What a failed transport call must lead to, from the session `s` before the call to the
session `r` after it: for an error other than `EAGAIN` exactly one more event, `Close(err)`,
and proxy state `noconn`; for `EAGAIN` no event, proxy state still `handshake`, and the
readiness flag `flag` of `r` cleared. -/
def closes_or_waits (s r : CProxySocket σ) (err : Int) (flag : Bool) : Prop :=
  (err ≠ EAGAIN → r.m_proxyState = ProxyState.noconn ∧
    r.events = s.events ++ [⟨socket_event_flag.close, err⟩]) ∧
  (err = EAGAIN → r.m_proxyState = ProxyState.handshake ∧ r.events = s.events ∧ flag = false)

/-- The status line of a reply: the bytes before the first CR. -/
def status_line (r : List Nat) : List Nat := r.takeWhile (fun b => b != 13)

/-- A reply header the HTTP case can take in: it ends with its first `"\r\n\r\n"`, holds no
NUL byte and is at most 4095 bytes long (the receive buffer less the byte kept for the NUL). -/
def http_header (r : List Nat) : Prop :=
  4 ≤ r.length ∧ r.length ≤ 4095 ∧ (∀ b ∈ r, b ≠ 0) ∧
    find_sub CRLFCRLF r = some (r.length - 4)

/-- The test of the status line made by the HTTP case, on the header `r`: the decoded status
line begins with `HTTP/1.1 2` or `HTTP/1.0 2`. -/
def http_accepts (env : Env) (r : List Nat) : Prop :=
  (env.to_wstring_from_utf8 (status_line r)).take 10 = ascii "HTTP/1.1 2" ∨
    (env.to_wstring_from_utf8 (status_line r)).take 10 = ascii "HTTP/1.0 2"

/-- The HTTP session after `k` bytes of the header `r` have been consumed and the queue has
run dry: those bytes are at the start of the receive buffer, `m_recvBufferPos` is `k`, and
nothing waits in the send buffer or in the queue. -/
def http_at (s : CProxySocket Wire) (r : List Nat) (k : Nat) : Prop :=
  s.m_proxyState = ProxyState.handshake ∧ s.m_handshakeState = handshake_state.http_wait ∧
    s.sendBuffer_ = [] ∧ s.m_pRecvBuffer.length = 4096 ∧ s.m_recvBufferLen = 4096 ∧
    s.m_recvBufferPos = k ∧ s.m_pRecvBuffer.take k = r.take k ∧
    s.socket_.rx = [] ∧ s.socket_.rxEnd = RxEnd.again

/-- The rest of a SOCKS5 CONNECT reply after the three bytes `RSV ATYP x` (`x` is the first
address byte, the length byte of a domain): 3 address bytes and the port for IPv4, 15 address
bytes and the port for IPv6, `x` name bytes and the port for a domain.  For a domain the
length byte must be one the driver reads back as itself through a plain `char`. -/
def socks5_tail_ok (env : Env) (atyp x : Nat) (tail : List Nat) : Prop :=
  (atyp = 1 ∧ tail.length = 5) ∨ (atyp = 4 ∧ tail.length = 17) ∨
    (atyp = 3 ∧ tail.length = x + 2 ∧ x ≤ 255 ∧ (env.char_is_signed = false ∨ x < 128))

/-- The frames of a correct server reply from handshake state `st` on, in the units the
driver reads them: the method reply `05 00` or `05 02`, after `05 02` the authentication reply
`01 00`, then the CONNECT reply `05 00`, `RSV ATYP x`, and the rest of the address with the
port. -/
def socks5_plan (env : Env) : handshake_state → List (List Nat) → Prop
  | _, [] => False
  | st, f :: fs =>
    match st with
    | handshake_state.socks5_method =>
      (f = [5, 0] ∧ socks5_plan env handshake_state.socks5_request fs) ∨
        (f = [5, 2] ∧ socks5_plan env handshake_state.socks5_auth fs)
    | handshake_state.socks5_auth =>
      f = [1, 0] ∧ socks5_plan env handshake_state.socks5_request fs
    | handshake_state.socks5_request =>
      f = [5, 0] ∧ socks5_plan env handshake_state.socks5_request_addrtype fs
    | handshake_state.socks5_request_addrtype =>
      ∃ rsv atyp x tail, f = [rsv, atyp, x] ∧ fs = [tail] ∧ socks5_tail_ok env atyp x tail
    | handshake_state.socks5_request_address => fs = []
    | _ => False

/-- The SOCKS5 session that awaits the frames `fs`, with the first `k` bytes of the first frame
already in the receive buffer and `rx` waiting in the queue: nothing is left to send, and
writes are taken whole. -/
def socks5_at (env : Env) (s : CProxySocket Wire) (fs : List (List Nat)) (k : Nat)
    (rx : List Nat) : Prop :=
  s.m_proxyState = ProxyState.handshake ∧ s.sendBuffer_ = [] ∧ s.m_can_write = true ∧
    s.m_pRecvBuffer.length = 1024 ∧ s.socket_.rx = rx ∧ s.socket_.rxEnd = RxEnd.again ∧
    s.socket_.txPlan = [] ∧ socks5_plan env s.m_handshakeState fs ∧
    ∃ f rest, fs = f :: rest ∧ k < f.length ∧ f.length ≤ 1024 ∧
      s.m_recvBufferPos = k ∧ s.m_recvBufferLen = (f.length : Int) - k ∧
      s.m_pRecvBuffer.take k = f.take k

/-- The SOCKS4 session that awaits the reply `f`, with its first `k` bytes already in the
receive buffer and `rx` waiting in the queue. -/
def socks4_at (s : CProxySocket Wire) (f : List Nat) (k : Nat) (rx : List Nat) : Prop :=
  s.m_proxyState = ProxyState.handshake ∧
    s.m_handshakeState = handshake_state.socks4_handshake ∧
    s.m_pRecvBuffer.length = 8 ∧ s.socket_.rx = rx ∧ s.socket_.rxEnd = RxEnd.again ∧
    f.length = 8 ∧ k < 8 ∧ s.m_recvBufferPos = k ∧ s.m_recvBufferLen = 8 - (k : Int) ∧
    s.m_pRecvBuffer.take k = f.take k

/-- A session ready for the server's reply, as `Handshake` and the complete sending of the
first request leave it on an idle queue socket. -/
def ready (s : CProxySocket Wire) : Prop :=
  s.m_proxyState = ProxyState.handshake ∧ s.sendBuffer_ = [] ∧ s.m_can_write = true ∧
    s.m_recvBufferPos = 0 ∧ s.socket_.rx = [] ∧ s.socket_.rxEnd = RxEnd.again ∧
    s.socket_.txPlan = [] ∧
    ((s.m_handshakeState = handshake_state.http_wait ∧ s.m_recvBufferLen = 4096 ∧
        s.m_pRecvBuffer.length = 4096) ∨
      (s.m_handshakeState = handshake_state.socks4_handshake ∧ s.m_recvBufferLen = 8 ∧
        s.m_pRecvBuffer.length = 8) ∨
      (s.m_handshakeState = handshake_state.socks5_method ∧ s.m_recvBufferLen = 2 ∧
        s.m_pRecvBuffer.length = 1024))

/-- A correct server reply for the session `s`, within what the driver takes in: for HTTP a
header (`http_header`) with a 2xx status line of HTTP/1.0 or HTTP/1.1; for SOCKS4 eight bytes
with status `0x5A`; for SOCKS5 the frames of `socks5_plan`. -/
def correct_reply (env : Env) (s : CProxySocket Wire) (reply : List Nat) : Prop :=
  match s.m_handshakeState with
  | handshake_state.http_wait => http_header reply ∧ http_accepts env reply
  | handshake_state.socks4_handshake => reply.length = 8 ∧ reply.getD 1 0 = 0x5A
  | handshake_state.socks5_method =>
    ∃ fs, socks5_plan env handshake_state.socks5_method fs ∧ reply = fs.flatten
  | _ => False

/-- The session after `OnSend` has written the whole send buffer to a queue socket that takes
every write whole, at the moment it re-enters `OnReceive`. -/
def socks5_sent (s : CProxySocket Wire) : CProxySocket Wire :=
  { s with
    m_can_write := true
    socket_ := { s.socket_ with tx := s.socket_.tx ++ s.sendBuffer_ }
    trace := s.trace ++ [IoOp.write s.sendBuffer_]
    sendBuffer_ := []
    m_can_read := true }

/-- The session in which the SOCKS5 loop goes on after a complete frame, on such a socket:
the result of the three `switch` statements, with the queued request written if there is
one. -/
def socks5_next (env : Env) (s : CProxySocket Wire) : CProxySocket Wire :=
  match socks5_parse env s with
  | Sum.inl r => r
  | Sum.inr s2 =>
    if s2.sendBuffer_ ≠ [] ∧ s2.m_can_write = true then socks5_sent s2 else s2

/-- The long (non-abbreviated) text form of an IPv6 address with the 32 hex digits `ds`:
eight groups of four digits, separated by colons (39 characters). -/
def ipv6_long_text (ds : List Nat) : List Nat :=
  (List.range 39).map (fun j => if j % 5 = 4 then 58 else ds.getD (j - j / 5) 0)

/-- The value of a hex digit character as `fz::hex_char_to_int` gives it. -/
def nibble (env : Env) (c : Nat) : Nat := (env.hex_char_to_int c).toNat

/-- Sixteen address bytes packed from 32 hex digits, two consecutive digits per byte, the
first of the two in the high nibble. -/
def pack_hex (env : Env) (ds : List Nat) : List Nat :=
  (List.range 16).map (fun i => nibble env (ds.getD (2 * i) 0) * 16 + nibble env (ds.getD (2 * i + 1) 0))

/-- The Base64 alphabet of RFC 4648. -/
def base64_alphabet : List Nat :=
  ascii "ABCDEFGHIJKLMNOPQRSTUVWXYZabcdefghijklmnopqrstuvwxyz0123456789+/"

/-- The Base64 encoding of RFC 4648, with padding (what `fz::base64_encode` computes), for the
sample environment `authEnv`. -/
def base64 : List Nat → List Nat
  | [] => []
  | [a] => [base64_alphabet.getD (a / 4) 0, base64_alphabet.getD (a % 4 * 16) 0, 61, 61]
  | [a, b] =>
    [base64_alphabet.getD (a / 4) 0, base64_alphabet.getD (a % 4 * 16 + b / 16) 0,
      base64_alphabet.getD (b % 16 * 4) 0, 61]
  | a :: b :: c :: rest =>
    base64_alphabet.getD (a / 4) 0 :: base64_alphabet.getD (a % 4 * 16 + b / 16) 0 ::
      base64_alphabet.getD (b % 16 * 4 + c / 64) 0 :: base64_alphabet.getD (c % 64) 0 ::
      base64 rest

/-- The sample environment with Base64 for `fz::base64_encode`. -/
def authEnv : Env := { sampleEnv with base64_encode := base64 }

/-- Worker of `utf8_decode`; the first argument bounds the number of code points. -/
def utf8_go : Nat → List Nat → Option (List Nat)
  | 0, l => if l = [] then some [] else none
  | _ + 1, [] => some []
  | f + 1, b :: rest =>
    if b < 0x80 then (utf8_go f rest).map (fun t => b :: t)
    else if 0xC2 ≤ b ∧ b ≤ 0xDF then
      match rest with
      | c :: rest =>
        if 0x80 ≤ c ∧ c ≤ 0xBF then
          (utf8_go f rest).map (fun t => (b % 32 * 64 + c % 64) :: t)
        else none
      | _ => none
    else if 0xE0 ≤ b ∧ b ≤ 0xEF then
      match rest with
      | c :: d :: rest =>
        if 0x80 ≤ c ∧ c ≤ 0xBF ∧ 0x80 ≤ d ∧ d ≤ 0xBF then
          (utf8_go f rest).map (fun t => (b % 16 * 4096 + c % 64 * 64 + d % 64) :: t)
        else none
      | _ => none
    else if 0xF0 ≤ b ∧ b ≤ 0xF4 then
      match rest with
      | c :: d :: e :: rest =>
        if 0x80 ≤ c ∧ c ≤ 0xBF ∧ 0x80 ≤ d ∧ d ≤ 0xBF ∧ 0x80 ≤ e ∧ e ≤ 0xBF then
          (utf8_go f rest).map
            (fun t => (b % 8 * 262144 + c % 64 * 4096 + d % 64 * 64 + e % 64) :: t)
        else none
      | _ => none
    else none

/-- A UTF-8 decoder to code points that fails on a byte sequence that is not UTF-8 (lead bytes
`00..7F`, `C2..DF`, `E0..EF`, `F0..F4` with their continuation bytes `80..BF`). -/
def utf8_decode (l : List Nat) : Option (List Nat) := utf8_go l.length l

/-- The sample environment with a `fz::to_wstring_from_utf8` that decodes UTF-8 and gives the
empty string for input that is not UTF-8. -/
def strictEnv : Env :=
  { sampleEnv with to_wstring_from_utf8 := fun l => (utf8_decode l).getD [] }

/-- The member function `CProxySocket::Read(void*, unsigned int, int& error)`: the return
value and the error code it sets. -/
def Read (_size : Nat) : Int × Int := (-1, EAGAIN)

/-- The member function `CProxySocket::Peek(void*, unsigned int, int& error)`: the return
value and the error code it sets. -/
def Peek (_size : Nat) : Int × Int := (-1, EAGAIN)

/-- The member function `CProxySocket::Write(const void*, unsigned int, int& error)`: the
return value and the error code it sets. -/
def Write (_buffer : List Nat) : Int × Int := (-1, EAGAIN)

/-- Every element of the list is a byte. -/
def bytes_ok (l : List Nat) : Prop := ∀ b ∈ l, b < 256

/-- The size of the buffer range a read or peek may touch, by protocol: 4096 for HTTP, 8 for
SOCKS4 and 262 for SOCKS5. -/
def io_bound : handshake_state → Int
  | handshake_state.http_wait => 4096
  | handshake_state.socks4_handshake => 8
  | _ => 262

/-- A recorded transport call stays inside the range: a read or peek has a non-negative
offset and `offset + length` at most `bound`; a NUL store has an index in 0..4095. -/
def op_ok (bound : Int) : IoOp → Prop
  | IoOp.peek pos len _ => 0 ≤ pos ∧ pos + (len : Int) ≤ bound
  | IoOp.read pos len _ => 0 ≤ pos ∧ pos + (len : Int) ≤ bound
  | IoOp.write _ => True
  | IoOp.nul idx => 0 ≤ idx ∧ idx ≤ 4095

/-- Every transport call the session has made stays inside the range of its protocol. -/
def trace_ok (s : CProxySocket Wire) : Prop :=
  ∀ op ∈ s.trace, op_ok (io_bound s.m_handshakeState) op

/-- What holds of the receive need between two calls while the handshake runs: the need is
positive and the range `m_recvBufferPos .. m_recvBufferPos + m_recvBufferLen` lies in the
buffer (for HTTP the range `m_recvBufferPos .. 4095`, and the bytes consumed so far hold no
terminator before a NUL). -/
def need_ok (s : CProxySocket Wire) : Prop :=
  match s.m_handshakeState with
  | handshake_state.http_wait =>
    0 ≤ s.m_recvBufferPos ∧ s.m_recvBufferPos ≤ 4094 ∧ s.m_recvBufferLen = 4096 ∧
      s.m_pRecvBuffer.length = 4096 ∧
      find_sub CRLFCRLF (c_str (s.m_pRecvBuffer.take s.m_recvBufferPos.toNat)) = none
  | handshake_state.socks4_handshake =>
    0 ≤ s.m_recvBufferPos ∧ 0 < s.m_recvBufferLen ∧
      s.m_recvBufferPos + s.m_recvBufferLen ≤ 8 ∧ 8 ≤ s.m_pRecvBuffer.length
  | handshake_state.socks5_request_addrtype =>
    0 ≤ s.m_recvBufferPos ∧ 0 < s.m_recvBufferLen ∧
      s.m_recvBufferPos + s.m_recvBufferLen = 3 ∧ 262 ≤ s.m_pRecvBuffer.length ∧
      bytes_ok (s.m_pRecvBuffer.take s.m_recvBufferPos.toNat)
  | _ =>
    0 ≤ s.m_recvBufferPos ∧ 0 < s.m_recvBufferLen ∧
      s.m_recvBufferPos + s.m_recvBufferLen ≤ 262 ∧ 262 ≤ s.m_pRecvBuffer.length

/-- The invariant of the driver on the queue transport: the bytes waiting are bytes, every
transport call so far was in range, and while the handshake runs `need_ok` holds. -/
def driver_inv (s : CProxySocket Wire) : Prop :=
  bytes_ok s.socket_.rx ∧ trace_ok s ∧ (s.m_proxyState = ProxyState.handshake → need_ok s)

/-- The sessions reachable from `s0`: between two events the transport may change in any way
(bytes arrive, the peer closes, writes block), and each event is one `OnSocketEvent` call. -/
inductive Reach (env : Env) (s0 : CProxySocket Wire) : CProxySocket Wire → Prop
  | start : Reach env s0 s0
  | transport (s : CProxySocket Wire) (w : Wire) :
      Reach env s0 s → bytes_ok w.rx → Reach env s0 { s with socket_ := w }
  | event (s r : CProxySocket Wire) (fuel : Nat) (t : socket_event_flag) (error : Int) :
      Reach env s0 s → OnSocketEvent env wire fuel t error s = some r → Reach env s0 r

/-- The size of the buffer range a read or peek may touch, by proxy type. -/
def proto_bound : ProxyType → Int
  | ProxyType.HTTP => 4096
  | ProxyType.SOCKS4 => 8
  | _ => 262

/-- The sample environment on a platform where plain `char` is unsigned. -/
def unsignedEnv : Env := { sampleEnv with char_is_signed := false }

/-- No write waiting in the plan of the queue transport is answered with `EAGAIN`: each one is
taken, whole or in part, or fails for good. -/
def never_blocks (w : Wire) : Prop := WriteResult.error EAGAIN ∉ w.txPlan

/-- Every read in the record of transport calls was issued with an empty send buffer. -/
def reads_flushed (tr : List IoOp) : Prop :=
  ∀ pos len pending, IoOp.read pos len pending ∈ tr → pending = 0

/-- The invariant of a SOCKS5 session on a transport that never answers a write with `EAGAIN`:
every read so far found the send buffer empty, and `m_can_write` is set once the buffer has
been emptied. -/
def flush_inv (s : CProxySocket Wire) : Prop :=
  never_blocks s.socket_ ∧ io_bound s.m_handshakeState = 262 ∧ reads_flushed s.trace ∧
    (s.m_proxyState = ProxyState.handshake → s.sendBuffer_ = [] → s.m_can_write = true)

/-- The sessions reachable from `s0` when no write is answered with `EAGAIN`: between two
events the transport may change in any other way, and each event is one `OnSocketEvent`
call. -/
inductive ReachUnblocked (env : Env) (s0 : CProxySocket Wire) : CProxySocket Wire → Prop
  | start : ReachUnblocked env s0 s0
  | transport (s : CProxySocket Wire) (w : Wire) :
      ReachUnblocked env s0 s → never_blocks w → ReachUnblocked env s0 { s with socket_ := w }
  | event (s r : CProxySocket Wire) (fuel : Nat) (t : socket_event_flag) (error : Int) :
      ReachUnblocked env s0 s → OnSocketEvent env wire fuel t error s = some r →
      ReachUnblocked env s0 r

/-! # Theorems -/

/-! ## Handshake -/

theorem parse_ipv4_length (p : List Nat) (i : Nat) (out : List Nat) :
    (parse_ipv4 p i out).length = out.length := by
  induction p generalizing i out with
  | nil => simp [parse_ipv4]
  | cons c p ih =>
    simp only [parse_ipv4]
    split_ifs
    · rfl
    · exact ih _ _
    · rw [ih]; simp

theorem poke_length (buf : List Nat) (i : Int) (b : Nat) : (poke buf i b).length = buf.length := by
  unfold poke; split_ifs <;> simp

theorem store_length (buf : List Nat) (pos : Int) (bytes : List Nat) :
    (store buf pos bytes).length = buf.length := by
  induction bytes generalizing buf pos with
  | nil => simp [store]
  | cons b bs ih => simp [store, ih, poke_length]

theorem socks4_request_length (port : Nat) (ip : List Nat) :
    (socks4_request port ip).length = 9 := by
  simp [socks4_request, parse_ipv4_length, store_length]

theorem ascii_connect : ascii "CONNECT " = [67, 79, 78, 78, 69, 67, 84, 32] := by decide

theorem http_request_ne_nil (env : Env) (host : List Nat) (port : Nat) (user mu mp : List Nat) :
    http_request env host port user mu mp ≠ [] := by
  simp [http_request, ascii_connect]

/-- C2: for every valid input given to `Handshake` on a session in state `noconn` (type HTTP,
SOCKS4 or SOCKS5, non-empty host, port in 1..65535, for SOCKS5 user and pass of at most 255
UTF-8 bytes, for SOCKS4 a host classified as an IPv4 literal), the call returns `EINPROGRESS`,
the proxy state is `handshake` and the send buffer is non-empty. -/
theorem Handshake_valid (env : Env) (type : ProxyType) (host : List Nat) (port : Nat)
    (user pass : List Nat) (s : CProxySocket σ)
    (hstate : s.m_proxyState = ProxyState.noconn)
    (htype : type = ProxyType.HTTP ∨ type = ProxyType.SOCKS4 ∨ type = ProxyType.SOCKS5)
    (hhost : host ≠ []) (hport : 1 ≤ port ∧ port ≤ 65535)
    (hcred : type = ProxyType.SOCKS5 →
      (env.to_utf8 user).length ≤ 255 ∧ (env.to_utf8 pass).length ≤ 255)
    (hip : type = ProxyType.SOCKS4 → env.get_address_type_w host = address_type.ipv4) :
    (Handshake env type host port user pass s).1 = EINPROGRESS ∧
    (Handshake env type host port user pass s).2.m_proxyState = ProxyState.handshake ∧
    (Handshake env type host port user pass s).2.sendBuffer_ ≠ [] := by
  have hp1 : ¬ port < 1 := by omega
  have hp2 : ¬ port > 65535 := by omega
  rcases htype with h | h | h
  · subst h
    simp [Handshake, hstate, hhost, hp1, hp2, http_request_ne_nil]
  · subst h
    have h4 := hip rfl
    have hne : socks4_request port (env.to_string host) ≠ [] := by
      intro h0
      have := socks4_request_length port (env.to_string host)
      rw [h0] at this
      simp at this
    simp [Handshake, hstate, hhost, hp1, hp2, h4, LogMessage, hne]
  · subst h
    obtain ⟨hu, hpw⟩ := hcred rfl
    have hu' : ¬ (env.to_utf8 user).length > 255 := by omega
    have hpw' : ¬ (env.to_utf8 pass).length > 255 := by omega
    simp only [Handshake, hstate, hhost, hp1, hp2, hu', hpw']
    by_cases hue : user = [] <;> simp [hue]

theorem Handshake_valid_witness :
    (Handshake sampleEnv ProxyType.SOCKS4 (ascii "1.2.3.4") 80 [] []
      (CProxySocket.init idleWire)).1 = EINPROGRESS ∧
    (Handshake sampleEnv ProxyType.SOCKS4 (ascii "1.2.3.4") 80 [] []
      (CProxySocket.init idleWire)).2.m_proxyState = ProxyState.handshake ∧
    (Handshake sampleEnv ProxyType.SOCKS4 (ascii "1.2.3.4") 80 [] []
      (CProxySocket.init idleWire)).2.sendBuffer_ ≠ [] :=
  Handshake_valid sampleEnv ProxyType.SOCKS4 (ascii "1.2.3.4") 80 [] []
    (CProxySocket.init idleWire) rfl (Or.inr (Or.inl rfl)) (by decide) (by decide)
    (by intro h; cases h) (by intro _; decide)

/-- The first check of `Handshake` rejects without touching the session. -/
theorem Handshake_early_reject (env : Env) (type : ProxyType) (host : List Nat) (port : Nat)
    (user pass : List Nat) (s : CProxySocket σ)
    (hbad : type = ProxyType.unknown ∨ host = [] ∨ port < 1 ∨ port > 65535) :
    Handshake env type host port user pass s = (EINVAL, s) := by
  simp only [Handshake, if_pos hbad]

/-- C1 (what the code does at the late checks): on a session in state `noconn`, with a
non-empty host and a port in 1..65535, a SOCKS4 call whose host is IPv6 or does not resolve,
and a SOCKS5 call whose user or pass is longer than 255 UTF-8 bytes, return `EINVAL` but leave
the proxy state at `handshake`, not `noconn`. -/
theorem Handshake_late_reject_leaves_handshake (env : Env) (type : ProxyType)
    (host : List Nat) (port : Nat) (user pass : List Nat) (s : CProxySocket σ)
    (hstate : s.m_proxyState = ProxyState.noconn)
    (hhost : host ≠ []) (hport : 1 ≤ port ∧ port ≤ 65535)
    (hbad : (type = ProxyType.SOCKS4 ∧ env.get_address_type_w host = address_type.ipv6) ∨
      (type = ProxyType.SOCKS4 ∧ env.get_address_type_w host = address_type.unknown ∧
        (env.getaddrinfo (env.to_string host)).2 = none) ∨
      (type = ProxyType.SOCKS5 ∧
        ((env.to_utf8 user).length > 255 ∨ (env.to_utf8 pass).length > 255))) :
    (Handshake env type host port user pass s).1 = EINVAL ∧
    (Handshake env type host port user pass s).2.m_proxyState = ProxyState.handshake := by
  have hp1 : ¬ port < 1 := by omega
  have hp2 : ¬ port > 65535 := by omega
  rcases hbad with ⟨ht, h6⟩ | ⟨ht, hu, hr⟩ | ⟨ht, hl⟩
  · subst ht
    simp [Handshake, hstate, hhost, hp1, hp2, h6, LogMessage]
  · subst ht
    have hsplit : env.getaddrinfo (env.to_string host)
        = ((env.getaddrinfo (env.to_string host)).1, none) := by
      rw [← hr]
    simp only [Handshake, hstate, hhost, hp1, hp2, hu]
    rw [hsplit]
    simp [LogMessage]
  · subst ht
    have hl' : (env.to_utf8 user).length > 255 ∨ (env.to_utf8 pass).length > 255 := hl
    simp only [Handshake, hstate, hhost, hp1, hp2]
    simp [hl', LogMessage]

theorem Handshake_late_reject_witness :
    (Handshake sampleEnv ProxyType.SOCKS5 (ascii "h") 80 (List.replicate 256 97) []
      (CProxySocket.init idleWire)).1 = EINVAL ∧
    (Handshake sampleEnv ProxyType.SOCKS5 (ascii "h") 80 (List.replicate 256 97) []
      (CProxySocket.init idleWire)).2.m_proxyState = ProxyState.handshake :=
  Handshake_late_reject_leaves_handshake sampleEnv ProxyType.SOCKS5 (ascii "h") 80
    (List.replicate 256 97) [] (CProxySocket.init idleWire) rfl (by decide) (by decide)
    (Or.inr (Or.inr ⟨rfl, Or.inl (by
      show (List.replicate 256 97).length > 255
      rw [List.length_replicate]
      decide)⟩))

/-- C10: for every valid SOCKS5 input (session in `noconn`, non-empty host, port in 1..65535,
user and pass of at most 255 UTF-8 bytes), `Handshake` appends to the send buffer exactly
`05 01 00` when `user` is empty and exactly `05 02 00 02` when it is not, and sets the receive
need `m_recvBufferLen` to 2 (with `m_recvBufferPos` 0 and state `socks5_method`). -/
theorem Handshake_socks5_method_request (env : Env) (host : List Nat) (port : Nat)
    (user pass : List Nat) (s : CProxySocket σ)
    (hstate : s.m_proxyState = ProxyState.noconn)
    (hhost : host ≠ []) (hport : 1 ≤ port ∧ port ≤ 65535)
    (hu : (env.to_utf8 user).length ≤ 255) (hpw : (env.to_utf8 pass).length ≤ 255) :
    (Handshake env ProxyType.SOCKS5 host port user pass s).1 = EINPROGRESS ∧
    (Handshake env ProxyType.SOCKS5 host port user pass s).2.sendBuffer_ =
      s.sendBuffer_ ++ (if user = [] then [5, 1, 0] else [5, 2, 0, 2]) ∧
    (Handshake env ProxyType.SOCKS5 host port user pass s).2.m_recvBufferLen = 2 ∧
    (Handshake env ProxyType.SOCKS5 host port user pass s).2.m_recvBufferPos = 0 ∧
    (Handshake env ProxyType.SOCKS5 host port user pass s).2.m_handshakeState =
      handshake_state.socks5_method := by
  have hp1 : ¬ port < 1 := by omega
  have hp2 : ¬ port > 65535 := by omega
  have hu' : ¬ (env.to_utf8 user).length > 255 := by omega
  have hpw' : ¬ (env.to_utf8 pass).length > 255 := by omega
  simp only [Handshake, hstate, hhost, hp1, hp2, hu', hpw']
  by_cases hue : user = [] <;> simp [hue]

theorem Handshake_socks5_method_request_witness :
    (Handshake sampleEnv ProxyType.SOCKS5 (ascii "::1") 22 (ascii "u") (ascii "p")
      (CProxySocket.init idleWire)).1 = EINPROGRESS ∧
    (Handshake sampleEnv ProxyType.SOCKS5 (ascii "::1") 22 (ascii "u") (ascii "p")
      (CProxySocket.init idleWire)).2.sendBuffer_ =
      (CProxySocket.init idleWire).sendBuffer_ ++
        (if ascii "u" = [] then [5, 1, 0] else [5, 2, 0, 2]) ∧
    (Handshake sampleEnv ProxyType.SOCKS5 (ascii "::1") 22 (ascii "u") (ascii "p")
      (CProxySocket.init idleWire)).2.m_recvBufferLen = 2 ∧
    (Handshake sampleEnv ProxyType.SOCKS5 (ascii "::1") 22 (ascii "u") (ascii "p")
      (CProxySocket.init idleWire)).2.m_recvBufferPos = 0 ∧
    (Handshake sampleEnv ProxyType.SOCKS5 (ascii "::1") 22 (ascii "u") (ascii "p")
      (CProxySocket.init idleWire)).2.m_handshakeState = handshake_state.socks5_method :=
  Handshake_socks5_method_request sampleEnv (ascii "::1") 22 (ascii "u") (ascii "p")
    (CProxySocket.init idleWire) rfl (by decide) (by decide) (by decide) (by decide)

/-! ## Calls after the handshake has ended -/

/-- C7: once the proxy state is no longer `handshake`, every further `OnReceive` or `OnSend`
call returns at once: it emits no event, makes no transport call (the socket state and the
record of calls are unchanged) and leaves the proxy state, the handshake state, the send
buffer and the receive buffer with its position and need unchanged. -/
theorem post_terminal_noop (env : Env) (T : Transport σ) (fuel : Nat) (s : CProxySocket σ)
    (h : s.m_proxyState ≠ ProxyState.handshake) :
    OnReceive env T (fuel + 1) s = some { s with m_can_read := true } ∧
    OnSend env T (fuel + 1) s = some { s with m_can_write := true } ∧
    ∀ r, (OnReceive env T (fuel + 1) s = some r ∨ OnSend env T (fuel + 1) s = some r) →
      r.events = s.events ∧ r.trace = s.trace ∧ r.socket_ = s.socket_ ∧
      r.m_proxyState = s.m_proxyState ∧ r.m_handshakeState = s.m_handshakeState ∧
      r.sendBuffer_ = s.sendBuffer_ ∧ r.m_pRecvBuffer = s.m_pRecvBuffer ∧
      r.m_recvBufferPos = s.m_recvBufferPos ∧ r.m_recvBufferLen = s.m_recvBufferLen := by
  have h1 : OnReceive env T (fuel + 1) s = some { s with m_can_read := true } := by
    simp [OnReceive, OnReceive_body, h]
  have h2 : OnSend env T (fuel + 1) s = some { s with m_can_write := true } := by
    simp [OnSend, OnSend_body, h]
  refine ⟨h1, h2, ?_⟩
  intro r hr
  rcases hr with hr | hr
  · rw [h1] at hr
    cases hr
    simp
  · rw [h2] at hr
    cases hr
    simp

theorem post_terminal_noop_witness :
    OnReceive sampleEnv wire (0 + 1) (succeed (CProxySocket.init idleWire)) =
      some { succeed (CProxySocket.init idleWire) with m_can_read := true } ∧
    OnSend sampleEnv wire (0 + 1) (succeed (CProxySocket.init idleWire)) =
      some { succeed (CProxySocket.init idleWire) with m_can_write := true } ∧
    ∀ r, (OnReceive sampleEnv wire (0 + 1) (succeed (CProxySocket.init idleWire)) = some r ∨
        OnSend sampleEnv wire (0 + 1) (succeed (CProxySocket.init idleWire)) = some r) →
      r.events = (succeed (CProxySocket.init idleWire)).events ∧
      r.trace = (succeed (CProxySocket.init idleWire)).trace ∧
      r.socket_ = (succeed (CProxySocket.init idleWire)).socket_ ∧
      r.m_proxyState = (succeed (CProxySocket.init idleWire)).m_proxyState ∧
      r.m_handshakeState = (succeed (CProxySocket.init idleWire)).m_handshakeState ∧
      r.sendBuffer_ = (succeed (CProxySocket.init idleWire)).sendBuffer_ ∧
      r.m_pRecvBuffer = (succeed (CProxySocket.init idleWire)).m_pRecvBuffer ∧
      r.m_recvBufferPos = (succeed (CProxySocket.init idleWire)).m_recvBufferPos ∧
      r.m_recvBufferLen = (succeed (CProxySocket.init idleWire)).m_recvBufferLen :=
  post_terminal_noop sampleEnv wire 0 (succeed (CProxySocket.init idleWire)) (by decide)

/-! ## The SOCKS4 request -/

theorem set_getD_self (l : List Nat) (i d : Nat) : l.set i (l.getD i d) = l := by
  induction l generalizing i with
  | nil => simp
  | cons a l ih =>
    cases i with
    | zero => simp
    | succ n => simpa using ih n

theorem parse_ipv4_digits (ds rest : List Nat) (i : Nat) (out : List Nat)
    (hds : ∀ c ∈ ds, 48 ≤ c ∧ c ≤ 57) (hi : i < 4) (hlen : i + 4 < out.length) :
    parse_ipv4 (ds ++ rest) i out =
      parse_ipv4 rest i (out.set (i + 4) (octet_acc (out.getD (i + 4) 0) ds)) := by
  induction ds generalizing out with
  | nil =>
    simp only [List.nil_append, octet_acc, List.foldl_nil]
    rw [set_getD_self]
  | cons c ds ih =>
    have hc := hds c (List.mem_cons_self _ _)
    have hc0 : ¬ (c = 0 ∨ ¬ i < 4) := by omega
    have hc46 : c ≠ 46 := by omega
    rw [List.cons_append]
    simp only [parse_ipv4, if_neg hc0, if_neg hc46]
    rw [ih _ (fun x hx => hds x (List.mem_cons_of_mem _ hx)) (by simpa using hlen)]
    congr 1
    simp [octet_acc, List.getD_eq_getElem, hlen]

set_option maxRecDepth 100000 in
theorem octet_text : ∀ a, a < 256 →
    ((∀ c ∈ sprintf_u a, 48 ≤ c ∧ c ≤ 57) ∧ octet_acc 0 (sprintf_u a) = a) := by
  decide!

theorem port_bytes (port : Nat) (h : port ≤ 65535) :
    (port >>> 8) &&& 0xFF = port / 256 ∧ port &&& 0xFF = port % 256 := by
  have h1 : ∀ x : Nat, x &&& 0xFF = x % 256 := fun x => Nat.and_pow_two_sub_one_eq_mod x 8
  rw [h1, h1, Nat.shiftRight_eq_div_pow]
  refine ⟨?_, rfl⟩
  apply Nat.mod_eq_of_lt
  omega

theorem socks4_request_eq (port : Nat) (ip : List Nat) :
    socks4_request port ip =
      parse_ipv4 ip 0 [4, 1, (port >>> 8) &&& 0xFF, port &&& 0xFF, 0, 0, 0, 0, 0] := by
  rfl

theorem parse_ipv4_dot (p : List Nat) (i : Nat) (out : List Nat) (hi : i < 4) :
    parse_ipv4 (46 :: p) i out = parse_ipv4 p (i + 1) out := by
  simp [parse_ipv4, hi]

theorem parse_ipv4_dotted (a b c d : Nat) (x0 x1 x2 x3 x8 : Nat)
    (ha : a < 256) (hb : b < 256) (hc : c < 256) (hd : d < 256) :
    parse_ipv4 (dotted_quad a b c d) 0 [x0, x1, x2, x3, 0, 0, 0, 0, x8] =
      [x0, x1, x2, x3, a, b, c, d, x8] := by
  obtain ⟨da, ea⟩ := octet_text a ha
  obtain ⟨db, eb⟩ := octet_text b hb
  obtain ⟨dc, ec⟩ := octet_text c hc
  obtain ⟨dd, ed⟩ := octet_text d hd
  have e : dotted_quad a b c d = sprintf_u a ++ (46 :: (sprintf_u b ++ (46 :: (sprintf_u c ++
      (46 :: (sprintf_u d ++ [])))))) := by
    simp [dotted_quad]
  rw [e, parse_ipv4_digits _ _ _ _ da (by decide) (by simp)]
  rw [parse_ipv4_dot _ _ _ (by decide), parse_ipv4_digits _ _ _ _ db (by decide) (by simp)]
  rw [parse_ipv4_dot _ _ _ (by decide), parse_ipv4_digits _ _ _ _ dc (by decide) (by simp)]
  rw [parse_ipv4_dot _ _ _ (by decide), parse_ipv4_digits _ _ _ _ dd (by decide) (by simp)]
  simp [parse_ipv4, ea, eb, ec, ed]

/-- C8: for every IPv4 literal `a.b.c.d` (each octet in 0..255) and every port in 1..65535,
`Handshake(SOCKS4, ...)` on a session in `noconn` appends to the send buffer exactly the nine
bytes `04 01 port_hi port_lo a b c d 00`, where `port_hi * 256 + port_lo = port`
(`port_hi = port / 256`, `port_lo = port % 256`), and returns `EINPROGRESS`. -/
theorem Handshake_socks4_request (env : Env) (host : List Nat) (port a b c d : Nat)
    (user pass : List Nat) (s : CProxySocket σ)
    (hstate : s.m_proxyState = ProxyState.noconn)
    (hhost : host ≠ []) (hport : 1 ≤ port ∧ port ≤ 65535)
    (ha : a < 256) (hb : b < 256) (hc : c < 256) (hd : d < 256)
    (hip : env.get_address_type_w host = address_type.ipv4)
    (htext : env.to_string host = dotted_quad a b c d) :
    (Handshake env ProxyType.SOCKS4 host port user pass s).1 = EINPROGRESS ∧
    (Handshake env ProxyType.SOCKS4 host port user pass s).2.sendBuffer_ =
      s.sendBuffer_ ++ [4, 1, port / 256, port % 256, a, b, c, d, 0] ∧
    port / 256 * 256 + port % 256 = port ∧ port / 256 < 256 ∧ port % 256 < 256 := by
  have hp1 : ¬ port < 1 := by omega
  have hp2 : ¬ port > 65535 := by omega
  obtain ⟨e1, e2⟩ := port_bytes port hport.2
  have hreq : socks4_request port (dotted_quad a b c d) =
      [4, 1, port / 256, port % 256, a, b, c, d, 0] := by
    rw [socks4_request_eq, parse_ipv4_dotted a b c d _ _ _ _ _ ha hb hc hd, e1, e2]
  refine ⟨?_, ?_, by omega, by omega, by omega⟩
  · simp [Handshake, hstate, hhost, hp1, hp2, hip, LogMessage]
  · simp [Handshake, hstate, hhost, hp1, hp2, hip, LogMessage, htext, hreq]

theorem Handshake_socks4_request_witness :
    (Handshake sampleEnv ProxyType.SOCKS4 (ascii "1.2.3.4") 80 [] []
      (CProxySocket.init idleWire)).1 = EINPROGRESS ∧
    (Handshake sampleEnv ProxyType.SOCKS4 (ascii "1.2.3.4") 80 [] []
      (CProxySocket.init idleWire)).2.sendBuffer_ =
      (CProxySocket.init idleWire).sendBuffer_ ++ [4, 1, 80 / 256, 80 % 256, 1, 2, 3, 4, 0] ∧
    80 / 256 * 256 + 80 % 256 = 80 ∧ 80 / 256 < 256 ∧ 80 % 256 < 256 :=
  Handshake_socks4_request sampleEnv (ascii "1.2.3.4") 80 1 2 3 4 [] []
    (CProxySocket.init idleWire) rfl (by decide) (by decide) (by decide) (by decide)
    (by decide) (by decide) (by decide) (by decide)

/-! ## Buffer stores -/

theorem poke_nat (buf : List Nat) (p : Nat) (b : Nat) : poke buf (p : Int) b = buf.set p b := by
  simp [poke]

theorem store_nat (buf : List Nat) (p : Nat) (bytes : List Nat)
    (h : p + bytes.length ≤ buf.length) :
    store buf (p : Int) bytes = buf.take p ++ bytes ++ buf.drop (p + bytes.length) := by
  induction bytes generalizing buf p with
  | nil => simp [store]
  | cons b bs ih =>
    simp only [List.length_cons] at h
    have hp : p < buf.length := by omega
    simp only [store, poke_nat]
    have e : ((p : Int) + 1) = ((p + 1 : Nat) : Int) := by push_cast; rfl
    rw [e, ih _ _ (by rw [List.length_set]; omega)]
    rw [List.set_eq_take_append_cons_drop, if_pos hp]
    have h1 : (List.take p buf ++ b :: List.drop (p + 1) buf).take (p + 1)
        = List.take p buf ++ [b] := by
      rw [List.take_append_eq_append_take]
      simp [List.length_take, Nat.min_eq_left (Nat.le_of_lt hp)]
    have h2 : (List.take p buf ++ b :: List.drop (p + 1) buf).drop (p + 1 + bs.length)
        = List.drop (p + (bs.length + 1)) buf := by
      rw [List.drop_append_eq_append_drop]
      simp [List.length_take, Nat.min_eq_left (Nat.le_of_lt hp)]
      have e1 : p + 1 + bs.length - p = bs.length + 1 := by omega
      rw [List.drop_eq_nil_of_le (by simp [List.length_take]; omega)]
      simp [e1, Nat.add_comm, Nat.add_left_comm, Nat.add_assoc]
    rw [h1, h2]
    simp

theorem store_zero_full (buf bytes : List Nat) (h : bytes.length = buf.length) :
    store buf 0 bytes = bytes := by
  have := store_nat buf 0 bytes (by omega)
  simp only [Nat.cast_zero, List.take_zero, List.nil_append, Nat.zero_add] at this
  rw [this, h]
  simp

/-! ## Unfolding the loops -/

theorem OnReceive_succ (env : Env) (T : Transport σ) (fuel : Nat) (s : CProxySocket σ) :
    OnReceive env T (fuel + 1) s =
      OnReceive_body (http_wait_loop env T fuel) (socks4_loop T fuel) (socks5_loop env T fuel) s :=
  rfl

theorem socks5_loop_succ (env : Env) (T : Transport σ) (fuel : Nat) (s : CProxySocket σ) :
    socks5_loop env T (fuel + 1) s =
      socks5_body env T (socks5_loop env T fuel) (OnSend env T fuel) s :=
  rfl

theorem OnSend_succ (env : Env) (T : Transport σ) (fuel : Nat) (s : CProxySocket σ) :
    OnSend env T (fuel + 1) s = OnSend_body (send_loop env T fuel) s :=
  rfl

theorem send_loop_succ (env : Env) (T : Transport σ) (fuel : Nat) (s : CProxySocket σ) :
    send_loop env T (fuel + 1) s =
      send_body T (send_loop env T fuel) (OnReceive env T fuel) s :=
  rfl

theorem socks4_loop_succ (T : Transport σ) (fuel : Nat) (s : CProxySocket σ) :
    socks4_loop T (fuel + 1) s = socks4_body T (socks4_loop T fuel) s :=
  rfl

theorem http_wait_loop_succ (env : Env) (T : Transport σ) (fuel : Nat) (s : CProxySocket σ) :
    http_wait_loop env T (fuel + 1) s =
      match http_round env T s with
      | none => none
      | some (s, true) => http_wait_loop env T fuel s
      | some (s, false) => some s :=
  rfl

/-- A loop round on a session that does not meet the loop condition returns it unchanged. -/
theorem socks5_body_idle (env : Env) (T : Transport σ)
    (loop send : CProxySocket σ → Option (CProxySocket σ)) (s : CProxySocket σ)
    (h : s.m_recvBufferLen = 0 ∨ s.m_can_read = false ∨ s.m_proxyState ≠ ProxyState.handshake) :
    socks5_body env T loop send s = some s := by
  unfold socks5_body
  rw [if_neg]
  rintro ⟨h1, h2, h3⟩
  rcases h with h | h | h
  · exact h1 h
  · rw [h2] at h; cases h
  · exact h h3

theorem socks4_body_idle (T : Transport σ)
    (loop : CProxySocket σ → Option (CProxySocket σ)) (s : CProxySocket σ)
    (h : s.m_recvBufferLen = 0 ∨ s.m_can_read = false ∨ s.m_proxyState ≠ ProxyState.handshake) :
    socks4_body T loop s = some s := by
  unfold socks4_body
  rw [if_neg]
  rintro ⟨h1, h2, h3⟩
  rcases h with h | h | h
  · exact h1 h
  · rw [h2] at h; cases h
  · exact h h3

/-! ## Dispatch in `OnReceive` and `OnSend` -/

theorem OnReceive_socks4 (env : Env) (T : Transport σ) (fuel : Nat) (s : CProxySocket σ)
    (hs : s.m_proxyState = ProxyState.handshake)
    (hh : s.m_handshakeState = handshake_state.socks4_handshake) :
    OnReceive env T (fuel + 1) s = socks4_loop T fuel { s with m_can_read := true } := by
  rw [OnReceive_succ, OnReceive_body]
  simp only [hs, hh, ne_eq, not_true_eq_false, if_false]

theorem OnReceive_http (env : Env) (T : Transport σ) (fuel : Nat) (s : CProxySocket σ)
    (hs : s.m_proxyState = ProxyState.handshake)
    (hh : s.m_handshakeState = handshake_state.http_wait) :
    OnReceive env T (fuel + 1) s = http_wait_loop env T fuel { s with m_can_read := true } := by
  rw [OnReceive_succ, OnReceive_body]
  simp only [hs, hh, ne_eq, not_true_eq_false, if_false]

theorem OnReceive_socks5 (env : Env) (T : Transport σ) (fuel : Nat) (s : CProxySocket σ)
    (hs : s.m_proxyState = ProxyState.handshake)
    (hh : s.m_handshakeState ≠ handshake_state.http_wait)
    (hh4 : s.m_handshakeState ≠ handshake_state.socks4_handshake)
    (hsb : s.sendBuffer_ = []) :
    OnReceive env T (fuel + 1) s = socks5_loop env T fuel { s with m_can_read := true } := by
  rw [OnReceive_succ, OnReceive_body]
  simp only [hs, ne_eq, not_true_eq_false, if_false, hsb]

theorem OnSend_pending (env : Env) (T : Transport σ) (fuel : Nat) (s : CProxySocket σ)
    (hs : s.m_proxyState = ProxyState.handshake) (hsb : s.sendBuffer_ ≠ []) :
    OnSend env T (fuel + 1) s = send_loop env T fuel { s with m_can_write := true } := by
  rw [OnSend_succ, OnSend_body]
  simp only [hs, hsb, ne_eq, not_true_eq_false, or_self, if_false]

/-! ## The read at the head of a SOCKS round -/

theorem socks_read_error (T : Transport σ) (s : CProxySocket σ) (err : Int)
    (h : (T.read s.socket_ (uint s.m_recvBufferLen)).1 = IoResult.error err) :
    socks_read T s = ReadStep.done
      (if err ≠ EAGAIN then
        fail_close { s with
          socket_ := (T.read s.socket_ (uint s.m_recvBufferLen)).2
          trace := s.trace ++
            [IoOp.read s.m_recvBufferPos (uint s.m_recvBufferLen) s.sendBuffer_.length] } err
      else
        { s with
          socket_ := (T.read s.socket_ (uint s.m_recvBufferLen)).2
          trace := s.trace ++
            [IoOp.read s.m_recvBufferPos (uint s.m_recvBufferLen) s.sendBuffer_.length]
          m_can_read := false }) := by
  simp only [socks_read, h]
  split_ifs <;> rfl

theorem socks_read_frame (T : Transport σ) (s : CProxySocket σ) (bytes : List Nat)
    (h : (T.read s.socket_ (uint s.m_recvBufferLen)).1 = IoResult.ok bytes)
    (hlen : s.m_recvBufferLen = bytes.length) (hne : bytes ≠ []) :
    socks_read T s = ReadStep.frame
      { s with
        socket_ := (T.read s.socket_ (uint s.m_recvBufferLen)).2
        trace := s.trace ++
          [IoOp.read s.m_recvBufferPos (uint s.m_recvBufferLen) s.sendBuffer_.length]
        m_pRecvBuffer := store s.m_pRecvBuffer s.m_recvBufferPos bytes
        m_recvBufferPos := 0
        m_recvBufferLen := 0 } := by
  have h0 : ¬ ((bytes.length : Int) = 0) := by
    intro h0
    exact hne (List.length_eq_zero.mp (by exact_mod_cast h0))
  simp only [socks_read, h, h0, if_false]
  simp [hlen]

theorem socks_read_more (T : Transport σ) (s : CProxySocket σ) (bytes : List Nat)
    (h : (T.read s.socket_ (uint s.m_recvBufferLen)).1 = IoResult.ok bytes)
    (hlen : s.m_recvBufferLen ≠ bytes.length) (hne : bytes ≠ []) :
    socks_read T s = ReadStep.more
      { s with
        socket_ := (T.read s.socket_ (uint s.m_recvBufferLen)).2
        trace := s.trace ++
          [IoOp.read s.m_recvBufferPos (uint s.m_recvBufferLen) s.sendBuffer_.length]
        m_pRecvBuffer := store s.m_pRecvBuffer s.m_recvBufferPos bytes
        m_recvBufferPos := s.m_recvBufferPos + bytes.length
        m_recvBufferLen := s.m_recvBufferLen - bytes.length } := by
  have h0 : ¬ ((bytes.length : Int) = 0) := by
    intro h0
    exact hne (List.length_eq_zero.mp (by exact_mod_cast h0))
  have h1 : s.m_recvBufferLen - (bytes.length : Int) ≠ 0 := by
    intro h1
    exact hlen (by omega)
  simp only [socks_read, h, h0, if_false]
  simp [h1]

/-! ## The SOCKS4 reply -/

theorem socks4_body_frame (T : Transport σ) (loop : CProxySocket σ → Option (CProxySocket σ))
    (s : CProxySocket σ) (bytes : List Nat)
    (hs : s.m_proxyState = ProxyState.handshake) (hc : s.m_can_read = true)
    (h : (T.read s.socket_ (uint s.m_recvBufferLen)).1 = IoResult.ok bytes)
    (hlen : s.m_recvBufferLen = bytes.length) (hne : bytes ≠ []) :
    socks4_body T loop s =
      if (store s.m_pRecvBuffer s.m_recvBufferPos bytes).getD 1 0 ≠ 0x5A then
        some (log_fail_close
          { s with
            socket_ := (T.read s.socket_ (uint s.m_recvBufferLen)).2
            trace := s.trace ++
              [IoOp.read s.m_recvBufferPos (uint s.m_recvBufferLen) s.sendBuffer_.length]
            m_pRecvBuffer := store s.m_pRecvBuffer s.m_recvBufferPos bytes
            m_recvBufferPos := 0
            m_recvBufferLen := 0 }
          MessageType.Error
          ("Proxy request failed: " ++
            socks4_error ((store s.m_pRecvBuffer s.m_recvBufferPos bytes).getD 1 0))
          ECONNABORTED)
      else
        loop (succeed
          { s with
            socket_ := (T.read s.socket_ (uint s.m_recvBufferLen)).2
            trace := s.trace ++
              [IoOp.read s.m_recvBufferPos (uint s.m_recvBufferLen) s.sendBuffer_.length]
            m_pRecvBuffer := store s.m_pRecvBuffer s.m_recvBufferPos bytes
            m_recvBufferPos := 0
            m_recvBufferLen := 0 }) := by
  have h0 : s.m_recvBufferLen ≠ 0 := by
    rw [hlen]
    intro h0
    exact hne (List.length_eq_zero.mp (by exact_mod_cast h0))
  unfold socks4_body
  rw [if_pos ⟨h0, hc, hs⟩, socks_read_frame T s bytes h hlen hne]

/-- C9: for every 8-byte SOCKS4 reply handed over by the transport in one read, `OnReceive`
emits `Connection(0)` and becomes `conn` if and only if the status byte `[1]` is `0x5A`,
whatever byte `[0]` and bytes `[2..7]` are; for every other status byte it emits
`Close(ECONNABORTED)` and becomes `noconn`.  In both cases exactly one event is emitted. -/
theorem socks4_reply_verdict (env : Env) (T : Transport σ) (fuel : Nat) (s : CProxySocket σ)
    (reply : List Nat)
    (hstate : s.m_proxyState = ProxyState.handshake)
    (hhs : s.m_handshakeState = handshake_state.socks4_handshake)
    (hlen : s.m_recvBufferLen = 8) (hpos : s.m_recvBufferPos = 0)
    (hbuf : s.m_pRecvBuffer.length = 8)
    (hread : (T.read s.socket_ 8).1 = IoResult.ok reply) (hreply : reply.length = 8) :
    ∃ r, OnReceive env T (fuel + 3) s = some r ∧
      ((r.m_proxyState = ProxyState.conn ∧
          r.events = s.events ++ [⟨socket_event_flag.connection, 0⟩]) ↔
        reply.getD 1 0 = 0x5A) ∧
      (reply.getD 1 0 ≠ 0x5A →
        r.m_proxyState = ProxyState.noconn ∧
          r.events = s.events ++ [⟨socket_event_flag.close, ECONNABORTED⟩]) := by
  have hne : reply ≠ [] := by
    intro h0
    rw [h0] at hreply
    cases hreply
  obtain ⟨sock, ps, hst, pt, host, port, user, pass, sb, buf, pos, len, cr, cw, ev, lg, tr⟩ := s
  simp only at hstate hhs hlen hpos hbuf hread
  subst hstate hhs hlen hpos
  have hstore : store buf 0 reply = reply := store_zero_full _ _ (by omega)
  rw [OnReceive_socks4 env T _ _ rfl rfl, socks4_loop_succ, socks4_body_frame T _ _ reply rfl rfl
    hread (by simp [hreply]) hne]
  dsimp only
  rw [hstore]
  by_cases h5a : reply.getD 1 0 = 0x5A
  · rw [if_neg (not_not.mpr h5a), socks4_loop_succ,
      socks4_body_idle _ _ _ (Or.inr (Or.inr (by simp [succeed, send_event])))]
    simp [-List.getD_eq_getElem?_getD, succeed, send_event, h5a]
  · rw [if_pos h5a]
    simp [-List.getD_eq_getElem?_getD, h5a, log_fail_close, LogMessage, send_event]

theorem socks4_reply_verdict_witness :
    ∃ r, OnReceive sampleEnv wire (0 + 3)
        (arrive (started sampleEnv ProxyType.SOCKS4 (ascii "1.2.3.4") 80 [] [])
          [0, 0x5A, 0, 0, 0, 0, 0, 0]) = some r ∧
      ((r.m_proxyState = ProxyState.conn ∧
          r.events = (arrive (started sampleEnv ProxyType.SOCKS4 (ascii "1.2.3.4") 80 [] [])
            [0, 0x5A, 0, 0, 0, 0, 0, 0]).events ++ [⟨socket_event_flag.connection, 0⟩]) ↔
        [0, 0x5A, 0, 0, 0, 0, 0, 0].getD 1 0 = 0x5A) ∧
      ([0, 0x5A, 0, 0, 0, 0, 0, 0].getD 1 0 ≠ 0x5A →
        r.m_proxyState = ProxyState.noconn ∧
          r.events = (arrive (started sampleEnv ProxyType.SOCKS4 (ascii "1.2.3.4") 80 [] [])
            [0, 0x5A, 0, 0, 0, 0, 0, 0]).events ++ [⟨socket_event_flag.close, ECONNABORTED⟩]) :=
  socks4_reply_verdict sampleEnv wire 0
    (arrive (started sampleEnv ProxyType.SOCKS4 (ascii "1.2.3.4") 80 [] [])
      [0, 0x5A, 0, 0, 0, 0, 0, 0])
    [0, 0x5A, 0, 0, 0, 0, 0, 0] (by decide) (by decide) (by decide) (by decide) (by decide)
    (by decide) (by decide)

/-! ## Transport errors -/

/-- C6: in every handshake state, a transport call that fails with error `err` ends the call
as follows.  If `err` is not `EAGAIN`, exactly one event `Close(err)` is added and the proxy
state becomes `noconn`; if it is `EAGAIN`, no event is added, the proxy state stays
`handshake` and the readiness flag is cleared (`m_can_read` for a read or peek,
`m_can_write` for a write).  The conjuncts are: the read of the SOCKS4 loop, the read of the
SOCKS5 loop, the peek of the HTTP loop, the read of the HTTP loop after a successful peek,
the write of `OnSend`; then the same for the first call made by `OnReceive` in each handshake
state and by `OnSend`. -/
theorem transport_error_verdict (env : Env) (T : Transport σ) (fuel : Nat) (s : CProxySocket σ)
    (err : Int) (hs : s.m_proxyState = ProxyState.handshake) :
    (s.m_recvBufferLen ≠ 0 → s.m_can_read = true →
      (T.read s.socket_ (uint s.m_recvBufferLen)).1 = IoResult.error err →
      ∃ r, socks4_loop T (fuel + 1) s = some r ∧ closes_or_waits s r err r.m_can_read) ∧
    (s.m_recvBufferLen ≠ 0 → s.m_can_read = true →
      (T.read s.socket_ (uint s.m_recvBufferLen)).1 = IoResult.error err →
      ∃ r, socks5_loop env T (fuel + 1) s = some r ∧ closes_or_waits s r err r.m_can_read) ∧
    ((T.peek s.socket_ (uint (s.m_recvBufferLen - s.m_recvBufferPos - 1))).1
        = IoResult.error err →
      ∃ r, http_wait_loop env T (fuel + 1) s = some r ∧
        closes_or_waits s r err r.m_can_read) ∧
    (∀ bytes,
      (T.peek s.socket_ (uint (s.m_recvBufferLen - s.m_recvBufferPos - 1))).1
        = IoResult.ok bytes → bytes ≠ [] → s.sendBuffer_ = [] →
      (strstr (poke (store s.m_pRecvBuffer s.m_recvBufferPos bytes)
          (s.m_recvBufferPos + bytes.length) 0) CRLFCRLF = none →
        s.m_recvBufferPos + bytes.length + 1 ≠ s.m_recvBufferLen) →
      (∀ n, (T.read (T.peek s.socket_
          (uint (s.m_recvBufferLen - s.m_recvBufferPos - 1))).2 n).1 = IoResult.error err) →
      ∃ r, http_wait_loop env T (fuel + 1) s = some r ∧
        closes_or_waits s r err r.m_can_read) ∧
    ((T.write s.socket_ s.sendBuffer_).1 = WriteResult.error err →
      ∃ r, send_loop env T (fuel + 1) s = some r ∧ closes_or_waits s r err r.m_can_write) ∧
    (s.m_handshakeState ≠ handshake_state.http_wait →
      (s.m_handshakeState ≠ handshake_state.socks4_handshake → s.sendBuffer_ = []) →
      s.m_recvBufferLen ≠ 0 →
      (T.read s.socket_ (uint s.m_recvBufferLen)).1 = IoResult.error err →
      ∃ r, OnReceive env T (fuel + 2) s = some r ∧ closes_or_waits s r err r.m_can_read) ∧
    (s.m_handshakeState = handshake_state.http_wait →
      (T.peek s.socket_ (uint (s.m_recvBufferLen - s.m_recvBufferPos - 1))).1
        = IoResult.error err →
      ∃ r, OnReceive env T (fuel + 2) s = some r ∧ closes_or_waits s r err r.m_can_read) ∧
    (s.sendBuffer_ ≠ [] → (T.write s.socket_ s.sendBuffer_).1 = WriteResult.error err →
      ∃ r, OnSend env T (fuel + 2) s = some r ∧ closes_or_waits s r err r.m_can_write) := by
  have L4 : ∀ (s : CProxySocket σ), s.m_proxyState = ProxyState.handshake →
      s.m_recvBufferLen ≠ 0 → s.m_can_read = true →
      (T.read s.socket_ (uint s.m_recvBufferLen)).1 = IoResult.error err →
      ∃ r, socks4_loop T (fuel + 1) s = some r ∧ closes_or_waits s r err r.m_can_read := by
    intro s hs hl hc hr
    rw [socks4_loop_succ, socks4_body, if_pos ⟨hl, hc, hs⟩, socks_read_error T s err hr]
    by_cases he : err = EAGAIN <;>
      simp [he, closes_or_waits, fail_close, send_event, hs]
  have L5 : ∀ (s : CProxySocket σ), s.m_proxyState = ProxyState.handshake →
      s.m_recvBufferLen ≠ 0 → s.m_can_read = true →
      (T.read s.socket_ (uint s.m_recvBufferLen)).1 = IoResult.error err →
      ∃ r, socks5_loop env T (fuel + 1) s = some r ∧ closes_or_waits s r err r.m_can_read := by
    intro s hs hl hc hr
    rw [socks5_loop_succ, socks5_body, if_pos ⟨hl, hc, hs⟩, socks_read_error T s err hr]
    by_cases he : err = EAGAIN <;>
      simp [he, closes_or_waits, fail_close, send_event, hs]
  have LP : ∀ (s : CProxySocket σ), s.m_proxyState = ProxyState.handshake →
      (T.peek s.socket_ (uint (s.m_recvBufferLen - s.m_recvBufferPos - 1))).1
        = IoResult.error err →
      ∃ r, http_wait_loop env T (fuel + 1) s = some r ∧
        closes_or_waits s r err r.m_can_read := by
    intro s hs hp
    simp only [http_wait_loop, http_round, hp]
    by_cases he : err = EAGAIN <;>
      simp [he, closes_or_waits, fail_close, send_event, hs]
  have LW : ∀ (s : CProxySocket σ), s.m_proxyState = ProxyState.handshake →
      (T.write s.socket_ s.sendBuffer_).1 = WriteResult.error err →
      ∃ r, send_loop env T (fuel + 1) s = some r ∧ closes_or_waits s r err r.m_can_write := by
    intro s hs hw
    simp only [send_loop_succ, send_body, hw]
    by_cases he : err = EAGAIN <;>
      simp [he, closes_or_waits, fail_close, send_event, hs]
  refine ⟨L4 s hs, L5 s hs, LP s hs, ?_, LW s hs, ?_, ?_, ?_⟩
  · intro bytes hp hne hsb hbig hr
    have hlen0 : ¬ ((bytes.length : Int) = 0) := by
      intro h
      exact hne (List.length_eq_zero.mp (by exact_mod_cast h))
    simp only [http_wait_loop, http_round, hp, hsb, hlen0]
    cases hfind : strstr (poke (store s.m_pRecvBuffer s.m_recvBufferPos bytes)
        (s.m_recvBufferPos + bytes.length) 0) CRLFCRLF with
    | none =>
      have hb := hbig hfind
      by_cases he : err = EAGAIN <;>
        simp [hfind, hb, http_read, hr, he, closes_or_waits, fail_close, send_event, hs]
    | some e =>
      by_cases he : err = EAGAIN <;>
        simp [hfind, http_read, hr, he, closes_or_waits, fail_close, send_event, hs]
  · intro hh hsb hl hr
    obtain ⟨r4, h4, h4'⟩ := L4 { s with m_can_read := true } hs hl rfl hr
    obtain ⟨r5, h5, h5'⟩ := L5 { s with m_can_read := true } hs hl rfl hr
    cases hcase : s.m_handshakeState with
    | http_wait => exact absurd hcase hh
    | socks4_handshake => exact ⟨r4, by rw [OnReceive_socks4 env T _ s hs hcase]; exact h4, h4'⟩
    | socks5_method =>
      exact ⟨r5, by
        rw [OnReceive_socks5 env T _ s hs (by simp [hcase]) (by simp [hcase])
          (hsb (by simp [hcase]))]
        exact h5, h5'⟩
    | socks5_auth =>
      exact ⟨r5, by
        rw [OnReceive_socks5 env T _ s hs (by simp [hcase]) (by simp [hcase])
          (hsb (by simp [hcase]))]
        exact h5, h5'⟩
    | socks5_request =>
      exact ⟨r5, by
        rw [OnReceive_socks5 env T _ s hs (by simp [hcase]) (by simp [hcase])
          (hsb (by simp [hcase]))]
        exact h5, h5'⟩
    | socks5_request_addrtype =>
      exact ⟨r5, by
        rw [OnReceive_socks5 env T _ s hs (by simp [hcase]) (by simp [hcase])
          (hsb (by simp [hcase]))]
        exact h5, h5'⟩
    | socks5_request_address =>
      exact ⟨r5, by
        rw [OnReceive_socks5 env T _ s hs (by simp [hcase]) (by simp [hcase])
          (hsb (by simp [hcase]))]
        exact h5, h5'⟩
  · intro hh hp
    obtain ⟨r, h1, h2⟩ := LP { s with m_can_read := true } hs hp
    exact ⟨r, by rw [OnReceive_http env T _ s hs hh]; exact h1, h2⟩
  · intro hsb hw
    obtain ⟨r, h1, h2⟩ := LW { s with m_can_write := true } hs hw
    exact ⟨r, by rw [OnSend_pending env T _ s hs hsb]; exact h1, h2⟩

theorem transport_error_verdict_witness :
    ∃ r, OnReceive sampleEnv wire (0 + 2)
        { started sampleEnv ProxyType.SOCKS5 (ascii "example.com") 22 [] [] with
          socket_ := { idleWire with rxEnd := RxEnd.fail ECONNRESET } } = some r ∧
      closes_or_waits
        { started sampleEnv ProxyType.SOCKS5 (ascii "example.com") 22 [] [] with
          socket_ := { idleWire with rxEnd := RxEnd.fail ECONNRESET } }
        r ECONNRESET r.m_can_read :=
  (transport_error_verdict sampleEnv wire 0
    { started sampleEnv ProxyType.SOCKS5 (ascii "example.com") 22 [] [] with
      socket_ := { idleWire with rxEnd := RxEnd.fail ECONNRESET } }
    ECONNRESET (by decide)).2.2.2.2.2.1 (by decide) (by intro _; decide) (by decide) (by decide)

/-! ## Reading frames from the queue socket -/

theorem uint_nat (n : Nat) (h : n < 4294967296) : uint (n : Int) = n := by
  unfold uint
  have : ((n : Int) % 4294967296) = (n : Int) := Int.emod_eq_of_lt (by omega) (by omega)
  rw [this]
  simp

theorem wire_read_frame (w : Wire) (frame rest : List Nat) (h : w.rx = frame ++ rest)
    (hne : frame ≠ []) :
    wire.read w frame.length = (IoResult.ok frame, { w with rx := rest }) := by
  have hl : frame.length ≠ 0 := by
    intro h0
    exact hne (List.length_eq_zero.mp h0)
  cases frame with
  | nil => exact absurd rfl hne
  | cons a t =>
    simp only [wire, Wire.read, Wire.look, h]
    simp

theorem wire_read_short (w : Wire) (n : Nat) (h : w.rx ≠ []) (hn : w.rx.length ≤ n) :
    wire.read w n = (IoResult.ok w.rx, { w with rx := [] }) := by
  have hn0 : n ≠ 0 := by
    intro h0
    subst h0
    exact h (List.length_eq_zero.mp (Nat.le_zero.mp hn))
  cases hrx : w.rx with
  | nil => exact absurd hrx h
  | cons a t =>
    rw [hrx] at hn
    simp only [wire, Wire.read, Wire.look, hrx, hn0, if_false]
    rw [List.take_of_length_le hn, List.drop_of_length_le hn]

theorem wire_read_empty (w : Wire) (n : Nat) (h : w.rx = []) (hn : n ≠ 0)
    (he : w.rxEnd = RxEnd.again) :
    wire.read w n = (IoResult.error EAGAIN, w) := by
  cases w with
  | mk rx rxEnd tx txPlan =>
    simp only at h he
    subst h he
    simp [wire, Wire.read, Wire.look, hn]

theorem wire_write_all (w : Wire) (bytes : List Nat) (h : w.txPlan = []) :
    wire.write w bytes = (WriteResult.ok bytes.length, { w with tx := w.tx ++ bytes }) := by
  simp [wire, Wire.write, h]

/-! ## Frames in the SOCKS5 loop -/

theorem socks5_body_frame (env : Env) (T : Transport σ)
    (loop send : CProxySocket σ → Option (CProxySocket σ))
    (s : CProxySocket σ) (bytes : List Nat)
    (hs : s.m_proxyState = ProxyState.handshake) (hc : s.m_can_read = true)
    (h : (T.read s.socket_ (uint s.m_recvBufferLen)).1 = IoResult.ok bytes)
    (hlen : s.m_recvBufferLen = bytes.length) (hne : bytes ≠ []) :
    socks5_body env T loop send s =
      socks5_frame env loop send
        { s with
          socket_ := (T.read s.socket_ (uint s.m_recvBufferLen)).2
          trace := s.trace ++
            [IoOp.read s.m_recvBufferPos (uint s.m_recvBufferLen) s.sendBuffer_.length]
          m_pRecvBuffer := store s.m_pRecvBuffer s.m_recvBufferPos bytes
          m_recvBufferPos := 0
          m_recvBufferLen := 0 } := by
  have h0 : s.m_recvBufferLen ≠ 0 := by
    rw [hlen]
    intro h0
    exact hne (List.length_eq_zero.mp (by exact_mod_cast h0))
  unfold socks5_body
  rw [if_pos ⟨h0, hc, hs⟩, socks_read_frame T s bytes h hlen hne]

theorem char_val_small (env : Env) (b : Nat) (h : env.char_is_signed = false ∨ b < 128) :
    char_val env b = (b : Int) := by
  unfold char_val
  rw [if_neg]
  rintro ⟨h1, h2⟩
  rcases h with h | h
  · rw [h] at h1; cases h1
  · omega

theorem wire_read_snd (w : Wire) (n : Nat) : (wire.read w n).2 = { w with rx := w.rx.drop n } :=
  rfl

theorem uint_two : uint 2 = 2 := by decide

theorem uint_three : uint 3 = 3 := by decide

/-- The SOCKS5 CONNECT reply with a domain address (ATYP 3), where the length byte is read
back as itself (plain `char` unsigned, or a length below 128): for every `len` in 0..255 the
driver consumes the three leading bytes and then exactly `len + 4` bytes starting at the ATYP
byte, leaves what follows in the transport, emits `Connection(0)` and is `conn`. -/
theorem socks5_domain_reply (env : Env) (fuel : Nat) (s : CProxySocket Wire)
    (rsv len p1 p2 : Nat) (addr rest : List Nat)
    (hstate : s.m_proxyState = ProxyState.handshake)
    (hhs : s.m_handshakeState = handshake_state.socks5_request)
    (hlen : s.m_recvBufferLen = 2) (hpos : s.m_recvBufferPos = 0)
    (hsb : s.sendBuffer_ = []) (hbuf : s.m_pRecvBuffer.length = 1024)
    (haddr : addr.length = len) (hmax : len ≤ 255)
    (hchar : env.char_is_signed = false ∨ len < 128)
    (hrx : s.socket_.rx = [5, 0, rsv] ++ ([3, len] ++ addr ++ [p1, p2]) ++ rest) :
    ∃ r, OnReceive env wire (fuel + 4) s = some r ∧
      r.m_proxyState = ProxyState.conn ∧
      r.events = s.events ++ [⟨socket_event_flag.connection, 0⟩] ∧
      r.socket_.rx = rest ∧
      r.trace = s.trace ++ [IoOp.read 0 2 0, IoOp.read 0 3 0, IoOp.read 0 (len + 2) 0] := by
  obtain ⟨sock, ps, hst, pt, host, port, user, pass, sb, buf, pos, blen, cr, cw, ev, lg, tr⟩ := s
  obtain ⟨rx, rxEnd, tx, txPlan⟩ := sock
  simp only at hstate hhs hlen hpos hsb hbuf hrx
  subst hstate hhs hlen hpos hsb hrx
  rw [OnReceive_socks5 env wire _ _ rfl (by simp) (by simp) rfl]
  dsimp only
  have hst1 : store buf 0 [5, 0] = 5 :: 0 :: buf.drop 2 := by
    have := store_nat buf 0 [5, 0] (by simp [hbuf])
    simpa using this
  have hst2 : ∀ b : List Nat, b.length = 1024 →
      store b 0 [rsv, 3, len] = rsv :: 3 :: len :: b.drop 3 := by
    intro b hb
    have := store_nat b 0 [rsv, 3, len] (by simp [hb])
    simpa using this
  rw [socks5_loop_succ, socks5_body_frame env wire _ _ _ [5, 0]]
  case hs => rfl
  case hc => rfl
  case h => rfl
  case hlen => rfl
  case hne => simp
  dsimp only
  rw [hst1]
  simp only [socks5_frame, socks5_parse, socks5_check_version, socks5_transition, socks5_queue,
    List.getD_cons_zero, List.getD_cons_succ, ne_eq, not_true_eq_false, if_false, false_and,
    wire_read_snd, uint_two, List.length_nil, List.cons_append, List.nil_append, List.drop_succ_cons,
    List.drop_zero]
  rw [socks5_loop_succ, socks5_body_frame env wire _ _ _ [rsv, 3, len]]
  case hs => rfl
  case hc => rfl
  case h => rfl
  case hlen => rfl
  case hne => simp
  dsimp only
  rw [hst2 _ (by simp [hbuf])]
  simp only [socks5_frame, socks5_parse, socks5_check_version, socks5_transition, socks5_queue,
    List.getD_cons_zero, List.getD_cons_succ, ne_eq, not_true_eq_false, if_false, false_and,
    wire_read_snd, uint_three, List.length_nil, List.cons_append, List.nil_append,
    List.drop_succ_cons, List.drop_zero, char_val_small env len hchar]
  simp only [show (3 : Nat) = 1 ↔ False by decide, if_false, if_true, not_true_eq_false,
    false_and]
  have el : ((len : Int) + 2) = (((addr ++ [p1, p2]).length : Nat) : Int) := by
    simp [haddr]
  rw [socks5_loop_succ, socks5_body_frame env wire _ _ _ (addr ++ [p1, p2])]
  case hs => rfl
  case hc => rfl
  case h =>
    dsimp only
    rw [el, uint_nat _ (by simp [haddr]; omega), wire_read_frame _ _ rest rfl (by simp)]
  case hlen => exact el
  case hne => simp
  dsimp only
  have hu : uint ((len : Int) + 2) = len + 2 := by
    have := uint_nat (len + 2) (by omega)
    simpa using this
  have hd : List.drop (len + 2) (addr ++ p1 :: p2 :: rest) = rest := by
    have h1 : (addr ++ [p1, p2]).length = len + 2 := by simp [haddr]
    have h2 : addr ++ p1 :: p2 :: rest = (addr ++ [p1, p2]) ++ rest := by simp
    rw [h2, ← h1, List.drop_left]
  simp [socks5_frame, socks5_parse, socks5_check_version, socks5_transition, succeed, send_event,
    wire_read_snd, hu, hd]

set_option maxRecDepth 100000 in
theorem socks5_domain_reply_witness :
    ∃ r, OnReceive sampleEnv wire (0 + 4)
        { started sampleEnv ProxyType.SOCKS5 (ascii "example.com") 80 [] [] with
          m_handshakeState := handshake_state.socks5_request
          socket_ := { idleWire with
            rx := [5, 0, 0] ++ ([3, 2] ++ [104, 105] ++ [0, 80]) ++ [1, 2, 3] } } = some r ∧
      r.m_proxyState = ProxyState.conn ∧
      r.events = (started sampleEnv ProxyType.SOCKS5 (ascii "example.com") 80 [] []).events
        ++ [⟨socket_event_flag.connection, 0⟩] ∧
      r.socket_.rx = [1, 2, 3] ∧
      r.trace = (started sampleEnv ProxyType.SOCKS5 (ascii "example.com") 80 [] []).trace
        ++ [IoOp.read 0 2 0, IoOp.read 0 3 0, IoOp.read 0 (2 + 2) 0] :=
  socks5_domain_reply sampleEnv 0
    { started sampleEnv ProxyType.SOCKS5 (ascii "example.com") 80 [] [] with
      m_handshakeState := handshake_state.socks5_request
      socket_ := { idleWire with
        rx := [5, 0, 0] ++ ([3, 2] ++ [104, 105] ++ [0, 80]) ++ [1, 2, 3] } }
    0 2 0 80 [104, 105] [1, 2, 3] (by decide) (by decide) (by decide) (by decide) (by decide)
    (by decide!) (by decide) (by decide) (Or.inr (by decide)) (by decide)

set_option maxRecDepth 1000000 in
/-- C5 (the failing input): on a platform where plain `char` is signed, after the method
reply `05 00` the CONNECT reply `05 00 00 03 FF`, 255 address bytes and 2 port bytes makes
the driver emit `Connection(0)` and become `conn` after consuming only 3 bytes from the ATYP
byte on (ATYP, the length byte and one address byte): 256 bytes of the reply are left unread
in the transport, where `len + 4 = 259` bytes from the ATYP byte should have been consumed. -/
theorem socks5_domain_reply_signed_char :
    (deliver sampleEnv 8
      [[5, 0], [5, 0, 0, 3, 255] ++ List.replicate 255 97 ++ [0, 80]]
      (started sampleEnv ProxyType.SOCKS5 (ascii "example.com") 80 [] [])).map
      (fun r => (r.m_proxyState, r.events, r.socket_.rx.length)) =
    some (ProxyState.conn, [⟨socket_event_flag.connection, 0⟩], 256) := by
  decide!

/-! ## Searching the receive buffer -/

theorem find_sub_spec (t : List Nat) (ht : t ≠ []) (l : List Nat) (i : Nat) :
    find_sub t l = some i ↔
      (t <+: l.drop i ∧ i ≤ l.length ∧ ∀ j, j < i → ¬ t <+: l.drop j) := by
  induction l generalizing i with
  | nil =>
    simp only [find_sub, if_neg ht, List.drop_nil, List.prefix_nil, List.length_nil]
    constructor
    · intro h; cases h
    · rintro ⟨h, _, _⟩; exact absurd h ht
  | cons c cs ih =>
    simp only [find_sub]
    by_cases hp : t.isPrefixOf (c :: cs) = true
    · rw [if_pos hp]
      have hp' : t <+: c :: cs := List.isPrefixOf_iff_prefix.mp hp
      constructor
      · intro h
        cases h
        exact ⟨by simpa using hp', Nat.zero_le _, fun j hj => absurd hj (Nat.not_lt_zero j)⟩
      · rintro ⟨_, _, h3⟩
        cases i with
        | zero => rfl
        | succ n => exact absurd (by simpa using hp') (h3 0 (Nat.succ_pos n))
    · rw [if_neg hp]
      have hp' : ¬ t <+: c :: cs := fun h => hp (List.isPrefixOf_iff_prefix.mpr h)
      cases i with
      | zero =>
        constructor
        · intro h
          cases hf : find_sub t cs with
          | none => rw [hf] at h; cases h
          | some k => rw [hf] at h; simp at h
        · rintro ⟨h1, _, _⟩
          exact absurd (by simpa using h1) hp'
      | succ n =>
        constructor
        · intro h
          have hn : find_sub t cs = some n := by
            cases hf : find_sub t cs with
            | none => rw [hf] at h; cases h
            | some k =>
              rw [hf] at h
              simp only [Option.map_some', Option.some.injEq, Nat.add_right_cancel_iff] at h
              rw [h]
          obtain ⟨a, b, d⟩ := (ih n).mp hn
          refine ⟨by simpa using a, by simpa using b, ?_⟩
          intro j hj
          cases j with
          | zero => simpa using hp'
          | succ m => simpa using d m (by omega)
        · rintro ⟨a, b, d⟩
          have hn : find_sub t cs = some n :=
            (ih n).mpr ⟨by simpa using a, by simpa using b,
              fun j hj => by simpa using d (j + 1) (by omega)⟩
          rw [hn]
          rfl

theorem find_sub_prefix_of_longer (t l x : List Nat) (j : Nat) (h : t.length ≤ l.length - j) :
    t <+: (l ++ x).drop j ↔ t <+: l.drop j := by
  have hj : j ≤ l.length ∨ l.length < j := by omega
  rcases hj with hj | hj
  · rw [List.drop_append_of_le_length hj]
    constructor
    · intro hp
      have hlen : t.length ≤ (l.drop j).length := by simpa using h
      exact List.prefix_of_prefix_length_le hp (List.prefix_append _ _) hlen
    · intro hp
      exact hp.trans (List.prefix_append _ _)
  · have h0 : t.length = 0 := by omega
    have : t = [] := List.length_eq_zero.mp h0
    subst this
    simp

/-- A first occurrence that ends exactly at the end of `r` stays the first occurrence when
bytes are added after `r`. -/
theorem find_sub_append (t r x : List Nat) (ht : t ≠ []) (hle : t.length ≤ r.length)
    (h : find_sub t r = some (r.length - t.length)) :
    find_sub t (r ++ x) = some (r.length - t.length) := by
  obtain ⟨a, _, d⟩ := (find_sub_spec t ht r _).mp h
  rw [find_sub_spec t ht]
  refine ⟨?_, ?_, ?_⟩
  · rw [find_sub_prefix_of_longer]
    · exact a
    · omega
  · simp; omega
  · intro j hj
    rw [find_sub_prefix_of_longer]
    · exact d j hj
    · omega

/-- No proper prefix of `r` holds the pattern when its first occurrence in `r` ends at the
end of `r`. -/
theorem find_sub_take (t r : List Nat) (n : Nat) (ht : t ≠ []) (hle : t.length ≤ r.length)
    (h : find_sub t r = some (r.length - t.length)) (hn : n < r.length) :
    find_sub t (r.take n) = none := by
  obtain ⟨_, _, d⟩ := (find_sub_spec t ht r _).mp h
  cases hf : find_sub t (r.take n) with
  | none => rfl
  | some i =>
    exfalso
    obtain ⟨a, b, _⟩ := (find_sub_spec t ht _ i).mp hf
    have hlen : t.length ≤ ((r.take n).drop i).length := a.length_le
    simp only [List.length_drop, List.length_take] at hlen b
    have hpre : t <+: r.drop i := by
      have h1 : (r.take n).drop i <+: r.drop i := by
        rw [List.drop_take]
        exact List.take_prefix _ _
      exact a.trans h1
    have hi : ¬ i < r.length - t.length := fun hi => d i hi hpre
    have h0 : 0 < t.length := List.length_pos.mpr ht
    omega

theorem c_str_append (p y : List Nat) (h : ∀ b ∈ p, b ≠ 0) : c_str (p ++ y) = p ++ c_str y := by
  induction p with
  | nil => rfl
  | cons a p ih =>
    have ha : a ≠ 0 := h a (List.mem_cons_self _ _)
    simp only [c_str, List.cons_append, List.takeWhile_cons, bne_iff_ne, ne_eq, ha,
      not_false_eq_true, if_true, List.cons.injEq, true_and]
    exact ih (fun b hb => h b (List.mem_cons_of_mem _ hb))

theorem c_str_nul (p y : List Nat) (h : ∀ b ∈ p, b ≠ 0) : c_str (p ++ 0 :: y) = p := by
  rw [c_str_append p _ h]
  simp [c_str]

/-! ## The HTTP receive buffer -/

theorem set_append_at (a b : List Nat) (x v : Nat) :
    (a ++ x :: b).set a.length v = a ++ v :: b := by
  induction a with
  | nil => rfl
  | cons c a ih => simp [ih]

theorem drop_eq_cons (l : List Nat) (n : Nat) (h : n < l.length) :
    l.drop n = l.getD n 0 :: l.drop (n + 1) := by
  rw [List.getD_eq_getElem _ _ h]
  exact List.drop_eq_getElem_cons h

/-- The buffer after a peek: with the first `k` bytes of `p` already in place and the bytes
`p.drop k ++ x` peeked at offset `k`, the buffer holds `p ++ x` followed by the NUL. -/
theorem buffer_after_peek (buf p x : List Nat) (k : Nat)
    (hk : k ≤ p.length) (hpre : buf.take k = p.take k)
    (hfit : p.length + x.length < buf.length) :
    poke (store buf (k : Int) (p.drop k ++ x))
        ((k : Int) + ((p.drop k ++ x).length : Nat)) 0
      = p ++ x ++ 0 :: buf.drop (p.length + x.length + 1) := by
  have hlen : (p.drop k ++ x).length = p.length - k + x.length := by simp
  have hsum : k + (p.drop k ++ x).length = p.length + x.length := by omega
  rw [store_nat _ _ _ (by omega), hpre, hsum]
  have e : ((k : Int) + ((p.drop k ++ x).length : Nat)) = ((p.length + x.length : Nat) : Int) := by
    rw [← hsum]; push_cast; rfl
  rw [e, poke_nat]
  have e2 : List.take k p ++ (List.drop k p ++ x) = p ++ x := by
    rw [← List.append_assoc, List.take_append_drop]
  rw [e2, drop_eq_cons buf _ hfit]
  have e3 : p.length + x.length = (p ++ x).length := by simp
  rw [e3]
  exact set_append_at _ _ _ _

/-- Reading again, at offset `k`, bytes the buffer already holds there changes nothing. -/
theorem store_same (p y : List Nat) (k n : Nat) (hk : k + n ≤ p.length) :
    store (p ++ y) (k : Int) ((p.drop k).take n) = p ++ y := by
  have hl : ((p.drop k).take n).length = n := by simp; omega
  rw [store_nat _ _ _ (by simp [hl]; omega), hl]
  have h1 : List.take k (p ++ y) = p.take k := by
    rw [List.take_append_of_le_length (by omega)]
  have h2 : List.drop (k + n) (p ++ y) = p.drop (k + n) ++ y := by
    rw [List.drop_append_of_le_length hk]
  rw [h1, h2]
  have h3 : (p.drop k).take n ++ p.drop (k + n) = p.drop k := by
    have : p.drop (k + n) = (p.drop k).drop n := by rw [List.drop_drop, Nat.add_comm]
    rw [this, List.take_append_drop]
  rw [List.append_assoc, ← List.append_assoc ((p.drop k).take n), h3, ← List.append_assoc,
    List.take_append_drop]

theorem find_cr (l : List Nat) (h : 13 ∈ l) :
    find_sub [13] l = some (status_line l).length := by
  induction l with
  | nil => cases h
  | cons c cs ih =>
    by_cases hc : c = 13
    · subst hc
      simp [find_sub, status_line]
    · have hmem : 13 ∈ cs := by
        rcases List.mem_cons.mp h with h | h
        · exact absurd h.symm hc
        · exact h
      have hpre : ([13] : List Nat).isPrefixOf (c :: cs) = false := by
        simp [List.isPrefixOf, hc]
        exact fun h => hc h.symm
      simp only [find_sub, hpre, Bool.false_eq_true, if_false, ih hmem]
      simp [status_line, hc]

theorem status_line_split (l : List Nat) (h : 13 ∈ l) :
    ∃ rest, l = status_line l ++ 13 :: rest := by
  induction l with
  | nil => cases h
  | cons c cs ih =>
    by_cases hc : c = 13
    · subst hc
      exact ⟨cs, by simp [status_line]⟩
    · have hmem : 13 ∈ cs := by
        rcases List.mem_cons.mp h with h | h
        · exact absurd h.symm hc
        · exact h
      obtain ⟨rest, hr⟩ := ih hmem
      refine ⟨rest, ?_⟩
      have : status_line (c :: cs) = c :: status_line cs := by simp [status_line, hc]
      rw [this, List.cons_append, ← hr]

theorem header_has_cr (r : List Nat) (h : http_header r) : 13 ∈ r := by
  obtain ⟨h4, _, _, hf⟩ := h
  obtain ⟨a, _, _⟩ := (find_sub_spec CRLFCRLF (by decide) r _).mp hf
  obtain ⟨t, ht⟩ := a
  have : 13 ∈ r.drop (r.length - 4) := by
    rw [← ht]
    simp [CRLFCRLF]
  exact List.mem_of_mem_drop this

/-! ## Rounds of the HTTP loop on the queue socket -/

theorem wire_look_some (w : Wire) (n : Nat) (hn : n ≠ 0) (h : w.rx ≠ []) :
    w.look n = IoResult.ok (w.rx.take n) := by
  unfold Wire.look
  rw [if_neg hn]
  cases hrx : w.rx with
  | nil => exact absurd hrx h
  | cons a t => rfl

theorem wire_look_again (w : Wire) (n : Nat) (hn : n ≠ 0) (h : w.rx = [])
    (he : w.rxEnd = RxEnd.again) : w.look n = IoResult.error EAGAIN := by
  unfold Wire.look
  rw [if_neg hn, h, he]

theorem uint_http (k : Nat) (hk : k ≤ 4095) : uint (4096 - (k : Int) - 1) = 4095 - k := by
  have e : (4096 - (k : Int) - 1) = ((4095 - k : Nat) : Int) := by omega
  rw [e, uint_nat _ (by omega)]

/-- A round of the HTTP loop when the queue is empty: the peek gives `EAGAIN`. -/
theorem http_round_again (env : Env) (s : CProxySocket Wire) (k : Nat)
    (hlen : s.m_recvBufferLen = 4096) (hpos : s.m_recvBufferPos = k) (hk : k < 4095)
    (hrx : s.socket_.rx = []) (hend : s.socket_.rxEnd = RxEnd.again) :
    http_round env wire s =
      some ({ s with
        trace := s.trace ++ [IoOp.peek k (4095 - k) s.sendBuffer_.length]
        m_can_read := false }, false) := by
  have hu := uint_http k (by omega)
  have hl := wire_look_again s.socket_ (4095 - k) (by omega) hrx hend
  unfold http_round
  simp only [hlen, hpos, hu, wire, Wire.peek, hl]
  simp [EAGAIN]

theorem header_take_no_nul (r : List Nat) (n : Nat) (h : ∀ b ∈ r, b ≠ 0) :
    ∀ b ∈ r.take n, b ≠ 0 :=
  fun b hb => h b (List.mem_of_mem_take hb)

/-- A round of the HTTP loop when the queue holds a part `c` of the header `r` that stops
before its end: the bytes are peeked, no terminator is found, the same bytes are read and the
loop goes on. -/
theorem http_round_partial (env : Env) (s : CProxySocket Wire) (r c rem : List Nat) (k : Nat)
    (hsb : s.sendBuffer_ = []) (hbuf : s.m_pRecvBuffer.length = 4096)
    (hlen : s.m_recvBufferLen = 4096) (hpos : s.m_recvBufferPos = k)
    (hpre : s.m_pRecvBuffer.take k = r.take k) (hr : http_header r)
    (hrx : s.socket_.rx = c) (hc : c ≠ []) (hsplit : r.drop k = c ++ rem) (hrem : rem ≠ []) :
    http_round env wire s =
      some ({ s with
        socket_ := { s.socket_ with rx := [] }
        trace := s.trace ++ [IoOp.peek k (4095 - k) 0, IoOp.nul ((k : Int) + c.length),
          IoOp.read k c.length 0]
        m_pRecvBuffer := r.take (k + c.length) ++ 0 :: s.m_pRecvBuffer.drop (k + c.length + 1)
        m_recvBufferPos := (k : Int) + c.length }, true) := by
  obtain ⟨h4, hmax, hnul, hfind⟩ := hr
  obtain ⟨sock, ps, hst, pt, host, port, user, pass, sb, buf, pos, blen, cr, cw, ev, lg, tr⟩ := s
  obtain ⟨rx, rxEnd, tx, txPlan⟩ := sock
  simp only at hsb hbuf hlen hpos hpre hrx
  subst hsb hlen hpos hrx
  have hcl : 0 < rx.length := List.length_pos.mpr hc
  have hrl : 0 < rem.length := List.length_pos.mpr hrem
  have hdl : (r.drop k).length = rx.length + rem.length := by rw [hsplit]; simp
  have hkr : k + rx.length + rem.length = r.length := by
    simp only [List.length_drop] at hdl
    omega
  have hu := uint_http k (by omega)
  have hlook : ({ rx := rx, rxEnd := rxEnd, tx := tx, txPlan := txPlan } : Wire).look (4095 - k)
      = IoResult.ok rx := by
    rw [wire_look_some _ _ (by omega) hc]
    simp only
    rw [List.take_of_length_le (by omega)]
  -- the part of the header received so far
  have hp : (r.take (k + rx.length)).drop k = rx := by
    rw [List.drop_take, hsplit]
    simp
  have hpk : (r.take (k + rx.length)).take k = r.take k := by
    rw [List.take_take]
    simp
  have hpl : (r.take (k + rx.length)).length = k + rx.length := by
    simp; omega
  have hbufp := buffer_after_peek buf (r.take (k + rx.length)) [] k (by omega)
    (by rw [hpre, hpk]) (by simp; omega)
  rw [List.append_nil, hp, hpl] at hbufp
  simp only [List.length_nil, Nat.add_zero, List.append_nil] at hbufp
  have hcstr : c_str (r.take (k + rx.length) ++ 0 :: buf.drop (k + rx.length + 1))
      = r.take (k + rx.length) :=
    c_str_nul _ _ (header_take_no_nul r _ hnul)
  have hnone : find_sub CRLFCRLF (r.take (k + rx.length)) = none :=
    find_sub_take _ _ _ (by decide) h4 hfind (by omega)
  have hl0 : ¬ ((rx.length : Int) = 0) := by omega
  have hfull : ¬ ((k : Int) + (rx.length : Int) + 1 = 4096) := by omega
  have hread : wire.read { rx := rx, rxEnd := rxEnd, tx := tx, txPlan := txPlan } rx.length
      = (IoResult.ok rx, { rx := [], rxEnd := rxEnd, tx := tx, txPlan := txPlan }) := by
    have := wire_read_frame { rx := rx, rxEnd := rxEnd, tx := tx, txPlan := txPlan } rx []
      (by simp) hc
    simpa using this
  have hsame : store (r.take (k + rx.length) ++ 0 :: buf.drop (k + rx.length + 1)) (k : Int) rx
      = r.take (k + rx.length) ++ 0 :: buf.drop (k + rx.length + 1) := by
    have := store_same (r.take (k + rx.length)) (0 :: buf.drop (k + rx.length + 1)) k rx.length
      (by omega)
    rw [hp, List.take_of_length_le (Nat.le_refl _)] at this
    exact this
  unfold http_round
  simp only [hu, wire, Wire.peek, hlook, hl0, if_false, List.length_nil, ne_eq, not_true_eq_false,
    hbufp, strstr, hcstr, hnone, hfull]
  unfold http_read
  simp only [uint_nat rx.length (by omega), show Wire.read = wire.read from rfl, hread, hl0,
    if_false, ne_eq, not_true_eq_false, hsame, List.length_nil, List.append_assoc,
    List.cons_append, List.nil_append]

theorem status_line_append (r y : List Nat) (h : 13 ∈ r) :
    status_line (r ++ y) = status_line r := by
  induction r with
  | nil => cases h
  | cons c cs ih =>
    by_cases hc : c = 13
    · subst hc
      simp [status_line]
    · have hmem : 13 ∈ cs := by
        rcases List.mem_cons.mp h with h | h
        · exact absurd h.symm hc
        · exact h
      have := ih hmem
      simp only [status_line] at this ⊢
      simp [hc, this]

theorem status_line_no_nul (r : List Nat) (h : ∀ b ∈ r, b ≠ 0) :
    ∀ b ∈ status_line r, b ≠ 0 :=
  fun b hb => h b ((List.takeWhile_prefix _).subset hb)

theorem poke_status (r tl r2 : List Nat) (h : r = status_line r ++ 13 :: r2) :
    poke (r ++ tl) ((status_line r).length : Nat) 0 = status_line r ++ 0 :: (r2 ++ tl) := by
  rw [poke_nat]
  generalize status_line r = sl at h ⊢
  subst h
  simp only [List.append_assoc, List.cons_append]
  exact set_append_at _ _ _ _

/-- The round of the HTTP loop in which the queue holds the rest of the header `r` (and
possibly more: `extra`): the terminator is found, exactly the bytes up to its end are read,
and the status line decides between `Connection(0)` and `Close(ECONNRESET)`. -/
theorem http_round_final (env : Env) (s : CProxySocket Wire) (r extra : List Nat) (k : Nat)
    (hsb : s.sendBuffer_ = []) (hbuf : s.m_pRecvBuffer.length = 4096)
    (hlen : s.m_recvBufferLen = 4096) (hpos : s.m_recvBufferPos = k)
    (hpre : s.m_pRecvBuffer.take k = r.take k) (hr : http_header r) (hk : k < r.length)
    (hrx : s.socket_.rx = r.drop k ++ extra) :
    ∃ res, http_round env wire s = some (res, false) ∧
      res.socket_.rx = extra ∧
      res.trace = s.trace ++ [IoOp.peek k (4095 - k) 0,
        IoOp.nul ((k : Int) + (((r.drop k ++ extra).take (4095 - k)).length : Nat)),
        IoOp.read k (r.length - k) 0] ∧
      (http_accepts env r → res.m_proxyState = ProxyState.conn ∧
        res.events = s.events ++ [⟨socket_event_flag.connection, 0⟩]) ∧
      (¬ http_accepts env r → res.m_proxyState = ProxyState.noconn ∧
        res.events = s.events ++ [⟨socket_event_flag.close, ECONNRESET⟩]) := by
  have hcr := header_has_cr r hr
  obtain ⟨h4, hmax, hnul, hfind⟩ := hr
  obtain ⟨sock, ps, hst, pt, host, port, user, pass, sb, buf, pos, blen, cr, cw, ev, lg, tr⟩ := s
  obtain ⟨rx, rxEnd, tx, txPlan⟩ := sock
  simp only at hsb hbuf hlen hpos hpre hrx
  subst hsb hlen hpos hrx
  have hu := uint_http k (by omega)
  have hdne : r.drop k ≠ [] := by
    intro h0
    have := congrArg List.length h0
    simp at this
    omega
  have hrxne : r.drop k ++ extra ≠ [] := by simp [hdne]
  have htake : (r.drop k ++ extra).take (4095 - k) = r.drop k ++ extra.take (4095 - r.length) := by
    rw [List.take_append_eq_append_take, List.take_of_length_le (by simp; omega)]
    congr 2
    simp
    omega
  have hlook : ({ rx := r.drop k ++ extra, rxEnd := rxEnd, tx := tx, txPlan := txPlan } : Wire).look
      (4095 - k) = IoResult.ok (r.drop k ++ extra.take (4095 - r.length)) := by
    rw [wire_look_some _ _ (by omega) hrxne]
    simp only
    rw [htake]
  have hxl : (extra.take (4095 - r.length)).length ≤ 4095 - r.length := by
    simp
  have hbufp := buffer_after_peek buf r (extra.take (4095 - r.length)) k (by omega)
    hpre (by omega)
  have hcstr : c_str (r ++ extra.take (4095 - r.length) ++
      0 :: buf.drop (r.length + (extra.take (4095 - r.length)).length + 1))
      = r ++ c_str (extra.take (4095 - r.length) ++
        0 :: buf.drop (r.length + (extra.take (4095 - r.length)).length + 1)) := by
    rw [List.append_assoc, c_str_append r _ hnul]
  have hfound := find_sub_append CRLFCRLF r
    (c_str (extra.take (4095 - r.length) ++
        0 :: buf.drop (r.length + (extra.take (4095 - r.length)).length + 1)))
    (by decide) h4 hfind
  have hl0 : ¬ (((r.drop k ++ extra.take (4095 - r.length)).length : Int) = 0) := by
    simp
    omega
  have hdo : (((r.length - CRLFCRLF.length : Nat) : Int) + 4 - (k : Int))
      = ((r.length - k : Nat) : Int) := by
    have : CRLFCRLF.length = 4 := rfl
    omega
  have hread : wire.read { rx := r.drop k ++ extra, rxEnd := rxEnd, tx := tx, txPlan := txPlan }
      (r.length - k)
      = (IoResult.ok (r.drop k), { rx := extra, rxEnd := rxEnd, tx := tx, txPlan := txPlan }) := by
    have := wire_read_frame
      { rx := r.drop k ++ extra, rxEnd := rxEnd, tx := tx, txPlan := txPlan } (r.drop k) extra
      rfl hdne
    simpa using this
  have hsame : store (r ++ extra.take (4095 - r.length) ++
      0 :: buf.drop (r.length + (extra.take (4095 - r.length)).length + 1)) (k : Int) (r.drop k)
      = r ++ extra.take (4095 - r.length) ++
        0 :: buf.drop (r.length + (extra.take (4095 - r.length)).length + 1) := by
    have := store_same r (extra.take (4095 - r.length) ++
      0 :: buf.drop (r.length + (extra.take (4095 - r.length)).length + 1)) k (r.length - k)
      (by omega)
    have e : List.take (r.length - k) (List.drop k r) = List.drop k r :=
      List.take_of_length_le (by simp)
    rw [e] at this
    rw [List.append_assoc]
    exact this
  have hdl0 : ¬ (((r.length - k : Nat) : Int) = 0) := by omega
  have hdl : (((r.drop k).length : Nat) : Int) = ((r.length - k : Nat) : Int) := by simp
  -- the status line
  obtain ⟨r2, hsplit⟩ := status_line_split r hcr
  have hfcr : find_sub [13] (r ++ c_str (extra.take (4095 - r.length) ++
      0 :: buf.drop (r.length + (extra.take (4095 - r.length)).length + 1)))
      = some (status_line r).length := by
    rw [find_cr _ (List.mem_append_left _ hcr), status_line_append _ _ hcr]
  have hpoke : poke (r ++ extra.take (4095 - r.length) ++
      0 :: buf.drop (r.length + (extra.take (4095 - r.length)).length + 1))
      ((status_line r).length : Nat) 0
      = status_line r ++ 0 :: (r2 ++ (extra.take (4095 - r.length) ++
        0 :: buf.drop (r.length + (extra.take (4095 - r.length)).length + 1))) := by
    rw [List.append_assoc]
    exact poke_status r _ r2 hsplit
  have hcs2 : c_str (status_line r ++ 0 :: (r2 ++ (extra.take (4095 - r.length) ++
        0 :: buf.drop (r.length + (extra.take (4095 - r.length)).length + 1))))
      = status_line r :=
    c_str_nul _ _ (status_line_no_nul r hnul)
  unfold http_round
  simp only [hu, wire, Wire.peek, hlook, hl0, if_false, List.length_nil, ne_eq, not_true_eq_false,
    hbufp, strstr, hcstr, hfound, hdo]
  unfold http_read
  simp only [uint_nat (r.length - k) (by omega), show Wire.read = wire.read from rfl, hread, hdl0,
    if_false, ne_eq, not_true_eq_false, hsame, List.length_nil, hdl, strchr, hcstr, hfcr, hpoke,
    hcs2]
  by_cases hacc : http_accepts env r
  · have hacc' := hacc
    unfold http_accepts at hacc'
    rw [if_neg (by
      intro hcontra
      rcases hacc' with h | h
      · exact hcontra.1 h
      · exact hcontra.2 h)]
    refine ⟨_, rfl, ?_, ?_, ?_, ?_⟩
    · simp [succeed, send_event, LogMessage]
    · simp [succeed, send_event, LogMessage, htake]
    · intro _; simp [succeed, send_event, LogMessage]
    · intro h; exact absurd hacc h
  · have hacc' := hacc
    unfold http_accepts at hacc'
    rw [if_pos (by
      constructor
      · intro h; exact hacc' (Or.inl h)
      · intro h; exact hacc' (Or.inr h))]
    refine ⟨_, rfl, ?_, ?_, ?_, ?_⟩
    · simp [fail_close, send_event, LogMessage]
    · simp [fail_close, send_event, LogMessage, htake]
    · intro h; exact absurd h hacc
    · intro _; simp [fail_close, send_event, LogMessage]

/-! ## HTTP: delivery in chunks -/

/-- After the handshake has ended, delivering further chunks only fills the queue. -/
theorem deliver_done (env : Env) (fuel : Nat) (cs : List (List Nat)) (s : CProxySocket Wire)
    (h : s.m_proxyState ≠ ProxyState.handshake) :
    ∃ res, deliver env (fuel + 1) cs s = some res ∧
      res.socket_.rx = s.socket_.rx ++ cs.flatten ∧ res.events = s.events ∧
      res.m_proxyState = s.m_proxyState := by
  induction cs generalizing s with
  | nil => exact ⟨s, rfl, by simp, rfl, rfl⟩
  | cons c cs ih =>
    have h1 : (arrive s c).m_proxyState ≠ ProxyState.handshake := h
    obtain ⟨hrecv, _, _⟩ := post_terminal_noop env wire fuel (arrive s c) h1
    obtain ⟨res, hres, hrx, hev, hps⟩ := ih { arrive s c with m_can_read := true } h
    refine ⟨res, ?_, ?_, ?_, ?_⟩
    · simp only [deliver, hrecv]
      exact hres
    · rw [hrx]
      simp [arrive, Wire.arrive]
    · rw [hev]
      rfl
    · rw [hps]
      rfl

/-- A call of `OnReceive` for a chunk that stops before the end of the header. -/
theorem http_call_partial (env : Env) (fuel : Nat) (s : CProxySocket Wire)
    (r c rem : List Nat) (k : Nat) (hs : http_at s r k) (hr : http_header r)
    (hc : c ≠ []) (hsplit : r.drop k = c ++ rem) (hrem : rem ≠ []) :
    ∃ res, OnReceive env wire (fuel + 3) (arrive s c) = some res ∧
      http_at res r (k + c.length) ∧ res.events = s.events := by
  obtain ⟨h1, h2, h3, h4, h5, h6, h7, h8, h9⟩ := hs
  have hcl : 0 < c.length := List.length_pos.mpr hc
  have hrl : 0 < rem.length := List.length_pos.mpr hrem
  have hdl : (r.drop k).length = c.length + rem.length := by rw [hsplit]; simp
  have hkr : k + c.length + rem.length = r.length := by
    simp only [List.length_drop] at hdl
    omega
  have hmax := hr.2.1
  obtain ⟨sock, ps, hst, pt, host, port, user, pass, sb, buf, pos, blen, cr, cw, ev, lg, tr⟩ := s
  obtain ⟨rx, rxEnd, tx, txPlan⟩ := sock
  simp only at h1 h2 h3 h4 h5 h6 h7 h8 h9
  subst h1 h2 h3 h5 h6 h8 h9
  simp only [arrive, Wire.arrive, List.nil_append]
  rw [OnReceive_http env wire _ _ rfl rfl, http_wait_loop_succ,
    http_round_partial env _ r c rem k]
  case hsb => rfl
  case hbuf => exact h4
  case hlen => rfl
  case hpos => rfl
  case hpre => exact h7
  case hr => exact hr
  case hrx => rfl
  case hc => exact hc
  case hsplit => exact hsplit
  case hrem => exact hrem
  simp only
  rw [http_wait_loop_succ, http_round_again env _ (k + c.length)]
  case hlen => rfl
  case hpos => simp
  case hk => omega
  case hrx => rfl
  case hend => rfl
  refine ⟨_, rfl, ⟨rfl, rfl, rfl, ?_, rfl, by simp, ?_, rfl, rfl⟩, rfl⟩
  · simp
    omega
  · simp only
    rw [List.take_append_of_le_length (by simp; omega), List.take_of_length_le (by simp)]

/-- A call of `OnReceive` for a chunk that holds the rest of the header (and maybe more). -/
theorem http_call_final (env : Env) (fuel : Nat) (s : CProxySocket Wire)
    (r e1 : List Nat) (k : Nat) (hs : http_at s r k) (hr : http_header r) (hk : k < r.length) :
    ∃ res, OnReceive env wire (fuel + 2) (arrive s (r.drop k ++ e1)) = some res ∧
      res.socket_.rx = e1 ∧
      (http_accepts env r → res.m_proxyState = ProxyState.conn ∧
        res.events = s.events ++ [⟨socket_event_flag.connection, 0⟩]) ∧
      (¬ http_accepts env r → res.m_proxyState = ProxyState.noconn ∧
        res.events = s.events ++ [⟨socket_event_flag.close, ECONNRESET⟩]) := by
  obtain ⟨h1, h2, h3, h4, h5, h6, h7, h8, h9⟩ := hs
  obtain ⟨sock, ps, hst, pt, host, port, user, pass, sb, buf, pos, blen, cr, cw, ev, lg, tr⟩ := s
  obtain ⟨rx, rxEnd, tx, txPlan⟩ := sock
  simp only at h1 h2 h3 h4 h5 h6 h7 h8 h9
  subst h1 h2 h3 h5 h6 h8 h9
  simp only [arrive, Wire.arrive, List.nil_append]
  obtain ⟨res, hres, hrx, _, hacc, hrej⟩ := http_round_final env
    ({ socket_ := { rx := r.drop k ++ e1, rxEnd := RxEnd.again, tx := tx, txPlan := txPlan }
       m_proxyState := ProxyState.handshake
       m_handshakeState := handshake_state.http_wait
       m_proxyType := pt, m_host := host, m_port := port, m_user := user, m_pass := pass
       sendBuffer_ := [], m_pRecvBuffer := buf, m_recvBufferPos := k, m_recvBufferLen := 4096
       m_can_read := true, m_can_write := cw, events := ev, log := lg, trace := tr } :
      CProxySocket Wire)
    r e1 k rfl h4 rfl rfl h7 hr hk rfl
  rw [OnReceive_http env wire _ _ rfl rfl, http_wait_loop_succ, hres]
  exact ⟨res, rfl, hrx, hacc, hrej⟩

/-- The header `r` followed by `extra`, delivered in any non-empty chunks to an HTTP session
that has consumed `k` bytes of `r`: the driver consumes exactly the rest of `r`; `extra`
stays in the queue, and the status line decides the event. -/
theorem http_deliver (env : Env) (fuel : Nat) (r extra : List Nat) (hr : http_header r) :
    ∀ (chunks : List (List Nat)) (s : CProxySocket Wire) (k : Nat),
      http_at s r k → k < r.length → chunks.flatten = r.drop k ++ extra →
      (∀ c ∈ chunks, c ≠ []) →
      ∃ res, deliver env (fuel + 3) chunks s = some res ∧
        res.socket_.rx = extra ∧
        (http_accepts env r → res.m_proxyState = ProxyState.conn ∧
          res.events = s.events ++ [⟨socket_event_flag.connection, 0⟩]) ∧
        (¬ http_accepts env r → res.m_proxyState = ProxyState.noconn ∧
          res.events = s.events ++ [⟨socket_event_flag.close, ECONNRESET⟩]) := by
  intro chunks
  induction chunks with
  | nil =>
    intro s k _ hk hflat _
    exfalso
    have := congrArg List.length hflat
    simp at this
    omega
  | cons c cs ih =>
    intro s k hs hk hflat hne
    have hc : c ≠ [] := hne c (List.mem_cons_self _ _)
    have hne' : ∀ c' ∈ cs, c' ≠ [] := fun c' h => hne c' (List.mem_cons_of_mem _ h)
    rw [List.flatten_cons] at hflat
    -- the chunk ends the header, or stops before its end
    have hfinal : ∀ e1, c = r.drop k ++ e1 → extra = e1 ++ cs.flatten →
        ∃ res, deliver env (fuel + 3) (c :: cs) s = some res ∧
          res.socket_.rx = extra ∧
          (http_accepts env r → res.m_proxyState = ProxyState.conn ∧
            res.events = s.events ++ [⟨socket_event_flag.connection, 0⟩]) ∧
          (¬ http_accepts env r → res.m_proxyState = ProxyState.noconn ∧
            res.events = s.events ++ [⟨socket_event_flag.close, ECONNRESET⟩]) := by
      intro e1 hce hex
      obtain ⟨r1, hr1, hrx1, hacc, hrej⟩ := http_call_final env (fuel + 1) s r e1 k hs hr hk
      have hdone : r1.m_proxyState ≠ ProxyState.handshake := by
        by_cases ha : http_accepts env r
        · rw [(hacc ha).1]; decide
        · rw [(hrej ha).1]; decide
      obtain ⟨res, hres, hrx, hev, hps⟩ := deliver_done env (fuel + 2) cs r1 hdone
      refine ⟨res, ?_, ?_, ?_, ?_⟩
      · simp only [deliver]
        rw [hce, hr1]
        exact hres
      · rw [hrx, hrx1, hex]
      · intro ha
        rw [hps, hev]
        exact hacc ha
      · intro ha
        rw [hps, hev]
        exact hrej ha
    rcases List.append_eq_append_iff.mp hflat with ⟨a', h1, h2⟩ | ⟨c', h1, h2⟩
    · by_cases ha : a' = []
      · subst ha
        exact hfinal [] (by simpa using h1.symm) (by simpa using h2.symm)
      · obtain ⟨s1, hs1, hat, hev⟩ := http_call_partial env fuel s r c a' k hs hr hc h1 ha
        have hk' : k + c.length < r.length := by
          have := congrArg List.length h1
          have hal : 0 < a'.length := List.length_pos.mpr ha
          simp at this
          omega
        have hflat' : cs.flatten = r.drop (k + c.length) ++ extra := by
          rw [h2]
          congr 1
          have : r.drop (k + c.length) = (r.drop k).drop c.length := by
            rw [List.drop_drop, Nat.add_comm]
          rw [this, h1, List.drop_left]
        obtain ⟨res, hres, hrx, hacc, hrej⟩ := ih s1 (k + c.length) hat hk' hflat' hne'
        refine ⟨res, ?_, hrx, ?_, ?_⟩
        · simp only [deliver]
          rw [hs1]
          exact hres
        · intro h; rw [← hev]; exact hacc h
        · intro h; rw [← hev]; exact hrej h
    · exact hfinal c' h1 h2

/-- C4 (as amended): for HTTP, for every server byte stream `r ++ extra` whose part `r` up to
and including the first `"\r\n\r\n"` holds no NUL byte and is at most 4095 bytes long,
delivered in any split into non-empty chunks to a session that has sent its request, the
driver consumes exactly the bytes of `r`: the bytes `extra` after the terminator are all left
unread in the transport. -/
theorem http_consumes_through_terminator (env : Env) (fuel : Nat) (s : CProxySocket Wire)
    (r extra : List Nat) (chunks : List (List Nat))
    (hs : http_at s r 0) (hr : http_header r)
    (hflat : chunks.flatten = r ++ extra) (hne : ∀ c ∈ chunks, c ≠ []) :
    ∃ res, deliver env (fuel + 3) chunks s = some res ∧ res.socket_.rx = extra := by
  obtain ⟨res, h1, h2, _, _⟩ := http_deliver env fuel r extra hr chunks s 0 hs
    (by have := hr.1; omega) (by simpa using hflat) hne
  exact ⟨res, h1, h2⟩

set_option maxRecDepth 1000000 in
theorem http_consumes_through_terminator_witness :
    ∃ res, deliver sampleEnv (0 + 3)
        [ascii "HTTP/1.1 200 Connection esta", ascii "blished\r\nX: y\r\n\r", ascii "\nEXTRA"]
        (started sampleEnv ProxyType.HTTP (ascii "example.com") 443 [] []) = some res ∧
      res.socket_.rx = ascii "EXTRA" :=
  http_consumes_through_terminator sampleEnv 0
    (started sampleEnv ProxyType.HTTP (ascii "example.com") 443 [] [])
    (ascii "HTTP/1.1 200 Connection established\r\nX: y\r\n\r\n") (ascii "EXTRA")
    [ascii "HTTP/1.1 200 Connection esta", ascii "blished\r\nX: y\r\n\r", ascii "\nEXTRA"]
    ⟨by decide, by decide, by decide, by decide!, by decide, by decide, by decide, by decide,
      by decide⟩
    ⟨by decide, by decide, by decide, by decide⟩ (by decide) (by decide)

set_option maxRecDepth 1000000 in
/-- C4 (counterexample): the stream `00 0D 0A 0D 0A 45` contains the terminator at bytes 1..4,
yet the driver reads all six bytes, the byte after the terminator included: `strstr` stops at
the NUL and does not see the terminator, so the whole peeked block is read. -/
theorem http_nul_reads_past_terminator :
    (deliver sampleEnv 4 [[0, 13, 10, 13, 10, 69]]
      (started sampleEnv ProxyType.HTTP (ascii "example.com") 443 [] [])).map
      (fun r => (r.socket_.rx, r.m_recvBufferPos, r.m_proxyState)) =
    some ([], 6, ProxyState.handshake) := by
  decide!

/-! ## The SOCKS read on the queue socket -/

theorem socks_read_wire_again (s : CProxySocket Wire) (n : Nat)
    (hlen : s.m_recvBufferLen = n) (hn : 0 < n) (hsz : n < 4294967296)
    (hrx : s.socket_.rx = []) (hend : s.socket_.rxEnd = RxEnd.again) :
    socks_read wire s = ReadStep.done
      { s with
        trace := s.trace ++ [IoOp.read s.m_recvBufferPos n s.sendBuffer_.length]
        m_can_read := false } := by
  have hr : wire.read s.socket_ n = (IoResult.error EAGAIN, s.socket_) :=
    wire_read_empty _ _ hrx (by omega) hend
  rw [socks_read_error wire s EAGAIN (by rw [hlen, uint_nat _ hsz, hr])]
  simp only [ne_eq, not_true_eq_false, if_false, hlen, uint_nat _ hsz, hr]

theorem socks_read_wire_more (s : CProxySocket Wire) (n : Nat) (c : List Nat)
    (hlen : s.m_recvBufferLen = n) (hsz : n < 4294967296)
    (hrx : s.socket_.rx = c) (hc : c ≠ []) (hshort : c.length < n) :
    socks_read wire s = ReadStep.more
      { s with
        socket_ := { s.socket_ with rx := [] }
        trace := s.trace ++ [IoOp.read s.m_recvBufferPos n s.sendBuffer_.length]
        m_pRecvBuffer := store s.m_pRecvBuffer s.m_recvBufferPos c
        m_recvBufferPos := s.m_recvBufferPos + c.length
        m_recvBufferLen := (n : Int) - c.length } := by
  have hr : wire.read s.socket_ n = (IoResult.ok c, { s.socket_ with rx := [] }) := by
    have := wire_read_short s.socket_ n (by rw [hrx]; exact hc) (by rw [hrx]; omega)
    rw [hrx] at this
    exact this
  rw [socks_read_more wire s c (by rw [hlen, uint_nat _ hsz, hr]) (by rw [hlen]; omega) hc]
  simp only [hlen, uint_nat _ hsz, hr]

theorem socks_read_wire_frame (s : CProxySocket Wire) (d rest : List Nat)
    (hlen : s.m_recvBufferLen = d.length) (hsz : d.length < 4294967296)
    (hrx : s.socket_.rx = d ++ rest) (hd : d ≠ []) :
    socks_read wire s = ReadStep.frame
      { s with
        socket_ := { s.socket_ with rx := rest }
        trace := s.trace ++ [IoOp.read s.m_recvBufferPos d.length s.sendBuffer_.length]
        m_pRecvBuffer := store s.m_pRecvBuffer s.m_recvBufferPos d
        m_recvBufferPos := 0
        m_recvBufferLen := 0 } := by
  have hr : wire.read s.socket_ d.length = (IoResult.ok d, { s.socket_ with rx := rest }) :=
    wire_read_frame _ _ _ hrx hd
  rw [socks_read_frame wire s d (by rw [hlen, uint_nat _ hsz, hr]) hlen hd]
  simp only [hlen, uint_nat _ hsz, hr]

/-- The buffer once a frame is complete: the part received before and the part just read
make up the frame at the start of the buffer. -/
theorem buffer_after_frame (buf f : List Nat) (k : Nat) (hk : k ≤ f.length)
    (hfit : f.length ≤ buf.length) (hpre : buf.take k = f.take k) :
    store buf (k : Int) (f.drop k) = f ++ buf.drop f.length := by
  rw [store_nat _ _ _ (by simp; omega), hpre]
  have : k + (f.drop k).length = f.length := by simp; omega
  rw [this, List.take_append_drop]

theorem buffer_after_part (buf f c : List Nat) (k : Nat)
    (hc : (f.drop k).take c.length = c) (hkc : k + c.length ≤ f.length)
    (hfit : f.length ≤ buf.length) (hpre : buf.take k = f.take k) :
    (store buf (k : Int) c).take (k + c.length) = f.take (k + c.length) := by
  rw [store_nat _ _ _ (by omega), hpre]
  rw [List.take_append_of_le_length (by simp; omega)]
  have e : f.take (k + c.length) = f.take k ++ (f.drop k).take c.length := List.take_add _ _ _
  rw [e, hc]
  exact List.take_of_length_le (by simp)

/-! ## Delivery of a correct reply in chunks -/

/-- Induction over the chunks of a reply `r`, for a driver state described by `At s k`
(`k` bytes of `r` consumed): if a chunk that stops before the end of `r` keeps `At`, and the
chunk that ends `r` connects, then every split of the rest of `r` into non-empty chunks
connects, with `Connection(0)` as the only new event. -/
theorem deliver_chunks (env : Env) (fuel : Nat) (r : List Nat)
    (At : CProxySocket Wire → Nat → Prop)
    (hpart : ∀ s k c rem, At s k → c ≠ [] → r.drop k = c ++ rem → rem ≠ [] →
      ∃ s', OnReceive env wire fuel (arrive s c) = some s' ∧ At s' (k + c.length) ∧
        s'.events = s.events)
    (hfinal : ∀ s k, At s k → k < r.length →
      ∃ res, OnReceive env wire fuel (arrive s (r.drop k)) = some res ∧
        res.m_proxyState = ProxyState.conn ∧
        res.events = s.events ++ [⟨socket_event_flag.connection, 0⟩] ∧ res.socket_.rx = []) :
    ∀ (chunks : List (List Nat)) (s : CProxySocket Wire) (k : Nat),
      At s k → k < r.length → chunks.flatten = r.drop k → (∀ c ∈ chunks, c ≠ []) →
      ∃ res, deliver env fuel chunks s = some res ∧
        res.m_proxyState = ProxyState.conn ∧
        res.events = s.events ++ [⟨socket_event_flag.connection, 0⟩] ∧
        res.socket_.rx = [] := by
  intro chunks
  induction chunks with
  | nil =>
    intro s k _ hk hflat _
    exfalso
    have := congrArg List.length hflat
    simp at this
    omega
  | cons c cs ih =>
    intro s k hs hk hflat hne
    have hc : c ≠ [] := hne c (List.mem_cons_self _ _)
    have hne' : ∀ c' ∈ cs, c' ≠ [] := fun c' h => hne c' (List.mem_cons_of_mem _ h)
    rw [List.flatten_cons] at hflat
    by_cases hrest : cs.flatten = []
    · -- the last chunk
      have hcs : cs = [] := by
        cases cs with
        | nil => rfl
        | cons d ds =>
          exfalso
          have hd : d ≠ [] := hne' d (List.mem_cons_self _ _)
          rw [List.flatten_cons] at hrest
          exact hd (List.append_eq_nil.mp hrest).1
      subst hcs
      rw [List.flatten_nil, List.append_nil] at hflat
      obtain ⟨res, h1, h2, h3, h4⟩ := hfinal s k hs hk
      refine ⟨res, ?_, h2, h3, h4⟩
      simp only [deliver]
      rw [hflat, h1]
    · obtain ⟨s1, hs1, hat, hev⟩ := hpart s k c cs.flatten hs hc hflat.symm hrest
      have hlen := congrArg List.length hflat
      have hpos : 0 < cs.flatten.length := List.length_pos.mpr hrest
      simp only [List.length_append, List.length_drop] at hlen
      have hflat' : cs.flatten = r.drop (k + c.length) := by
        have : r.drop (k + c.length) = (r.drop k).drop c.length := by
          rw [List.drop_drop, Nat.add_comm]
        rw [this, ← hflat, List.drop_left]
      obtain ⟨res, hres, h2, h3, h4⟩ := ih s1 (k + c.length) hat (by omega) hflat' hne'
      refine ⟨res, ?_, h2, ?_, h4⟩
      · simp only [deliver]
        rw [hs1]
        exact hres
      · rw [h3, hev]

/-! ## SOCKS4: delivery in chunks -/

theorem socks4_call_partial (env : Env) (fuel : Nat) (s : CProxySocket Wire)
    (f c rem : List Nat) (k : Nat) (hs : socks4_at s f k []) (hc : c ≠ [])
    (hsplit : f.drop k = c ++ rem) (hrem : rem ≠ []) :
    ∃ res, OnReceive env wire (fuel + 3) (arrive s c) = some res ∧
      socks4_at res f (k + c.length) [] ∧ res.events = s.events := by
  obtain ⟨h1, h2, h3, h4, h5, h6, h7, h8, h9, h10⟩ := hs
  have hcl : 0 < c.length := List.length_pos.mpr hc
  have hrl : 0 < rem.length := List.length_pos.mpr hrem
  have hdl : (f.drop k).length = c.length + rem.length := by rw [hsplit]; simp
  have hkr : k + c.length + rem.length = 8 := by
    simp only [List.length_drop] at hdl
    omega
  have hctake : (f.drop k).take c.length = c := by rw [hsplit]; simp
  obtain ⟨sock, ps, hst, pt, host, port, user, pass, sb, buf, pos, blen, cr, cw, ev, lg, tr⟩ := s
  obtain ⟨rx, rxEnd, tx, txPlan⟩ := sock
  simp only at h1 h2 h3 h4 h5 h8 h9 h10
  subst h1 h2 h4 h5 h8 h9
  have e1 : (8 : Int) - (k : Int) = ((8 - k : Nat) : Int) := by omega
  have e2 : (((8 - k : Nat) : Int) - (c.length : Int)) = ((8 - k - c.length : Nat) : Int) := by
    omega
  simp only [arrive, Wire.arrive, List.nil_append]
  rw [OnReceive_socks4 env wire _ _ rfl rfl, socks4_loop_succ, socks4_body,
    if_pos ⟨by simp only [e1]; omega, rfl, rfl⟩,
    socks_read_wire_more _ (8 - k) c e1 (by omega) rfl hc (by omega)]
  simp only
  rw [socks4_loop_succ, socks4_body, if_pos ⟨by simp only [e2]; omega, rfl, rfl⟩,
    socks_read_wire_again _ (8 - k - c.length) e2 (by omega) (by omega) rfl rfl]
  refine ⟨_, rfl, ⟨rfl, rfl, ?_, rfl, rfl, h6, by omega, by simp, ?_, ?_⟩, rfl⟩
  · simp only [store_length]
    exact h3
  · simp only [e2]
    omega
  · exact buffer_after_part buf f c k hctake (by omega) (by omega) h10

theorem socks4_call_final (env : Env) (fuel : Nat) (s : CProxySocket Wire)
    (f : List Nat) (k : Nat) (hs : socks4_at s f k []) (hok : f.getD 1 0 = 0x5A) :
    ∃ res, OnReceive env wire (fuel + 3) (arrive s (f.drop k)) = some res ∧
      res.m_proxyState = ProxyState.conn ∧
      res.events = s.events ++ [⟨socket_event_flag.connection, 0⟩] ∧ res.socket_.rx = [] := by
  obtain ⟨h1, h2, h3, h4, h5, h6, h7, h8, h9, h10⟩ := hs
  obtain ⟨sock, ps, hst, pt, host, port, user, pass, sb, buf, pos, blen, cr, cw, ev, lg, tr⟩ := s
  obtain ⟨rx, rxEnd, tx, txPlan⟩ := sock
  simp only at h1 h2 h3 h4 h5 h8 h9 h10
  subst h1 h2 h4 h5 h8 h9
  have hdne : f.drop k ≠ [] := by
    intro h0
    have := congrArg List.length h0
    simp at this
    omega
  have e1 : (8 : Int) - (k : Int) = (((f.drop k).length : Nat) : Int) := by
    simp only [List.length_drop]
    omega
  have hbuf : store buf (k : Int) (f.drop k) = f := by
    rw [buffer_after_frame buf f k (by omega) (by omega) h10]
    rw [List.drop_of_length_le (by omega), List.append_nil]
  simp only [arrive, Wire.arrive, List.nil_append]
  rw [OnReceive_socks4 env wire _ _ rfl rfl, socks4_loop_succ, socks4_body,
    if_pos ⟨by simp only [e1, List.length_drop]; omega, rfl, rfl⟩,
    socks_read_wire_frame _ (f.drop k) [] e1 (by simp only [List.length_drop]; omega)
      (by simp) hdne]
  simp only [hbuf]
  rw [if_neg (not_not.mpr hok), socks4_loop_succ,
    socks4_body_idle _ _ _ (Or.inr (Or.inr (by simp [succeed, send_event])))]
  exact ⟨_, rfl, rfl, rfl, rfl⟩

/-- SOCKS4: a reply of eight bytes with status `0x5A`, delivered in any non-empty chunks,
connects. -/
theorem socks4_deliver (env : Env) (fuel : Nat) (s : CProxySocket Wire)
    (reply : List Nat) (chunks : List (List Nat))
    (hs : socks4_at s reply 0 []) (hok : reply.getD 1 0 = 0x5A)
    (hflat : chunks.flatten = reply) (hne : ∀ c ∈ chunks, c ≠ []) :
    ∃ res, deliver env (fuel + 3) chunks s = some res ∧
      res.m_proxyState = ProxyState.conn ∧
      res.events = s.events ++ [⟨socket_event_flag.connection, 0⟩] ∧
      res.socket_.rx = [] := by
  have h8 : reply.length = 8 := hs.2.2.2.2.2.1
  refine deliver_chunks env (fuel + 3) reply (fun s k => socks4_at s reply k []) ?_ ?_
    chunks s 0 hs (by omega) (by simpa using hflat) hne
  · intro s k c rem hat hc hsplit hrem
    exact socks4_call_partial env fuel s reply c rem k hat hc hsplit hrem
  · intro s k hat _
    exact socks4_call_final env fuel s reply k hat hok

/-! ## SOCKS5: sending a request from inside the receive loop -/

/-- `OnSend` on a queue socket that takes every write whole: the send buffer is written in one
call and `OnReceive` re-enters the SOCKS5 loop. -/
theorem OnSend_all (env : Env) (f : Nat) (s : CProxySocket Wire)
    (hs : s.m_proxyState = ProxyState.handshake) (hsb : s.sendBuffer_ ≠ [])
    (hcr : s.m_can_read = true) (hplan : s.socket_.txPlan = [])
    (hh : s.m_handshakeState ≠ handshake_state.http_wait)
    (hh4 : s.m_handshakeState ≠ handshake_state.socks4_handshake) :
    OnSend env wire (f + 3) s =
      socks5_loop env wire f
        { s with
          m_can_write := true
          socket_ := { s.socket_ with tx := s.socket_.tx ++ s.sendBuffer_ }
          trace := s.trace ++ [IoOp.write s.sendBuffer_]
          sendBuffer_ := []
          m_can_read := true } := by
  obtain ⟨sock, ps, hst, pt, host, port, user, pass, sb, buf, pos, blen, cr, cw, ev, lg, tr⟩ := s
  obtain ⟨rx, rxEnd, tx, txPlan⟩ := sock
  simp only at hs hsb hcr hplan hh hh4
  subst hs hcr hplan
  have hw := wire_write_all { rx := rx, rxEnd := rxEnd, tx := tx, txPlan := [] } sb rfl
  rw [OnSend_pending env wire _ _ rfl hsb, send_loop_succ, send_body]
  simp only [hw, List.drop_length, if_true]
  rw [OnReceive_socks5 env wire _ _ rfl hh hh4 rfl]

theorem socks5_plan_request (env : Env) (fs : List (List Nat))
    (h : socks5_plan env handshake_state.socks5_request fs) :
    ∃ rest, fs = [5, 0] :: rest ∧ socks5_plan env handshake_state.socks5_request_addrtype rest := by
  cases fs with
  | nil => exact absurd h (by simp [socks5_plan])
  | cons f rest =>
    simp only [socks5_plan] at h
    exact ⟨rest, by rw [h.1], h.2⟩

theorem socks5_plan_auth (env : Env) (fs : List (List Nat))
    (h : socks5_plan env handshake_state.socks5_auth fs) :
    ∃ rest, fs = [1, 0] :: rest ∧ socks5_plan env handshake_state.socks5_request rest := by
  cases fs with
  | nil => exact absurd h (by simp [socks5_plan])
  | cons f rest =>
    simp only [socks5_plan] at h
    exact ⟨rest, by rw [h.1], h.2⟩

theorem socks5_plan_addrtype (env : Env) (fs : List (List Nat))
    (h : socks5_plan env handshake_state.socks5_request_addrtype fs) :
    ∃ rsv atyp x tail, fs = [[rsv, atyp, x], tail] ∧ socks5_tail_ok env atyp x tail := by
  cases fs with
  | nil => exact absurd h (by simp [socks5_plan])
  | cons f rest =>
    simp only [socks5_plan] at h
    obtain ⟨rsv, atyp, x, tail, h1, h2, h3⟩ := h
    exact ⟨rsv, atyp, x, tail, by rw [h1, h2], h3⟩

theorem foldl_set_length (l : List Nat) (g : List Nat → Nat → List Nat)
    (hg : ∀ o i, (g o i).length = o.length) (xs : List Nat) :
    (xs.foldl g l).length = l.length := by
  induction xs generalizing l with
  | nil => rfl
  | cons a t ih => simp only [List.foldl_cons]; rw [ih, hg]

theorem take_ne_nil (l : List Nat) (n : Nat) (hn : 0 < n) (hl : 0 < l.length) :
    l.take n ≠ [] := by
  intro h
  have := congrArg List.length h
  simp only [List.length_take, List.length_nil] at this
  omega

theorem socks5_connect_request_ne_nil (env : Env) (h : List Nat) (p : Nat) :
    socks5_connect_request env h p ≠ [] := by
  unfold socks5_connect_request
  apply take_ne_nil
  · omega
  · simp only [List.length_set]
    split_ifs
    · simp only [List.length_set]
      rw [foldl_set_length _ _ (fun o i => by simp only [List.length_set])]
      simp only [List.length_set, List.length_replicate]
      omega
    · simp only [List.length_set, parse_ipv4_length, store_length, List.length_replicate]
      omega
    · simp only [List.length_set, store_length, List.length_replicate]
      omega

theorem socks5_auth_request_ne_nil (u p : List Nat) : socks5_auth_request u p ≠ [] := by
  unfold socks5_auth_request
  apply take_ne_nil
  · omega
  · simp only [List.length_set, store_length, List.length_replicate]
    omega

/-! ## SOCKS5: one complete frame -/

/-- After a complete frame that does not end the handshake, the loop goes on in the session
`socks5_next`: whatever the loop returns there, if it leaves the loop condition false, is the
result of the frame. -/
theorem socks5_frame_step (env : Env) (f : Nat) (s s2 : CProxySocket Wire)
    (hp : socks5_parse env s = Sum.inr s2)
    (hs : s2.m_proxyState = ProxyState.handshake) (hcr : s2.m_can_read = true)
    (hplan : s2.socket_.txPlan = [])
    (hh : s2.m_handshakeState ≠ handshake_state.http_wait)
    (hh4 : s2.m_handshakeState ≠ handshake_state.socks4_handshake) :
    ∃ g, f ≤ g ∧ ∀ res, socks5_loop env wire g (socks5_next env s) = some res →
      (res.m_can_read = false ∨ res.m_proxyState ≠ ProxyState.handshake) →
      socks5_frame env (socks5_loop env wire (f + 3)) (OnSend env wire (f + 3)) s = some res := by
  by_cases hsend : s2.sendBuffer_ ≠ [] ∧ s2.m_can_write = true
  · refine ⟨f, Nat.le_refl _, ?_⟩
    intro res hres hidle
    have hnext : socks5_next env s = socks5_sent s2 := by
      simp only [socks5_next, hp]
      rw [if_pos hsend]
    rw [hnext] at hres
    unfold socks5_frame
    simp only [hp]
    rw [if_pos hsend, OnSend_all env f s2 hs hsend.1 hcr hplan hh hh4]
    have hres' : socks5_loop env wire f
        { s2 with
          m_can_write := true
          socket_ := { s2.socket_ with tx := s2.socket_.tx ++ s2.sendBuffer_ }
          trace := s2.trace ++ [IoOp.write s2.sendBuffer_]
          sendBuffer_ := []
          m_can_read := true } = some res := hres
    rw [hres']
    simp only
    rw [socks5_loop_succ, socks5_body_idle _ _ _ _ _ (Or.inr hidle)]
  · refine ⟨f + 3, by omega, ?_⟩
    intro res hres _
    have hnext : socks5_next env s = s2 := by
      simp only [socks5_next, hp]
      rw [if_neg hsend]
    rw [hnext] at hres
    unfold socks5_frame
    simp only [hp]
    rw [if_neg hsend]
    exact hres

theorem socks5_parse_plan (env : Env) (s : CProxySocket Wire) (fr : List Nat)
    (fs : List (List Nat)) (c' : List Nat)
    (hst : s.m_proxyState = ProxyState.handshake) (hsb : s.sendBuffer_ = [])
    (hcw : s.m_can_write = true) (hcr : s.m_can_read = true)
    (hbuf : s.m_pRecvBuffer.length = 1024) (hrx : s.socket_.rx = c')
    (hend : s.socket_.rxEnd = RxEnd.again) (htx : s.socket_.txPlan = [])
    (hpos : s.m_recvBufferPos = 0)
    (hplan : socks5_plan env s.m_handshakeState (fr :: fs))
    (hpre : s.m_pRecvBuffer.take fr.length = fr) :
    (fs = [] ∧ socks5_parse env s = Sum.inl (succeed s)) ∨
    (∃ s2, socks5_parse env s = Sum.inr s2 ∧ s2.m_proxyState = ProxyState.handshake ∧
      s2.m_can_read = true ∧ s2.socket_.txPlan = [] ∧
      s2.m_handshakeState ≠ handshake_state.http_wait ∧
      s2.m_handshakeState ≠ handshake_state.socks4_handshake ∧
      socks5_at env (socks5_next env s) fs 0 c' ∧
      (socks5_next env s).m_can_read = true ∧ (socks5_next env s).events = s.events) := by
  obtain ⟨sock, ps, hs, pt, host, port, user, pass, sb, buf, pos, blen, cr, cw, ev, lg, tr⟩ := s
  obtain ⟨rx, rxEnd, tx, txPlan⟩ := sock
  simp only at hst hsb hcw hcr hbuf hrx hend htx hpos hplan hpre
  subst hst hsb hcw hcr hrx hend htx hpos
  have hb : buf = fr ++ buf.drop fr.length := by
    conv_lhs => rw [← List.take_append_drop fr.length buf, hpre]
  generalize buf.drop fr.length = b' at hb
  subst hb
  cases hs with
  | http_wait => simp [socks5_plan] at hplan
  | socks4_handshake => simp [socks5_plan] at hplan
  | socks5_method =>
    simp only [socks5_plan] at hplan
    rcases hplan with ⟨hf, hp⟩ | ⟨hf, hp⟩
    · subst hf
      obtain ⟨rest, hrest, hp'⟩ := socks5_plan_request env fs hp
      subst hrest
      right
      simp [socks5_parse, socks5_check_version, socks5_transition, socks5_queue, socks5_next,
        socks5_sent, socks5_at, socks5_connect_request_ne_nil, hp]
      simp at hbuf
      omega
    · subst hf
      obtain ⟨rest, hrest, hp'⟩ := socks5_plan_auth env fs hp
      subst hrest
      right
      simp [socks5_parse, socks5_check_version, socks5_transition, socks5_queue, socks5_next,
        socks5_sent, socks5_at, socks5_auth_request_ne_nil, hp]
      simp at hbuf
      omega
  | socks5_auth =>
    simp only [socks5_plan] at hplan
    obtain ⟨hf, hp⟩ := hplan
    subst hf
    obtain ⟨rest, hrest, hp'⟩ := socks5_plan_request env fs hp
    subst hrest
    right
    simp [socks5_parse, socks5_check_version, socks5_transition, socks5_queue, socks5_next,
      socks5_sent, socks5_at, socks5_connect_request_ne_nil, hp]
    simp at hbuf
    omega
  | socks5_request =>
    simp only [socks5_plan] at hplan
    obtain ⟨hf, hp⟩ := hplan
    subst hf
    obtain ⟨rsv, atyp, x, tail, hrest, hok⟩ := socks5_plan_addrtype env fs hp
    subst hrest
    right
    simp [socks5_parse, socks5_check_version, socks5_transition, socks5_queue, socks5_next,
      socks5_sent, socks5_at, hp]
    simp at hbuf
    omega
  | socks5_request_addrtype =>
    simp only [socks5_plan] at hplan
    obtain ⟨rsv, atyp, x, tail, hf, hfs, hok⟩ := hplan
    subst hf hfs
    right
    rcases hok with ⟨ha, hl⟩ | ⟨ha, hl⟩ | ⟨ha, hl, hx, hc⟩
    · subst ha
      simp [socks5_parse, socks5_check_version, socks5_transition, socks5_queue, socks5_next,
        socks5_sent, socks5_at, socks5_plan, hl]
      simp at hbuf
      omega
    · subst ha
      simp [socks5_parse, socks5_check_version, socks5_transition, socks5_queue, socks5_next,
        socks5_sent, socks5_at, socks5_plan, hl]
      simp at hbuf
      omega
    · subst ha
      simp [socks5_parse, socks5_check_version, socks5_transition, socks5_queue, socks5_next,
        socks5_sent, socks5_at, socks5_plan, hl, char_val_small env x hc]
      simp at hbuf
      omega
  | socks5_request_address =>
    simp only [socks5_plan] at hplan
    subst hplan
    left
    simp [socks5_parse, socks5_check_version, socks5_transition]

/-! ## SOCKS5: a call of the receive loop on part of a correct reply -/

theorem drop_flatten_cons (f : List Nat) (rest : List (List Nat)) (k : Nat) (hk : k ≤ f.length) :
    (f :: rest).flatten.drop k = f.drop k ++ rest.flatten := by
  rw [List.flatten_cons, List.drop_append_of_le_length hk]

/-- The SOCKS5 loop on a session that awaits the frames `fs` of a correct reply, with the
bytes `c` of that reply in the queue and `rem` still to come: if `rem` is not empty the loop
returns waiting for exactly `rem`, with no event; if it is empty the loop ends in `conn` with
the single event `Connection(0)`. -/
theorem socks5_absorb (env : Env) :
    ∀ (n : Nat) (c : List Nat), c.length ≤ n →
    ∀ (fuel : Nat) (s : CProxySocket Wire) (fs : List (List Nat)) (k : Nat) (rem : List Nat),
      4 * c.length + 2 ≤ fuel → socks5_at env s fs k c → s.m_can_read = true →
      fs.flatten.drop k = c ++ rem →
      ∃ res, socks5_loop env wire fuel s = some res ∧
        (rem ≠ [] → ∃ fs' k', socks5_at env res fs' k' [] ∧ fs'.flatten.drop k' = rem ∧
          res.events = s.events ∧ res.m_can_read = false) ∧
        (rem = [] → res.m_proxyState = ProxyState.conn ∧
          res.events = s.events ++ [⟨socket_event_flag.connection, 0⟩] ∧
          res.socket_.rx = []) := by
  intro n
  induction n with
  | zero =>
    intro c hc fuel s fs k rem hfuel hat hcr hstream
    have hc0 : c = [] := List.length_eq_zero.mp (Nat.le_zero.mp hc)
    subst hc0
    obtain ⟨h1, h2, h3, h4, h5, h6, h7, h8, f, rest, hfs, hk, hfl, hpos, hlen, hpre⟩ := hat
    obtain ⟨g, rfl⟩ : ∃ g, fuel = g + 1 := ⟨fuel - 1, by omega⟩
    have e1 : (f.length : Int) - (k : Int) = ((f.length - k : Nat) : Int) := by omega
    have hremne : rem ≠ [] := by
      rw [hfs, drop_flatten_cons f rest k (by omega), List.nil_append] at hstream
      intro h0
      rw [h0] at hstream
      have := congrArg List.length hstream
      simp at this
      omega
    rw [socks5_loop_succ, socks5_body,
      if_pos ⟨by rw [hlen, e1]; omega, hcr, h1⟩,
      socks_read_wire_again s (f.length - k) (by rw [hlen, e1]) (by omega) (by omega) h5 h6]
    refine ⟨_, rfl, ?_, ?_⟩
    · intro _
      refine ⟨fs, k, ⟨h1, h2, h3, h4, h5, h6, h7, h8, f, rest, hfs, hk, hfl, hpos, hlen, hpre⟩,
        by simpa using hstream, rfl, rfl⟩
    · intro h0
      exact absurd h0 hremne
  | succ n ih =>
    intro c hc fuel s fs k rem hfuel hat hcr hstream
    by_cases hc0 : c = []
    · subst hc0
      exact ih [] (Nat.zero_le _) fuel s fs k rem hfuel hat hcr hstream
    obtain ⟨h1, h2, h3, h4, h5, h6, h7, h8, f, rest, hfs, hk, hfl, hpos, hlen, hpre⟩ := hat
    have hcl : 0 < c.length := List.length_pos.mpr hc0
    obtain ⟨g, rfl⟩ : ∃ g, fuel = g + 4 := ⟨fuel - 4, by omega⟩
    have e1 : (f.length : Int) - (k : Int) = ((f.length - k : Nat) : Int) := by omega
    rw [hfs, drop_flatten_cons f rest k (by omega)] at hstream
    by_cases hshort : c.length < f.length - k
    · -- the chunk stops inside the frame
      have hctake : (f.drop k).take c.length = c := by
        have := congrArg (List.take c.length) hstream
        rw [List.take_append_of_le_length (by simp; omega), List.take_left] at this
        exact this
      have hrem : (f.drop k).drop c.length ++ rest.flatten = rem := by
        have := congrArg (List.drop c.length) hstream
        rw [List.drop_append_of_le_length (by simp; omega), List.drop_left] at this
        exact this
      have hat1 : socks5_at env
          { s with
            socket_ := { s.socket_ with rx := [] }
            trace := s.trace ++ [IoOp.read s.m_recvBufferPos (f.length - k) s.sendBuffer_.length]
            m_pRecvBuffer := store s.m_pRecvBuffer s.m_recvBufferPos c
            m_recvBufferPos := s.m_recvBufferPos + c.length
            m_recvBufferLen := ((f.length - k : Nat) : Int) - c.length }
          fs (k + c.length) [] := by
        refine ⟨h1, h2, h3, ?_, rfl, h6, h7, h8, f, rest, hfs, by omega, hfl, ?_, ?_, ?_⟩
        · simp only [store_length]; exact h4
        · simp only [hpos]; push_cast; rfl
        · simp only; omega
        · simp only [hpos]
          exact buffer_after_part _ f c k hctake (by omega) (by omega) hpre
      obtain ⟨res, hres, hne, hnil⟩ := ih [] (Nat.zero_le _) (g + 3) _ fs (k + c.length) rem
        (by simp) hat1 hcr (by
          rw [hfs, drop_flatten_cons f rest _ (by omega), List.nil_append, ← hrem,
            List.drop_drop, Nat.add_comm])
      rw [socks5_loop_succ, socks5_body,
        if_pos ⟨by rw [hlen, e1]; omega, hcr, h1⟩,
        socks_read_wire_more s (f.length - k) c (by rw [hlen, e1]) (by omega) h5 hc0 hshort]
      exact ⟨res, hres, hne, hnil⟩
    · -- the chunk completes the frame
      have hdl : (f.drop k).length = f.length - k := by simp
      obtain ⟨c', hc', hrest⟩ : ∃ c', c = f.drop k ++ c' ∧ rest.flatten = c' ++ rem := by
        rcases List.append_eq_append_iff.mp hstream with ⟨a', ha1, ha2⟩ | ⟨c', hc1, hc2⟩
        · exact ⟨a', ha1, ha2⟩
        · have hl := congrArg List.length hc1
          simp only [List.length_append, List.length_drop] at hl
          have hc0' : c' = [] := List.length_eq_zero.mp (by omega)
          subst hc0'
          exact ⟨[], by simpa using hc1.symm, by simpa using hc2.symm⟩
      have hdne : f.drop k ≠ [] := by
        intro h0
        have := congrArg List.length h0
        simp at this
        omega
      have hc'l : c'.length + (f.length - k) = c.length := by
        have := congrArg List.length hc'
        simp only [List.length_append, List.length_drop] at this
        omega
      have hbufeq : store s.m_pRecvBuffer s.m_recvBufferPos (f.drop k)
          = f ++ s.m_pRecvBuffer.drop f.length := by
        rw [hpos]
        exact buffer_after_frame _ f k (by omega) (by omega) hpre
      rw [socks5_loop_succ, socks5_body,
        if_pos ⟨by rw [hlen, e1]; omega, hcr, h1⟩,
        socks_read_wire_frame s (f.drop k) c' (by rw [hlen, hdl, e1]) (by rw [hdl]; omega)
          (by rw [h5, hc']) hdne]
      simp only [hbufeq]
      have hparse := socks5_parse_plan env
        { s with
          socket_ := { s.socket_ with rx := c' }
          trace := s.trace ++
            [IoOp.read s.m_recvBufferPos (f.drop k).length s.sendBuffer_.length]
          m_pRecvBuffer := f ++ s.m_pRecvBuffer.drop f.length
          m_recvBufferPos := 0
          m_recvBufferLen := 0 }
        f rest c' h1 h2 h3 hcr (by simp; omega) rfl h6 h7 rfl (by rw [← hfs]; exact h8)
        (by simp)
      rcases hparse with ⟨hrest0, hp⟩ | ⟨s2, hp, hs2, hcr2, htx2, hh, hh4, hat2, hcr3, hev⟩
      · subst hrest0
        have hboth : c' = [] ∧ rem = [] := by
          have := congrArg List.length hrest
          simp at this
          exact ⟨List.length_eq_zero.mp (by omega), List.length_eq_zero.mp (by omega)⟩
        obtain ⟨hc'0, hrem0⟩ := hboth
        subst hc'0 hrem0
        refine ⟨_, (by simp only [socks5_frame, hp]; exact rfl), ?_, ?_⟩
        · intro h; exact absurd rfl h
        · intro _
          exact ⟨rfl, rfl, rfl⟩
      · obtain ⟨g2, hg2, hstep⟩ := socks5_frame_step env g _ s2 hp hs2 hcr2 htx2 hh hh4
        obtain ⟨res, hres, hne, hnil⟩ := ih c' (by omega) g2 _ rest 0 rem (by omega) hat2 hcr3
          (by simpa using hrest)
        have hidle : res.m_can_read = false ∨ res.m_proxyState ≠ ProxyState.handshake := by
          by_cases hr : rem = []
          · right
            rw [(hnil hr).1]
            decide
          · left
            obtain ⟨_, _, _, _, _, h⟩ := hne hr
            exact h
        refine ⟨res, hstep res hres hidle, ?_, ?_⟩
        · intro hr
          obtain ⟨fs', k', a, b, cc, d⟩ := hne hr
          exact ⟨fs', k', a, b, by rw [cc, hev], d⟩
        · intro hr
          obtain ⟨a, b, cc⟩ := hnil hr
          exact ⟨a, by rw [b, hev], cc⟩

theorem socks5_plan_state (env : Env) (st : handshake_state) (fs : List (List Nat))
    (h : socks5_plan env st fs) :
    st ≠ handshake_state.http_wait ∧ st ≠ handshake_state.socks4_handshake := by
  cases fs with
  | nil => exact absurd h (by simp [socks5_plan])
  | cons f rest =>
    cases st <;> simp [socks5_plan] at h ⊢

/-! ## SOCKS5: delivery in chunks -/

theorem socks5_call (env : Env) (fuel : Nat) (s : CProxySocket Wire)
    (fs : List (List Nat)) (j : Nat) (c rem : List Nat)
    (hs : socks5_at env s fs j []) (hstream : fs.flatten.drop j = c ++ rem)
    (hfuel : 4 * c.length + 2 ≤ fuel) :
    ∃ res, OnReceive env wire (fuel + 1) (arrive s c) = some res ∧
      (rem ≠ [] → ∃ fs' k', socks5_at env res fs' k' [] ∧ fs'.flatten.drop k' = rem ∧
        res.events = s.events) ∧
      (rem = [] → res.m_proxyState = ProxyState.conn ∧
        res.events = s.events ++ [⟨socket_event_flag.connection, 0⟩] ∧
        res.socket_.rx = []) := by
  obtain ⟨h1, h2, h3, h4, h5, h6, h7, h8, hf⟩ := hs
  obtain ⟨hh, hh4⟩ := socks5_plan_state env _ fs h8
  have hat : socks5_at env { arrive s c with m_can_read := true } fs j c :=
    ⟨h1, h2, h3, h4, by simp [arrive, Wire.arrive, h5], h6, h7, h8, hf⟩
  obtain ⟨res, hres, hne, hnil⟩ := socks5_absorb env c.length c (Nat.le_refl _) fuel _ fs j rem
    hfuel hat rfl hstream
  rw [OnReceive_socks5 env wire fuel (arrive s c) h1 hh hh4 h2]
  refine ⟨res, hres, ?_, hnil⟩
  intro hr
  obtain ⟨fs', k', a, b, cc, _⟩ := hne hr
  exact ⟨fs', k', a, b, cc⟩

/-- SOCKS5: the frames of a correct reply, delivered in any non-empty chunks, connect; the
only event is `Connection(0)`. -/
theorem socks5_deliver (env : Env) (fuel : Nat) (s : CProxySocket Wire)
    (fs : List (List Nat)) (chunks : List (List Nat))
    (hs : socks5_at env s fs 0 []) (hfuel : 4 * fs.flatten.length + 3 ≤ fuel)
    (hflat : chunks.flatten = fs.flatten) (hne : ∀ c ∈ chunks, c ≠ []) :
    ∃ res, deliver env fuel chunks s = some res ∧
      res.m_proxyState = ProxyState.conn ∧
      res.events = s.events ++ [⟨socket_event_flag.connection, 0⟩] ∧
      res.socket_.rx = [] := by
  obtain ⟨g, rfl⟩ : ∃ g, fuel = g + 1 := ⟨fuel - 1, by omega⟩
  have hpos : 0 < fs.flatten.length := by
    obtain ⟨_, _, _, _, _, _, _, _, f, rest, hfs, hk, _⟩ := hs
    rw [hfs, List.flatten_cons, List.length_append]
    omega
  refine deliver_chunks env (g + 1) fs.flatten
    (fun s k => ∃ fs' j, socks5_at env s fs' j [] ∧ fs'.flatten.drop j = fs.flatten.drop k)
    ?_ ?_ chunks s 0 ⟨fs, 0, hs, rfl⟩ hpos (by simpa using hflat) hne
  · intro s k c rem hat hc hsplit hrem
    obtain ⟨fs', j, hat', hstream⟩ := hat
    have hl := congrArg List.length hsplit
    simp only [List.length_append, List.length_drop] at hl
    obtain ⟨res, hres, hne', _⟩ := socks5_call env g s fs' j c rem hat'
      (by rw [hstream, hsplit]) (by omega)
    obtain ⟨fs2, k2, a, b, cc⟩ := hne' hrem
    refine ⟨res, hres, ⟨fs2, k2, a, ?_⟩, cc⟩
    rw [b, ← List.drop_drop, hsplit, List.drop_left]
  · intro s k hat hk
    obtain ⟨fs', j, hat', hstream⟩ := hat
    have hl : (fs.flatten.drop k).length ≤ fs.flatten.length := by
      simp only [List.length_drop]
      omega
    obtain ⟨res, hres, _, hnil⟩ := socks5_call env g s fs' j (fs.flatten.drop k) [] hat'
      (by rw [hstream, List.append_nil]) (by omega)
    exact ⟨res, hres, hnil rfl⟩

/-! ## HTTP: a header that does not fit the receive buffer -/

theorem find_sub_none_of_count (t l : List Nat) (ht : t ≠ []) (b : Nat)
    (h : l.count b < t.count b) : find_sub t l = none := by
  cases hf : find_sub t l with
  | none => rfl
  | some i =>
    exfalso
    obtain ⟨hpre, _, _⟩ := (find_sub_spec t ht l i).mp hf
    have h1 : t.count b ≤ (l.drop i).count b := hpre.sublist.count_le b
    have h2 : (l.drop i).count b ≤ l.count b := (List.drop_sublist i l).count_le b
    omega

/-- A round of the HTTP loop when 4095 bytes without NUL and without terminator are at the
head of the queue: the buffer is full, and the session closes with `ENOMEM`. -/
theorem http_round_too_large (env : Env) (s : CProxySocket Wire) (p rest : List Nat)
    (hsb : s.sendBuffer_ = []) (hbuf : s.m_pRecvBuffer.length = 4096)
    (hlen : s.m_recvBufferLen = 4096) (hpos : s.m_recvBufferPos = 0)
    (hrx : s.socket_.rx = p ++ rest) (hp : p.length = 4095) (hnul : ∀ b ∈ p, b ≠ 0)
    (hnone : find_sub CRLFCRLF p = none) :
    ∃ res, http_round env wire s = some (res, false) ∧
      res.m_proxyState = ProxyState.noconn ∧
      res.events = s.events ++ [⟨socket_event_flag.close, ENOMEM⟩] := by
  obtain ⟨sock, ps, hst, pt, host, port, user, pass, sb, buf, pos, blen, cr, cw, ev, lg, tr⟩ := s
  obtain ⟨rx, rxEnd, tx, txPlan⟩ := sock
  simp only at hsb hbuf hlen hpos hrx
  subst hsb hlen hpos hrx
  have hpne : p ++ rest ≠ [] := by
    intro h0
    have := congrArg List.length h0
    simp only [List.length_append, List.length_nil, hp] at this
    omega
  have hu : uint ((4096 : Int) - 0 - 1) = 4095 := by
    have := uint_http 0 (by omega)
    simpa using this
  have hlook : ({ rx := p ++ rest, rxEnd := rxEnd, tx := tx, txPlan := txPlan } : Wire).look 4095
      = IoResult.ok p := by
    rw [wire_look_some _ _ (by omega) hpne]
    simp only
    rw [← hp, List.take_left]
  have hbufp := buffer_after_peek buf p [] 0 (by omega) (by simp) (by simp; omega)
  simp only [List.drop_zero, List.append_nil, List.length_nil, Nat.add_zero, hp] at hbufp
  have hcstr : c_str (p ++ 0 :: buf.drop (4095 + 1)) = p := c_str_nul _ _ hnul
  unfold http_round
  simp only [hu, wire, Wire.peek, hlook, hp]
  simp only [Nat.cast_zero, Nat.cast_ofNat, zero_add] at hbufp ⊢
  simp [hbufp, strstr, hcstr, hnone, fail_log_close, send_event, LogMessage]

/-! ## Delivery of a correct reply, for the three protocols -/

theorem correct_reply_connects (env : Env) (fuel : Nat) (s : CProxySocket Wire)
    (reply : List Nat) (chunks : List (List Nat))
    (hs : ready s) (hr : correct_reply env s reply)
    (hfuel : 4 * reply.length + 3 ≤ fuel)
    (hflat : chunks.flatten = reply) (hne : ∀ c ∈ chunks, c ≠ []) :
    ∃ res, deliver env fuel chunks s = some res ∧
      res.m_proxyState = ProxyState.conn ∧
      res.events = s.events ++ [⟨socket_event_flag.connection, 0⟩] ∧
      res.socket_.rx = [] := by
  obtain ⟨g, rfl⟩ : ∃ g, fuel = g + 3 := ⟨fuel - 3, by omega⟩
  obtain ⟨h1, h2, h3, h4, h5, h6, h7, hcase⟩ := hs
  rcases hcase with ⟨hh, hl, hb⟩ | ⟨hh, hl, hb⟩ | ⟨hh, hl, hb⟩
  · -- HTTP
    simp only [correct_reply, hh] at hr
    obtain ⟨hhead, hacc⟩ := hr
    obtain ⟨res, hres, hrx, hconn, _⟩ := http_deliver env g reply [] hhead chunks s 0
      ⟨h1, hh, h2, hb, hl, by simpa using h4, rfl, h5, h6⟩ (by have := hhead.1; omega)
      (by simpa using hflat) hne
    exact ⟨res, hres, (hconn hacc).1, (hconn hacc).2, hrx⟩
  · -- SOCKS4
    simp only [correct_reply, hh] at hr
    obtain ⟨h8, hok⟩ := hr
    exact socks4_deliver env g s reply chunks
      ⟨h1, hh, hb, h5, h6, h8, by omega, by simpa using h4, by simpa using hl, rfl⟩ hok hflat hne
  · -- SOCKS5
    simp only [correct_reply, hh] at hr
    obtain ⟨fs, hplan, hfl⟩ := hr
    subst hfl
    have hat : socks5_at env s fs 0 [] := by
      refine ⟨h1, h2, h3, hb, h5, h6, h7, by rw [hh]; exact hplan, ?_⟩
      cases fs with
      | nil => exact absurd hplan (by simp [socks5_plan])
      | cons f rest =>
        simp only [socks5_plan] at hplan
        have hf2 : f.length = 2 := by
          rcases hplan with ⟨hf, _⟩ | ⟨hf, _⟩ <;> rw [hf] <;> rfl
        exact ⟨f, rest, rfl, by omega, by omega, by simpa using h4, by rw [hl, hf2]; rfl, rfl⟩
    exact socks5_deliver env (g + 3) s fs chunks hat hfuel hflat hne

theorem correct_reply_ne_nil (env : Env) (s : CProxySocket Wire) (reply : List Nat)
    (hr : correct_reply env s reply) : reply ≠ [] := by
  intro h0
  subst h0
  unfold correct_reply at hr
  cases hh : s.m_handshakeState with
  | http_wait =>
    simp only [hh] at hr
    exact absurd hr.1.1 (by simp)
  | socks4_handshake =>
    simp only [hh] at hr
    exact absurd hr.1 (by simp)
  | socks5_method =>
    simp only [hh] at hr
    obtain ⟨fs, hplan, hfl⟩ := hr
    cases fs with
    | nil => exact absurd hplan (by simp [socks5_plan])
    | cons f rest =>
      simp only [socks5_plan] at hplan
      have hf2 : f.length = 2 := by
        rcases hplan with ⟨hf, _⟩ | ⟨hf, _⟩ <;> rw [hf] <;> rfl
      have := congrArg List.length hfl
      simp only [List.flatten_cons, List.length_append, List.length_nil] at this
      omega
  | _ => simp only [hh] at hr

/-- C3 (as amended): for every session that has sent its first request (`ready`), every
correct server reply that the driver's buffers take in (`correct_reply`: for HTTP a 2xx header
of at most 4095 bytes without NUL, for SOCKS4 eight bytes with status `0x5A`, for SOCKS5 the
frames of `socks5_plan`) and every split of that reply into non-empty chunks, each chunk
followed by one `OnReceive` call on a transport that gives the bytes it has and then `EAGAIN`:
the driver ends in `conn`, and the events are the same as when the reply comes in one chunk,
namely the earlier events followed by the single `Connection(0)`. -/
theorem chunked_reply_same_events (env : Env) (fuel : Nat) (s : CProxySocket Wire)
    (reply : List Nat) (chunks : List (List Nat))
    (hs : ready s) (hr : correct_reply env s reply)
    (hfuel : 4 * reply.length + 3 ≤ fuel)
    (hflat : chunks.flatten = reply) (hne : ∀ c ∈ chunks, c ≠ []) :
    ∃ res one, deliver env fuel chunks s = some res ∧ deliver env fuel [reply] s = some one ∧
      res.m_proxyState = ProxyState.conn ∧ one.m_proxyState = ProxyState.conn ∧
      res.events = one.events ∧
      res.events = s.events ++ [⟨socket_event_flag.connection, 0⟩] := by
  obtain ⟨res, h1, h2, h3, _⟩ := correct_reply_connects env fuel s reply chunks hs hr hfuel
    hflat hne
  obtain ⟨one, g1, g2, g3, _⟩ := correct_reply_connects env fuel s reply [reply] hs hr hfuel
    (by simp) (by
      intro c hc
      rw [List.mem_singleton] at hc
      rw [hc]
      exact correct_reply_ne_nil env s reply hr)
  exact ⟨res, one, h1, g1, h2, g2, by rw [h3, g3], h3⟩

set_option maxRecDepth 1000000 in
theorem chunked_reply_same_events_witness :
    ∃ res one,
      deliver sampleEnv 59 [[5], [0, 5, 0, 0], [1, 0, 0, 0, 0, 0], [80]]
        (started sampleEnv ProxyType.SOCKS5 (ascii "example.com") 80 [] []) = some res ∧
      deliver sampleEnv 59 [[5, 0, 5, 0, 0, 1, 0, 0, 0, 0, 0, 80]]
        (started sampleEnv ProxyType.SOCKS5 (ascii "example.com") 80 [] []) = some one ∧
      res.m_proxyState = ProxyState.conn ∧ one.m_proxyState = ProxyState.conn ∧
      res.events = one.events ∧
      res.events = (started sampleEnv ProxyType.SOCKS5 (ascii "example.com") 80 [] []).events ++
        [⟨socket_event_flag.connection, 0⟩] :=
  chunked_reply_same_events sampleEnv 59
    (started sampleEnv ProxyType.SOCKS5 (ascii "example.com") 80 [] [])
    [5, 0, 5, 0, 0, 1, 0, 0, 0, 0, 0, 80] [[5], [0, 5, 0, 0], [1, 0, 0, 0, 0, 0], [80]]
    ⟨by decide, by decide, by decide, by decide, by decide, by decide, by decide,
      Or.inr (Or.inr ⟨by decide, by decide, by decide!⟩)⟩
    ⟨[[5, 0], [5, 0], [0, 1, 0], [0, 0, 0, 0, 80]],
      (by simp [socks5_plan, socks5_tail_ok]; exact ⟨0, 1, 0, ⟨rfl, rfl, rfl⟩, Or.inl rfl⟩),
      by decide⟩
    (by decide) (by decide) (by decide)

/-- A block of at least 4095 bytes whose first 4095 bytes `p` hold neither a NUL nor the
terminator, delivered in one chunk to an HTTP session at the start of the reply: the driver
closes with `ENOMEM`. -/
theorem http_too_large_closes (env : Env) (fuel : Nat) (s : CProxySocket Wire)
    (p rest : List Nat) (hs : http_at s p 0) (hp : p.length = 4095) (hnul : ∀ b ∈ p, b ≠ 0)
    (hnone : find_sub CRLFCRLF p = none) :
    ∃ res, deliver env (fuel + 1 + 1) [p ++ rest] s = some res ∧
      res.m_proxyState = ProxyState.noconn ∧
      res.events = s.events ++ [⟨socket_event_flag.close, ENOMEM⟩] := by
  obtain ⟨h1, h2, h3, h4, h5, h6, h7, h8, h9⟩ := hs
  obtain ⟨res, hres, g1, g2⟩ := http_round_too_large env
    { arrive s (p ++ rest) with m_can_read := true } p rest h3 h4 h5 (by simpa using h6)
    (by simp [arrive, Wire.arrive, h8]) hp hnul hnone
  refine ⟨res, ?_, g1, g2⟩
  simp only [deliver]
  rw [OnReceive_http env wire (fuel + 1) (arrive s (p ++ rest)) h1 h2, http_wait_loop_succ, hres]

theorem no_nul_append_replicate (h : List Nat) (n c : Nat) (hh : ∀ b ∈ h, b ≠ 0)
    (hc : c ≠ 0) : ∀ b ∈ h ++ List.replicate n c, b ≠ 0 := by
  intro b hb
  rcases List.mem_append.mp hb with hb | hb
  · exact hh b hb
  · rw [List.eq_of_mem_replicate hb]
    exact hc

set_option maxRecDepth 1000000 in
/-- C3 (counterexample): the reply `HTTP/1.1 200 OK`, a header line `X-Pad:` with 4096 bytes
of padding, and the terminator, in one chunk, to a session that has sent its CONNECT request.
The status line is one the driver accepts, but the terminator lies beyond the 4095 bytes the
receive buffer takes, so the driver closes with `ENOMEM` and does not reach `conn`. -/
theorem long_http_reply_closes :
    ready (started sampleEnv ProxyType.HTTP (ascii "example.com") 443 [] []) ∧
    http_accepts sampleEnv
      (ascii "HTTP/1.1 200 OK\r\nX-Pad: " ++ List.replicate 4096 97 ++ CRLFCRLF) ∧
    ∃ res, deliver sampleEnv 16503
        [ascii "HTTP/1.1 200 OK\r\nX-Pad: " ++ List.replicate 4096 97 ++ CRLFCRLF]
        (started sampleEnv ProxyType.HTTP (ascii "example.com") 443 [] []) = some res ∧
      res.m_proxyState = ProxyState.noconn ∧
      res.events = [⟨socket_event_flag.close, ENOMEM⟩] := by
  have ha : ascii "HTTP/1.1 200 OK\r\nX-Pad: " =
      [72, 84, 84, 80, 47, 49, 46, 49, 32, 50, 48, 48, 32, 79, 75, 13, 10,
        88, 45, 80, 97, 100, 58, 32] := by decide
  have hsplit : ascii "HTTP/1.1 200 OK\r\nX-Pad: " ++ List.replicate 4096 97 ++ CRLFCRLF =
      (ascii "HTTP/1.1 200 OK\r\nX-Pad: " ++ List.replicate 4071 97) ++
        (List.replicate 25 97 ++ CRLFCRLF) := by
    rw [show (4096 : Nat) = 4071 + 25 from rfl, List.replicate_add]
    simp only [List.append_assoc]
  refine ⟨⟨by decide, by decide, by decide, by decide, by decide, by decide, by decide,
    Or.inl ⟨by decide, by decide, by decide!⟩⟩, ?_, ?_⟩
  · rw [ha]
    left
    decide
  · have h := http_too_large_closes sampleEnv 16501
      (started sampleEnv ProxyType.HTTP (ascii "example.com") 443 [] [])
      (ascii "HTTP/1.1 200 OK\r\nX-Pad: " ++ List.replicate 4071 97)
      (List.replicate 25 97 ++ CRLFCRLF)
      ⟨by decide, by decide, by decide, by decide!, by decide, by decide, rfl, by decide,
        by decide⟩
      (by rw [ha]; simp only [List.length_append, List.length_replicate, List.length_cons,
        List.length_nil])
      (no_nul_append_replicate _ 4071 97 (by decide) (by decide))
      (find_sub_none_of_count _ _ (by decide) 13 (by
        rw [ha, List.count_append, List.count_replicate]
        decide))
    rw [hsplit]
    exact h

/-! ## SOCKS5: the requests queued after the method and the authentication reply -/

theorem uchar_small (n : Nat) (h : n ≤ 255) : uchar ((n : Nat) : Int) = n := by
  unfold uchar
  omega

/-- The username/password frame for credentials of at most 255 bytes. -/
theorem socks5_auth_request_eq (u p : List Nat) (hu : u.length ≤ 255) (hp : p.length ≤ 255) :
    socks5_auth_request u p = [1, u.length] ++ u ++ [p.length] ++ p := by
  have hul : uchar (min (u.length : Int) 255) = u.length := by
    rw [min_eq_left (by exact_mod_cast hu)]; exact uchar_small _ hu
  have hpl : uchar (min (p.length : Int) 255) = p.length := by
    rw [min_eq_left (by exact_mod_cast hp)]; exact uchar_small _ hp
  unfold socks5_auth_request
  simp only [hul, hpl, List.take_length]
  have h0 : List.replicate (u.length + p.length + 3) 0 =
      0 :: 0 :: (List.replicate u.length 0 ++ 0 :: List.replicate p.length 0) := by
    rw [show u.length + p.length + 3 = 1 + (1 + (u.length + (1 + p.length))) by omega]
    simp only [List.replicate_add, List.replicate_one, List.singleton_append, List.cons_append,
      List.nil_append]
  rw [h0]
  simp only [List.set_cons_zero, List.set_cons_succ]
  have e2 : ((2 : Nat) : Int) = 2 := rfl
  have s1 : store (1 :: u.length :: (List.replicate u.length 0 ++ 0 :: List.replicate p.length 0))
      2 u = 1 :: u.length :: (u ++ 0 :: List.replicate p.length 0) := by
    rw [← e2, store_nat _ 2 u (by simp; omega)]
    have d1 : (1 :: u.length :: (List.replicate u.length 0 ++ 0 :: List.replicate p.length 0)).drop
        (2 + u.length) = 0 :: List.replicate p.length 0 := by
      rw [show 2 + u.length = u.length + 1 + 1 by omega]
      simp only [List.drop_succ_cons]
      rw [List.drop_left' (by simp)]
    rw [d1]
    simp
  rw [s1]
  have s2 : (1 :: u.length :: (u ++ 0 :: List.replicate p.length 0)).set (u.length + 2) p.length
      = 1 :: u.length :: (u ++ p.length :: List.replicate p.length 0) := by
    simp only [List.set_cons_succ]
    rw [set_append_at]
  rw [s2]
  have e3 : ((u.length : Int) + 3) = ((u.length + 3 : Nat) : Int) := by push_cast; rfl
  have s3 : store (1 :: u.length :: (u ++ p.length :: List.replicate p.length 0))
      ((u.length + 3 : Nat) : Int) p = 1 :: u.length :: (u ++ p.length :: p) := by
    rw [store_nat _ _ p (by simp; omega)]
    have t1 : (1 :: u.length :: (u ++ p.length :: List.replicate p.length 0)).take (u.length + 3)
        = 1 :: u.length :: (u ++ [p.length]) := by
      rw [show u.length + 3 = (u.length + 1) + 1 + 1 by omega]
      simp only [List.take_succ_cons]
      rw [show u ++ p.length :: List.replicate p.length 0 =
        (u ++ [p.length]) ++ List.replicate p.length 0 by simp]
      rw [List.take_left' (by simp)]
    have t2 : (1 :: u.length :: (u ++ p.length :: List.replicate p.length 0)).drop
        (u.length + 3 + p.length) = [] := by
      apply List.drop_of_length_le
      simp
      omega
    rw [t1, t2]
    simp
  rw [e3, s3]
  rw [List.take_of_length_le (by simp; omega)]
  simp

theorem set_head (l : List Nat) (i v : Nat) (hi : 0 < i) : (l.set i v).head? = l.head? := by
  cases l with
  | nil => rfl
  | cons a t =>
    cases i with
    | zero => omega
    | succ j => rfl

theorem poke_head (l : List Nat) (i : Int) (v : Nat) (hi : 0 < i) :
    (poke l i v).head? = l.head? := by
  unfold poke
  rw [if_pos (by omega)]
  exact set_head l _ v (by omega)

theorem store_head (bytes : List Nat) : ∀ (l : List Nat) (pos : Int), 0 < pos →
    (store l pos bytes).head? = l.head? := by
  induction bytes with
  | nil => intro l pos _; rfl
  | cons b bs ih =>
    intro l pos hpos
    simp only [store]
    rw [ih _ _ (by omega), poke_head l pos b hpos]

theorem parse_ipv4_head (p : List Nat) : ∀ (i : Nat) (out : List Nat),
    (parse_ipv4 p i out).head? = out.head? := by
  induction p with
  | nil => intro i out; rfl
  | cons c p ih =>
    intro i out
    simp only [parse_ipv4]
    split
    · rfl
    · split
      · exact ih _ _
      · rw [ih, set_head _ _ _ (by omega)]

theorem take_head (l : List Nat) (n : Nat) (hn : 0 < n) : (l.take n).head? = l.head? := by
  cases l with
  | nil => simp
  | cons a t =>
    cases n with
    | zero => omega
    | succ j => rfl

theorem foldl_set_head (l : List Nat) (g : Nat → Nat) (xs : List Nat) :
    (xs.foldl (fun o i => o.set (4 + i) (g i)) l).head? = l.head? := by
  induction xs generalizing l with
  | nil => rfl
  | cons x xs ih =>
    simp only [List.foldl_cons]
    rw [ih, set_head _ _ _ (by omega)]

theorem socks5_auth_request_head (u p : List Nat) :
    (socks5_auth_request u p).head? = some 1 := by
  unfold socks5_auth_request
  simp only
  rw [take_head _ _ (by omega), store_head _ _ _ (by omega), set_head _ _ _ (by omega),
    store_head _ _ _ (by omega), set_head _ _ _ (by omega)]
  rw [show uchar (min (u.length : Int) 255) + uchar (min (p.length : Int) 255) + 3
    = (uchar (min (u.length : Int) 255) + uchar (min (p.length : Int) 255) + 2) + 1 by omega,
    List.replicate_succ]
  rfl

theorem socks5_connect_request_head (env : Env) (h : List Nat) (port : Nat) :
    (socks5_connect_request env h port).head? = some 5 := by
  unfold socks5_connect_request
  simp only
  rw [take_head _ _ (by omega), set_head _ _ _ (by omega), set_head _ _ _ (by omega)]
  have h0 : ∀ n, ((((List.replicate (7 + n) 0).set 0 5).set 1 1).set 2 0).head? = some 5 := by
    intro n
    rw [set_head _ _ _ (by omega), set_head _ _ _ (by omega),
      show 7 + n = (6 + n) + 1 by omega, List.replicate_succ]
    rfl
  split
  · simp only
    rw [set_head _ _ _ (by omega), foldl_set_head]
    exact h0 _
  · split
    · simp only
      rw [set_head _ _ _ (by omega), parse_ipv4_head, store_head _ _ _ (by omega)]
      exact h0 _
    · simp only
      rw [store_head _ _ _ (by omega), set_head _ _ _ (by omega), set_head _ _ _ (by omega)]
      exact h0 _

theorem socks5_auth_ne_connect (env : Env) (u p h : List Nat) (port : Nat) :
    socks5_auth_request u p ≠ socks5_connect_request env h port := by
  intro heq
  have h1 := socks5_auth_request_head u p
  rw [heq, socks5_connect_request_head] at h1
  exact absurd h1 (by decide)

/-- C11: the three `switch` statements on a complete two-byte frame `b0 b1`.  In state
`socks5_method`: `05 00` queues the CONNECT request (state `socks5_request`), `05 02` queues
the authentication frame, which is not the CONNECT request (state `socks5_auth`), and every
other reply closes with `ECONNABORTED`, goes to `noconn` and queues nothing.  In state
`socks5_auth`, the state reached by `05 02` only: `01 00` queues the CONNECT request and every
other reply closes with `ECONNABORTED`, goes to `noconn` and queues nothing. -/
theorem socks5_connect_queued_iff (env : Env) (s : CProxySocket σ) (b0 b1 : Nat)
    (tail : List Nat) (hbuf : s.m_pRecvBuffer = b0 :: b1 :: tail) :
    (s.m_handshakeState = handshake_state.socks5_method →
      (b0 = 5 ∧ b1 = 0 → ∃ s2, socks5_parse env s = Sum.inr s2 ∧
        s2.m_handshakeState = handshake_state.socks5_request ∧
        s2.sendBuffer_ = s.sendBuffer_ ++ socks5_connect_request env s.m_host s.m_port ∧
        s2.events = s.events ∧ s2.m_proxyState = s.m_proxyState) ∧
      (b0 = 5 ∧ b1 = 2 → ∃ s2, socks5_parse env s = Sum.inr s2 ∧
        s2.m_handshakeState = handshake_state.socks5_auth ∧
        s2.sendBuffer_ = s.sendBuffer_ ++ socks5_auth_request s.m_user s.m_pass ∧
        s2.sendBuffer_ ≠ s.sendBuffer_ ++ socks5_connect_request env s.m_host s.m_port ∧
        s2.events = s.events ∧ s2.m_proxyState = s.m_proxyState) ∧
      (¬ (b0 = 5 ∧ (b1 = 0 ∨ b1 = 2)) → ∃ r, socks5_parse env s = Sum.inl r ∧
        r.m_proxyState = ProxyState.noconn ∧
        r.events = s.events ++ [⟨socket_event_flag.close, ECONNABORTED⟩] ∧
        r.sendBuffer_ = s.sendBuffer_)) ∧
    (s.m_handshakeState = handshake_state.socks5_auth →
      (b0 = 1 ∧ b1 = 0 → ∃ s2, socks5_parse env s = Sum.inr s2 ∧
        s2.m_handshakeState = handshake_state.socks5_request ∧
        s2.sendBuffer_ = s.sendBuffer_ ++ socks5_connect_request env s.m_host s.m_port ∧
        s2.events = s.events ∧ s2.m_proxyState = s.m_proxyState) ∧
      (¬ (b0 = 1 ∧ b1 = 0) → ∃ r, socks5_parse env s = Sum.inl r ∧
        r.m_proxyState = ProxyState.noconn ∧
        r.events = s.events ++ [⟨socket_event_flag.close, ECONNABORTED⟩] ∧
        r.sendBuffer_ = s.sendBuffer_)) := by
  obtain ⟨sock, ps, hst, pt, host, port, user, pass, sb, buf, pos, blen, cr, cw, ev, lg, tr⟩ := s
  simp only at hbuf
  subst hbuf
  refine ⟨?_, ?_⟩
  · intro hhs
    simp only at hhs
    subst hhs
    refine ⟨?_, ?_, ?_⟩
    · rintro ⟨rfl, rfl⟩
      simp [socks5_parse, socks5_check_version, socks5_transition, socks5_queue]
    · rintro ⟨rfl, rfl⟩
      simp [socks5_parse, socks5_check_version, socks5_transition, socks5_queue,
        socks5_auth_ne_connect]
    · intro hne
      by_cases h0 : b0 = 5
      · subst h0
        have h10 : ¬ b1 = 0 := fun h => hne ⟨rfl, Or.inl h⟩
        have h12 : ¬ b1 = 2 := fun h => hne ⟨rfl, Or.inr h⟩
        simp [socks5_parse, socks5_check_version, socks5_transition, log_fail_close, send_event,
          LogMessage, h10, h12]
      · simp [socks5_parse, socks5_check_version, log_fail_close, send_event, LogMessage, h0]
  · intro hhs
    simp only at hhs
    subst hhs
    refine ⟨?_, ?_⟩
    · rintro ⟨rfl, rfl⟩
      simp [socks5_parse, socks5_check_version, socks5_transition, socks5_queue]
    · intro hne
      by_cases h0 : b0 = 1
      · subst h0
        have h10 : ¬ b1 = 0 := fun h => hne ⟨rfl, h⟩
        simp [socks5_parse, socks5_check_version, socks5_transition, log_fail_close, send_event,
          LogMessage, h10]
      · simp [socks5_parse, socks5_check_version, log_fail_close, send_event, LogMessage, h0]

set_option maxRecDepth 100000 in
theorem socks5_connect_queued_iff_witness :
    ∃ s2, socks5_parse sampleEnv
        { started sampleEnv ProxyType.SOCKS5 (ascii "example.com") 80 [] [] with
          m_pRecvBuffer := [5, 0] } = Sum.inr s2 ∧
      s2.sendBuffer_ = [5, 1, 0, 3, 11] ++ ascii "example.com" ++ [0, 80] := by
  obtain ⟨s2, h1, _, h3, _⟩ := ((socks5_connect_queued_iff sampleEnv
    { started sampleEnv ProxyType.SOCKS5 (ascii "example.com") 80 [] [] with
      m_pRecvBuffer := [5, 0] } 5 0 [] rfl).1 (by decide)).1 ⟨rfl, rfl⟩
  exact ⟨s2, h1, h3.trans (by decide)⟩

/-- C12: when the server selects method `0x02` (method reply `05 02` in state
`socks5_method`), for stored credentials `m_user`, `m_pass` (the UTF-8 bytes of user and pass)
of at most 255 bytes each, the driver appends to the send buffer exactly the frame
`01, ulen, user bytes, plen, pass bytes`, of `ulen + plen + 3` bytes, where `ulen` and `plen`
are the byte lengths. -/
theorem socks5_auth_frame_queued (env : Env) (s : CProxySocket σ) (tail : List Nat)
    (hhs : s.m_handshakeState = handshake_state.socks5_method)
    (hbuf : s.m_pRecvBuffer = 5 :: 2 :: tail)
    (hu : s.m_user.length ≤ 255) (hp : s.m_pass.length ≤ 255) :
    ∃ s2, socks5_parse env s = Sum.inr s2 ∧
      s2.m_handshakeState = handshake_state.socks5_auth ∧
      s2.sendBuffer_ = s.sendBuffer_ ++
        ([1, s.m_user.length] ++ s.m_user ++ [s.m_pass.length] ++ s.m_pass) ∧
      s2.sendBuffer_.length = s.sendBuffer_.length + (s.m_user.length + s.m_pass.length + 3) := by
  obtain ⟨sock, ps, hst, pt, host, port, user, pass, sb, buf, pos, blen, cr, cw, ev, lg, tr⟩ := s
  simp only at hhs hbuf hu hp
  subst hhs hbuf
  refine ⟨_, by simp [socks5_parse, socks5_check_version, socks5_transition, socks5_queue]; rfl,
    rfl, ?_, ?_⟩
  · simp only
    rw [socks5_auth_request_eq user pass hu hp]
  · simp only
    rw [socks5_auth_request_eq user pass hu hp]
    simp
    omega

set_option maxRecDepth 100000 in
theorem socks5_auth_frame_queued_witness :
    ∃ s2, socks5_parse sampleEnv
        { started sampleEnv ProxyType.SOCKS5 (ascii "example.com") 80 (ascii "u") (ascii "p") with
          m_pRecvBuffer := [5, 2] } = Sum.inr s2 ∧
      s2.sendBuffer_ = [1, 1, 117, 1, 112] := by
  obtain ⟨s2, h1, _, h3, _⟩ := socks5_auth_frame_queued sampleEnv
    { started sampleEnv ProxyType.SOCKS5 (ascii "example.com") 80 (ascii "u") (ascii "p") with
      m_pRecvBuffer := [5, 2] } [] (by decide) rfl (by decide) (by decide)
  exact ⟨s2, h1, h3.trans (by decide)⟩

/-! ## SOCKS5: the CONNECT request -/

theorem uchar_min (n : Nat) : uchar (min (n : Int) 255) = min n 255 := by
  have e : min (n : Int) 255 = ((min n 255 : Nat) : Int) := by
    rcases Nat.le_total n 255 with h | h
    · rw [Nat.min_eq_left h, min_eq_left (by exact_mod_cast h)]
    · rw [Nat.min_eq_right h, min_eq_right (by exact_mod_cast h)]
      rfl
  rw [e]
  exact uchar_small _ (Nat.min_le_right _ _)

/-- The CONNECT request for a host that is neither an IPv4 nor an IPv6 literal. -/
theorem socks5_connect_request_domain (env : Env) (h : List Nat) (port : Nat)
    (h6 : env.get_address_type (env.to_utf8 h) ≠ address_type.ipv6)
    (h4 : env.get_address_type (env.to_utf8 h) ≠ address_type.ipv4) :
    socks5_connect_request env h port =
      [5, 1, 0, 3, min (env.to_utf8 h).length 255] ++
        (env.to_utf8 h).take (min (env.to_utf8 h).length 255) ++
        [(port >>> 8) &&& 0xFF, port &&& 0xFF] := by
  unfold socks5_connect_request
  simp only [if_neg h6, if_neg h4, uchar_min]
  generalize env.to_utf8 h = host
  generalize hn : min host.length 255 = n
  have hnl : n ≤ host.length := by rw [← hn]; exact Nat.min_le_left _ _
  have htl : (host.take n).length = n := by rw [List.length_take]; omega
  obtain ⟨k, hk⟩ : ∃ k, 7 + max host.length 16 = 5 + (n + (2 + k)) :=
    ⟨max host.length 16 - n, by omega⟩
  rw [hk]
  have h0 : List.replicate (5 + (n + (2 + k))) 0 =
      0 :: 0 :: 0 :: 0 :: 0 :: (List.replicate n 0 ++ 0 :: 0 :: List.replicate k 0) := by
    simp only [List.replicate_add]
    rfl
  rw [h0]
  simp only [List.set_cons_zero, List.set_cons_succ]
  have s1 : store (5 :: 1 :: 0 :: 3 :: n :: (List.replicate n 0 ++ 0 :: 0 :: List.replicate k 0))
      5 (host.take n) = 5 :: 1 :: 0 :: 3 :: n :: (host.take n ++ 0 :: 0 :: List.replicate k 0) := by
    rw [show (5 : Int) = ((5 : Nat) : Int) from rfl, store_nat _ 5 _ (by simp; omega)]
    have d1 : (5 :: 1 :: 0 :: 3 :: n :: (List.replicate n 0 ++ 0 :: 0 :: List.replicate k 0)).drop
        (5 + (host.take n).length) = 0 :: 0 :: List.replicate k 0 := by
      rw [htl, show 5 + n = n + 1 + 1 + 1 + 1 + 1 by omega]
      simp only [List.drop_succ_cons]
      rw [List.drop_left' (by simp)]
    rw [d1]
    simp
  rw [s1]
  have s2 : ∀ x y : Nat,
      ((5 :: 1 :: 0 :: 3 :: n :: (host.take n ++ 0 :: 0 :: List.replicate k 0)).set
        (n + 1 + 4) x).set (n + 1 + 5) y =
      5 :: 1 :: 0 :: 3 :: n :: (host.take n ++ x :: y :: List.replicate k 0) := by
    intro x y
    simp only [List.set_cons_succ]
    have e1 : (host.take n ++ 0 :: 0 :: List.replicate k 0).set n x =
        host.take n ++ x :: 0 :: List.replicate k 0 := by
      have := set_append_at (host.take n) (0 :: List.replicate k 0) 0 x
      rw [htl] at this
      exact this
    have e2 : (host.take n ++ x :: 0 :: List.replicate k 0).set (n + 1) y =
        host.take n ++ x :: y :: List.replicate k 0 := by
      have := set_append_at (host.take n ++ [x]) (List.replicate k 0) 0 y
      simp only [List.length_append, htl, List.length_singleton, List.append_assoc,
        List.singleton_append] at this
      exact this
    rw [e1, e2]
  rw [s2]
  have t1 : (5 :: 1 :: 0 :: 3 :: n ::
      (host.take n ++ ((port >>> 8) &&& 0xFF) :: (port &&& 0xFF) :: List.replicate k 0)).take
      (6 + (n + 1)) =
      5 :: 1 :: 0 :: 3 :: n :: (host.take n ++ [(port >>> 8) &&& 0xFF, port &&& 0xFF]) := by
    rw [show 6 + (n + 1) = (n + 2) + 1 + 1 + 1 + 1 + 1 by omega]
    simp only [List.take_succ_cons]
    rw [show host.take n ++ ((port >>> 8) &&& 0xFF) :: (port &&& 0xFF) :: List.replicate k 0 =
      (host.take n ++ [(port >>> 8) &&& 0xFF, port &&& 0xFF]) ++ List.replicate k 0 by simp]
    rw [List.take_left' (by simp [htl])]
  rw [t1]
  simp

theorem parse_ipv4_dotted_in (a b c d : Nat) (x0 x1 x2 x3 : Nat) (rest : List Nat)
    (ha : a < 256) (hb : b < 256) (hc : c < 256) (hd : d < 256) :
    parse_ipv4 (dotted_quad a b c d) 0 (x0 :: x1 :: x2 :: x3 :: 0 :: 0 :: 0 :: 0 :: rest) =
      x0 :: x1 :: x2 :: x3 :: a :: b :: c :: d :: rest := by
  obtain ⟨da, ea⟩ := octet_text a ha
  obtain ⟨db, eb⟩ := octet_text b hb
  obtain ⟨dc, ec⟩ := octet_text c hc
  obtain ⟨dd, ed⟩ := octet_text d hd
  have e : dotted_quad a b c d = sprintf_u a ++ (46 :: (sprintf_u b ++ (46 :: (sprintf_u c ++
      (46 :: (sprintf_u d ++ [])))))) := by
    simp [dotted_quad]
  rw [e, parse_ipv4_digits _ _ _ _ da (by decide) (by simp)]
  rw [parse_ipv4_dot _ _ _ (by decide), parse_ipv4_digits _ _ _ _ db (by decide) (by simp)]
  rw [parse_ipv4_dot _ _ _ (by decide), parse_ipv4_digits _ _ _ _ dc (by decide) (by simp)]
  rw [parse_ipv4_dot _ _ _ (by decide), parse_ipv4_digits _ _ _ _ dd (by decide) (by simp)]
  simp [parse_ipv4, ea, eb, ec, ed]

/-- The CONNECT request for an IPv4 literal `a.b.c.d`. -/
theorem socks5_connect_request_ipv4 (env : Env) (h : List Nat) (port a b c d : Nat)
    (ha : a < 256) (hb : b < 256) (hc : c < 256) (hd : d < 256)
    (h4 : env.get_address_type (env.to_utf8 h) = address_type.ipv4)
    (htext : env.to_utf8 h = dotted_quad a b c d) :
    socks5_connect_request env h port =
      [5, 1, 0, 1, a, b, c, d, (port >>> 8) &&& 0xFF, port &&& 0xFF] := by
  unfold socks5_connect_request
  simp only [h4, if_neg (show ¬ address_type.ipv4 = address_type.ipv6 by decide), if_true]
  rw [htext]
  generalize (dotted_quad a b c d).length = m
  obtain ⟨k, hk⟩ : ∃ k, 7 + max m 16 = 10 + k := ⟨7 + max m 16 - 10, by omega⟩
  rw [hk]
  have h0 : List.replicate (10 + k) 0 =
      0 :: 0 :: 0 :: 0 :: 0 :: 0 :: 0 :: 0 :: 0 :: 0 :: List.replicate k 0 := by
    simp only [List.replicate_add]
    rfl
  rw [h0]
  simp only [List.set_cons_zero, List.set_cons_succ]
  have s1 : store (5 :: 1 :: 0 :: 0 :: 0 :: 0 :: 0 :: 0 :: 0 :: 0 :: List.replicate k 0) 4
      (List.replicate 4 0) = 5 :: 1 :: 0 :: 0 :: 0 :: 0 :: 0 :: 0 :: 0 :: 0 :: List.replicate k 0 := by
    rw [show (4 : Int) = ((4 : Nat) : Int) from rfl, store_nat _ 4 _ (by simp)]
    rfl
  rw [s1, parse_ipv4_dotted_in a b c d _ _ _ _ _ ha hb hc hd]
  simp only [List.set_cons_zero, List.set_cons_succ]
  rfl

theorem ipv6_long_text_sample :
    ipv6_long_text (ascii "20010db8000000000000000000000001") =
      ascii "2001:0db8:0000:0000:0000:0000:0000:0001" := by
  decide

theorem ipv6_long_text_getD (ds : List Nat) (j : Nat) (hj : j < 39) :
    (ipv6_long_text ds).getD j 0 = if j % 5 = 4 then 58 else ds.getD (j - j / 5) 0 := by
  unfold ipv6_long_text
  rw [List.getD_eq_getElem _ _ (by simpa using hj)]
  simp

theorem uchar_pack (x y : Int) (hx : 0 ≤ x ∧ x < 16) (hy : 0 ≤ y ∧ y < 16) :
    uchar (x * 16 + y) = x.toNat * 16 + y.toNat := by
  unfold uchar
  omega

/-- The CONNECT request for an IPv6 literal whose long form has the hex digits `ds`. -/
theorem socks5_connect_request_ipv6 (env : Env) (h : List Nat) (port : Nat) (ds : List Nat)
    (h6 : env.get_address_type (env.to_utf8 h) = address_type.ipv6)
    (htext : env.get_ipv6_long_form (env.to_utf8 h) = ipv6_long_text ds)
    (hds : ∀ i, i < 32 → 0 ≤ env.hex_char_to_int (ds.getD i 0) ∧
      env.hex_char_to_int (ds.getD i 0) < 16) :
    socks5_connect_request env h port =
      [5, 1, 0, 4] ++ pack_hex env ds ++ [(port >>> 8) &&& 0xFF, port &&& 0xFF] := by
  unfold socks5_connect_request
  simp only [h6, if_true]
  rw [htext]
  generalize (env.to_utf8 h).length = m
  obtain ⟨k, hk⟩ : ∃ k, 7 + max m 16 = 22 + k := ⟨7 + max m 16 - 22, by omega⟩
  rw [hk]
  have h0 : List.replicate (22 + k) 0 =
      0 :: 0 :: 0 :: 0 :: 0 :: 0 :: 0 :: 0 :: 0 :: 0 :: 0 :: 0 :: 0 :: 0 :: 0 :: 0 :: 0 :: 0 ::
        0 :: 0 :: 0 :: 0 :: List.replicate k 0 := by
    simp only [List.replicate_add]
    rfl
  have hr : List.range 16 = [0, 1, 2, 3, 4, 5, 6, 7, 8, 9, 10, 11, 12, 13, 14, 15] := by decide
  rw [h0, hr]
  simp only [List.foldl_cons, List.foldl_nil, Nat.reduceAdd, Nat.reduceMul, Nat.reduceDiv,
    List.set_cons_zero, List.set_cons_succ]
  simp (disch := omega) only [ipv6_long_text_getD]
  simp only [Nat.reduceMod, Nat.reduceDiv, Nat.reduceSub, Nat.reduceEqDiff, if_false]
  have hp : ∀ i j, i < 32 → j < 32 →
      uchar (env.hex_char_to_int (ds.getD i 0) * 16 + env.hex_char_to_int (ds.getD j 0)) =
        (env.hex_char_to_int (ds.getD i 0)).toNat * 16 +
          (env.hex_char_to_int (ds.getD j 0)).toNat :=
    fun i j hi hj => uchar_pack _ _ (hds i hi) (hds j hj)
  rw [hp 0 1 (by omega) (by omega),
    hp 2 3 (by omega) (by omega),
    hp 4 5 (by omega) (by omega),
    hp 6 7 (by omega) (by omega),
    hp 8 9 (by omega) (by omega),
    hp 10 11 (by omega) (by omega),
    hp 12 13 (by omega) (by omega),
    hp 14 15 (by omega) (by omega),
    hp 16 17 (by omega) (by omega),
    hp 18 19 (by omega) (by omega),
    hp 20 21 (by omega) (by omega),
    hp 22 23 (by omega) (by omega),
    hp 24 25 (by omega) (by omega),
    hp 26 27 (by omega) (by omega),
    hp 28 29 (by omega) (by omega),
    hp 30 31 (by omega) (by omega)]
  unfold pack_hex nibble
  rw [hr]
  rfl

/-- C13: in state `socks5_request` the driver appends the CONNECT request to the send buffer,
and for every port in 1..65535 the request is `05 01 00 ATYP addr port_hi port_lo` with
`port_hi * 256 + port_lo = port`: for an IPv4 literal `a.b.c.d`, ATYP `01` and the octets
`a b c d`; for an IPv6 literal whose long form has the hex digits `ds`, ATYP `04` and the
sixteen bytes packed from consecutive digit pairs, high nibble first; for every other host,
ATYP `03`, the length byte `min(len(host), 255)` and that many leading bytes of the host. -/
theorem socks5_connect_request_bytes (env : Env) (s : CProxySocket σ)
    (hhs : s.m_handshakeState = handshake_state.socks5_request)
    (hport : 1 ≤ s.m_port ∧ s.m_port ≤ 65535) :
    (socks5_queue env s).sendBuffer_ =
      s.sendBuffer_ ++ socks5_connect_request env s.m_host s.m_port ∧
    s.m_port / 256 * 256 + s.m_port % 256 = s.m_port ∧
    s.m_port / 256 < 256 ∧ s.m_port % 256 < 256 ∧
    (∀ a b c d, a < 256 → b < 256 → c < 256 → d < 256 →
      env.get_address_type (env.to_utf8 s.m_host) = address_type.ipv4 →
      env.to_utf8 s.m_host = dotted_quad a b c d →
      socks5_connect_request env s.m_host s.m_port =
        [5, 1, 0, 1, a, b, c, d, s.m_port / 256, s.m_port % 256]) ∧
    (∀ ds, env.get_address_type (env.to_utf8 s.m_host) = address_type.ipv6 →
      env.get_ipv6_long_form (env.to_utf8 s.m_host) = ipv6_long_text ds →
      (∀ i, i < 32 → 0 ≤ env.hex_char_to_int (ds.getD i 0) ∧
        env.hex_char_to_int (ds.getD i 0) < 16) →
      socks5_connect_request env s.m_host s.m_port =
        [5, 1, 0, 4] ++ pack_hex env ds ++ [s.m_port / 256, s.m_port % 256]) ∧
    (env.get_address_type (env.to_utf8 s.m_host) ≠ address_type.ipv4 →
      env.get_address_type (env.to_utf8 s.m_host) ≠ address_type.ipv6 →
      socks5_connect_request env s.m_host s.m_port =
        [5, 1, 0, 3, min (env.to_utf8 s.m_host).length 255] ++
          (env.to_utf8 s.m_host).take (min (env.to_utf8 s.m_host).length 255) ++
          [s.m_port / 256, s.m_port % 256]) := by
  obtain ⟨e1, e2⟩ := port_bytes s.m_port hport.2
  refine ⟨?_, by omega, by omega, by omega, ?_, ?_, ?_⟩
  · simp only [socks5_queue, hhs]
  · intro a b c d ha hb hc hd h4 htext
    rw [socks5_connect_request_ipv4 env _ _ a b c d ha hb hc hd h4 htext, e1, e2]
  · intro ds h6 htext hds
    rw [socks5_connect_request_ipv6 env _ _ ds h6 htext hds, e1, e2]
  · intro h4 h6
    rw [socks5_connect_request_domain env _ _ h6 h4, e1, e2]

set_option maxRecDepth 100000 in
theorem socks5_connect_request_bytes_witness :
    socks5_connect_request sampleEnv (ascii "example.com") 443 =
      [5, 1, 0, 3, 11] ++ ascii "example.com" ++ [1, 187] ∧
    socks5_connect_request sampleEnv (ascii "192.168.0.1") 443 =
      [5, 1, 0, 1, 192, 168, 0, 1, 1, 187] ∧
    socks5_connect_request sampleEnv (ascii "2001:0000:0000:0000:0000:0000:0000:0001") 443 =
      [5, 1, 0, 4, 0x20, 0x01, 0, 0, 0, 0, 0, 0, 0, 0, 0, 0, 0, 0, 0, 0x01, 1, 187] :=
  ⟨((socks5_connect_request_bytes sampleEnv
      { started sampleEnv ProxyType.SOCKS5 (ascii "example.com") 443 [] [] with
        m_handshakeState := handshake_state.socks5_request }
      rfl (by decide)).2.2.2.2.2.2 (by decide) (by decide)).trans (by decide),
   ((socks5_connect_request_bytes sampleEnv
      { started sampleEnv ProxyType.SOCKS5 (ascii "192.168.0.1") 443 [] [] with
        m_handshakeState := handshake_state.socks5_request }
      rfl (by decide)).2.2.2.2.1 192 168 0 1 (by decide) (by decide) (by decide) (by decide)
      (by decide) (by decide)).trans (by decide),
   ((socks5_connect_request_bytes sampleEnv
      { started sampleEnv ProxyType.SOCKS5 (ascii "2001:0000:0000:0000:0000:0000:0000:0001") 443
          [] [] with
        m_handshakeState := handshake_state.socks5_request }
      rfl (by decide)).2.2.2.2.2.1 (ascii "20010000000000000000000000000001") (by decide)
      (by decide) (by decide)).trans (by decide)⟩

/-! ## SOCKS5: the CONNECT reply -/

/-- C14: a session in state `socks5_request` that finds the two bytes `v st` of the CONNECT
reply in the transport, followed by `rest`.  If `v` is not `0x05`, or `st` is not zero, the
call reads these two bytes only, leaves `rest` unread, emits `Close(ECONNABORTED)` and ends in
`noconn`.  If `v` is `0x05` and `st` is zero, the call goes on as the read loop in state
`socks5_request_addrtype`, waiting for three bytes, and no event has been emitted. -/
theorem socks5_connect_reply_status (env : Env) (fuel : Nat) (s : CProxySocket Wire)
    (v st : Nat) (rest : List Nat)
    (hstate : s.m_proxyState = ProxyState.handshake)
    (hhs : s.m_handshakeState = handshake_state.socks5_request)
    (hlen : s.m_recvBufferLen = 2) (hpos : s.m_recvBufferPos = 0)
    (hsb : s.sendBuffer_ = []) (hbuf : s.m_pRecvBuffer.length = 1024)
    (hrx : s.socket_.rx = [v, st] ++ rest) :
    ((v ≠ 5 ∨ st ≠ 0) → ∃ r, OnReceive env wire (fuel + 2) s = some r ∧
      r.m_proxyState = ProxyState.noconn ∧
      r.events = s.events ++ [⟨socket_event_flag.close, ECONNABORTED⟩] ∧
      r.socket_.rx = rest ∧ r.trace = s.trace ++ [IoOp.read 0 2 0]) ∧
    ((v = 5 ∧ st = 0) → ∃ s2, OnReceive env wire (fuel + 2) s = socks5_loop env wire fuel s2 ∧
      s2.m_proxyState = ProxyState.handshake ∧
      s2.m_handshakeState = handshake_state.socks5_request_addrtype ∧
      s2.m_recvBufferLen = 3 ∧ s2.m_recvBufferPos = 0 ∧ s2.sendBuffer_ = [] ∧
      s2.events = s.events ∧ s2.socket_.rx = rest ∧
      s2.trace = s.trace ++ [IoOp.read 0 2 0]) := by
  obtain ⟨sock, ps, hst, pt, host, port, user, pass, sb, buf, pos, blen, cr, cw, ev, lg, tr⟩ := s
  obtain ⟨rx, rxEnd, tx, txPlan⟩ := sock
  simp only at hstate hhs hlen hpos hsb hbuf hrx
  subst hstate hhs hlen hpos hsb hrx
  have hst1 : store buf 0 [v, st] = v :: st :: buf.drop 2 := by
    have := store_nat buf 0 [v, st] (by simp [hbuf])
    simpa using this
  have hstep : OnReceive env wire (fuel + 2)
      { socket_ := { rx := [v, st] ++ rest, rxEnd := rxEnd, tx := tx, txPlan := txPlan },
        m_proxyState := ProxyState.handshake,
        m_handshakeState := handshake_state.socks5_request, m_proxyType := pt, m_host := host,
        m_port := port, m_user := user, m_pass := pass, sendBuffer_ := [], m_pRecvBuffer := buf,
        m_recvBufferPos := 0, m_recvBufferLen := 2, m_can_read := cr, m_can_write := cw,
        events := ev, log := lg, trace := tr } =
      socks5_frame env (socks5_loop env wire fuel) (OnSend env wire fuel)
        { socket_ := { rx := rest, rxEnd := rxEnd, tx := tx, txPlan := txPlan },
          m_proxyState := ProxyState.handshake,
          m_handshakeState := handshake_state.socks5_request, m_proxyType := pt, m_host := host,
          m_port := port, m_user := user, m_pass := pass, sendBuffer_ := [],
          m_pRecvBuffer := v :: st :: buf.drop 2,
          m_recvBufferPos := 0, m_recvBufferLen := 0, m_can_read := true, m_can_write := cw,
          events := ev, log := lg, trace := tr ++ [IoOp.read 0 2 0] } := by
    rw [OnReceive_socks5 env wire _ _ rfl (by simp) (by simp) rfl]
    dsimp only
    rw [socks5_loop_succ, socks5_body_frame env wire _ _ _ [v, st]]
    case hs => rfl
    case hc => rfl
    case h => rfl
    case hlen => rfl
    case hne => simp
    dsimp only
    rw [hst1]
    simp only [wire_read_snd, uint_two, List.length_nil, List.cons_append, List.nil_append,
      List.drop_succ_cons, List.drop_zero]
  rw [hstep]
  refine ⟨?_, ?_⟩
  · intro hne
    by_cases hv : v = 5
    · subst hv
      have hs0 : ¬ st = 0 := by
        rcases hne with h | h
        · exact absurd rfl h
        · exact h
      simp [socks5_frame, socks5_parse, socks5_check_version, socks5_transition, log_fail_close,
        send_event, LogMessage, hs0]
    · simp [socks5_frame, socks5_parse, socks5_check_version, log_fail_close, send_event,
        LogMessage, hv]
  · rintro ⟨rfl, rfl⟩
    refine ⟨
      { socket_ := { rx := rest, rxEnd := rxEnd, tx := tx, txPlan := txPlan },
        m_proxyState := ProxyState.handshake,
        m_handshakeState := handshake_state.socks5_request_addrtype, m_proxyType := pt,
        m_host := host, m_port := port, m_user := user, m_pass := pass, sendBuffer_ := [],
        m_pRecvBuffer := 5 :: 0 :: buf.drop 2,
        m_recvBufferPos := 0, m_recvBufferLen := 3, m_can_read := true, m_can_write := cw,
        events := ev, log := lg, trace := tr ++ [IoOp.read 0 2 0] },
      ?_, rfl, rfl, rfl, rfl, rfl, rfl, rfl, rfl⟩
    simp [socks5_frame, socks5_parse, socks5_check_version, socks5_transition, socks5_queue]
set_option maxRecDepth 1000000 in
theorem socks5_connect_reply_status_witness :
    ∃ r, OnReceive sampleEnv wire (0 + 2)
        (arrive
          { started sampleEnv ProxyType.SOCKS5 (ascii "example.com") 80 [] [] with
            m_handshakeState := handshake_state.socks5_request } [5, 2, 9]) = some r ∧
      r.m_proxyState = ProxyState.noconn ∧
      r.events = (arrive
          { started sampleEnv ProxyType.SOCKS5 (ascii "example.com") 80 [] [] with
            m_handshakeState := handshake_state.socks5_request } [5, 2, 9]).events ++
        [⟨socket_event_flag.close, ECONNABORTED⟩] ∧
      r.socket_.rx = [9] ∧
      r.trace = (arrive
          { started sampleEnv ProxyType.SOCKS5 (ascii "example.com") 80 [] [] with
            m_handshakeState := handshake_state.socks5_request } [5, 2, 9]).trace ++
        [IoOp.read 0 2 0] :=
  (socks5_connect_reply_status sampleEnv 0
    (arrive
      { started sampleEnv ProxyType.SOCKS5 (ascii "example.com") 80 [] [] with
        m_handshakeState := handshake_state.socks5_request } [5, 2, 9])
    5 2 [9] (by decide) (by decide) (by decide) (by decide) (by decide) (by decide!)
    (by decide)).1 (Or.inr (by decide))

/-- The first two frames of a CONNECT reply with success status, `05 00` and `rsv atyp x`,
found in the transport by a session in state `socks5_request`: the call arrives at the three
`switch` statements in state `socks5_request_addrtype` with `rsv atyp x` at the start of the
receive buffer. -/
theorem socks5_reply_head (env : Env) (fuel : Nat) (s : CProxySocket Wire)
    (rsv atyp x : Nat) (more : List Nat)
    (hstate : s.m_proxyState = ProxyState.handshake)
    (hhs : s.m_handshakeState = handshake_state.socks5_request)
    (hlen : s.m_recvBufferLen = 2) (hpos : s.m_recvBufferPos = 0)
    (hsb : s.sendBuffer_ = []) (hbuf : s.m_pRecvBuffer.length = 1024)
    (hrx : s.socket_.rx = [5, 0, rsv, atyp, x] ++ more) :
    OnReceive env wire (fuel + 3) s =
      socks5_frame env (socks5_loop env wire fuel) (OnSend env wire fuel)
        { s with
          socket_ := { s.socket_ with rx := more }
          m_handshakeState := handshake_state.socks5_request_addrtype
          m_pRecvBuffer := rsv :: atyp :: x :: s.m_pRecvBuffer.drop 3
          m_recvBufferPos := 0
          m_recvBufferLen := 0
          m_can_read := true
          trace := s.trace ++ [IoOp.read 0 2 0, IoOp.read 0 3 0] } := by
  obtain ⟨sock, ps, hst, pt, host, port, user, pass, sb, buf, pos, blen, cr, cw, ev, lg, tr⟩ := s
  obtain ⟨rx, rxEnd, tx, txPlan⟩ := sock
  simp only at hstate hhs hlen hpos hsb hbuf hrx
  subst hstate hhs hlen hpos hsb hrx
  rw [OnReceive_socks5 env wire _ _ rfl (by simp) (by simp) rfl]
  dsimp only
  generalize hR : socks5_frame env (socks5_loop env wire fuel) (OnSend env wire fuel) _ = R
  have hst1 : store buf 0 [5, 0] = 5 :: 0 :: buf.drop 2 := by
    have := store_nat buf 0 [5, 0] (by simp [hbuf])
    simpa using this
  have hst2 : ∀ b : List Nat, b.length = 1024 →
      store b 0 [rsv, atyp, x] = rsv :: atyp :: x :: b.drop 3 := by
    intro b hb
    have := store_nat b 0 [rsv, atyp, x] (by simp [hb])
    simpa using this
  rw [socks5_loop_succ, socks5_body_frame env wire _ _ _ [5, 0]]
  case hs => rfl
  case hc => rfl
  case h => rfl
  case hlen => rfl
  case hne => simp
  dsimp only
  rw [hst1]
  simp only [socks5_frame, socks5_parse, socks5_check_version, socks5_transition, socks5_queue,
    List.getD_cons_zero, List.getD_cons_succ, ne_eq, not_true_eq_false, if_false, false_and,
    wire_read_snd, uint_two, List.length_nil, List.cons_append, List.nil_append, List.drop_succ_cons,
    List.drop_zero]
  rw [socks5_loop_succ, socks5_body_frame env wire _ _ _ [rsv, atyp, x]]
  case hs => rfl
  case hc => rfl
  case h => rfl
  case hlen => rfl
  case hne => simp
  dsimp only
  rw [hst2 _ (by simp [hbuf])]
  simp only [wire_read_snd, uint_three, List.length_nil, List.cons_append, List.nil_append,
    List.drop_succ_cons, List.drop_zero, List.append_nil, List.drop_drop, List.append_assoc]
  rw [← hR]

/-- The last frame of a CONNECT reply: a session in state `socks5_request_address` that finds
the bytes it waits for (`tail`) in the transport reads exactly these, emits `Connection(0)`
and is `conn`. -/
theorem socks5_last_frame (env : Env) (fuel : Nat) (s : CProxySocket Wire)
    (tail rest : List Nat)
    (hstate : s.m_proxyState = ProxyState.handshake)
    (hhs : s.m_handshakeState = handshake_state.socks5_request_address)
    (hcr : s.m_can_read = true)
    (hlen : s.m_recvBufferLen = tail.length) (hne : tail ≠ [])
    (hsz : tail.length < 4294967296) (hrx : s.socket_.rx = tail ++ rest) :
    ∃ r, socks5_loop env wire (fuel + 1) s = some r ∧
      r.m_proxyState = ProxyState.conn ∧
      r.events = s.events ++ [⟨socket_event_flag.connection, 0⟩] ∧
      r.socket_.rx = rest ∧
      r.trace = s.trace ++ [IoOp.read s.m_recvBufferPos tail.length s.sendBuffer_.length] := by
  obtain ⟨sock, ps, hst, pt, host, port, user, pass, sb, buf, pos, blen, cr, cw, ev, lg, tr⟩ := s
  obtain ⟨rx, rxEnd, tx, txPlan⟩ := sock
  simp only at hstate hhs hcr hlen hrx
  subst hstate hhs hcr hlen hrx
  rw [socks5_loop_succ, socks5_body_frame env wire _ _ _ tail]
  case hs => rfl
  case hc => rfl
  case h =>
    dsimp only
    rw [uint_nat _ hsz, wire_read_frame _ _ rest rfl hne]
  case hlen => rfl
  case hne => exact hne
  dsimp only
  simp [socks5_frame, socks5_parse, socks5_check_version, socks5_transition, succeed, send_event,
    wire_read_snd, uint_nat _ hsz]
/-- C15: a session in state `socks5_request` that finds a CONNECT reply with success status in
the transport, `05 00 rsv atyp x` followed by `more`.  For ATYP `01` it consumes 10 bytes in
all (the five leading bytes, then the five bytes `tail` that end the address and hold the
port), for ATYP `04` 22 bytes in all (`tail` has 17 bytes); what follows (`rest`) stays in the
transport, the call emits `Connection(0)` and the session is `conn`.  For every ATYP other
than 1, 3 and 4 the call emits `Close(ECONNABORTED)` and the session is `noconn`. -/
theorem socks5_connect_reply_address (env : Env) (fuel : Nat) (s : CProxySocket Wire)
    (rsv atyp x : Nat) (more : List Nat)
    (hstate : s.m_proxyState = ProxyState.handshake)
    (hhs : s.m_handshakeState = handshake_state.socks5_request)
    (hlen : s.m_recvBufferLen = 2) (hpos : s.m_recvBufferPos = 0)
    (hsb : s.sendBuffer_ = []) (hbuf : s.m_pRecvBuffer.length = 1024)
    (hrx : s.socket_.rx = [5, 0, rsv, atyp, x] ++ more) :
    (∀ tail rest, more = tail ++ rest →
      (atyp = 1 ∧ tail.length = 5) ∨ (atyp = 4 ∧ tail.length = 17) →
      ∃ r, OnReceive env wire (fuel + 4) s = some r ∧
        r.m_proxyState = ProxyState.conn ∧
        r.events = s.events ++ [⟨socket_event_flag.connection, 0⟩] ∧
        r.socket_.rx = rest ∧
        ([5, 0, rsv, atyp, x] ++ tail).length = (if atyp = 1 then 10 else 22) ∧
        r.trace = s.trace ++ [IoOp.read 0 2 0, IoOp.read 0 3 0, IoOp.read 0 tail.length 0]) ∧
    (atyp ≠ 1 ∧ atyp ≠ 3 ∧ atyp ≠ 4 →
      ∃ r, OnReceive env wire (fuel + 4) s = some r ∧
        r.m_proxyState = ProxyState.noconn ∧
        r.events = s.events ++ [⟨socket_event_flag.close, ECONNABORTED⟩] ∧
        r.socket_.rx = more) := by
  rw [socks5_reply_head env (fuel + 1) s rsv atyp x more hstate hhs hlen hpos hsb hbuf hrx]
  obtain ⟨sock, ps, hst, pt, host, port, user, pass, sb, buf, pos, blen, cr, cw, ev, lg, tr⟩ := s
  obtain ⟨rx, rxEnd, tx, txPlan⟩ := sock
  simp only at hstate hhs hlen hpos hsb hbuf hrx
  subst hstate hhs hlen hpos hsb hrx
  refine ⟨?_, ?_⟩
  · intro tail rest hmore hcase
    subst hmore
    have hlen5 : ([5, 0, rsv, atyp, x] ++ tail).length = (if atyp = 1 then 10 else 22) := by
      rcases hcase with ⟨h1, h2⟩ | ⟨h1, h2⟩ <;> subst h1 <;> simp [h2]
    have hne : tail ≠ [] := by
      intro h0
      rw [h0] at hcase
      simp at hcase
    have hsz : tail.length < 4294967296 := by
      rcases hcase with ⟨_, h2⟩ | ⟨_, h2⟩ <;> omega
    have hparse : socks5_frame env (socks5_loop env wire (fuel + 1)) (OnSend env wire (fuel + 1))
        { socket_ := { rx := tail ++ rest, rxEnd := rxEnd, tx := tx, txPlan := txPlan },
          m_proxyState := ProxyState.handshake,
          m_handshakeState := handshake_state.socks5_request_addrtype, m_proxyType := pt,
          m_host := host, m_port := port, m_user := user, m_pass := pass, sendBuffer_ := [],
          m_pRecvBuffer := rsv :: atyp :: x :: buf.drop 3,
          m_recvBufferPos := 0, m_recvBufferLen := 0, m_can_read := true, m_can_write := cw,
          events := ev, log := lg, trace := tr ++ [IoOp.read 0 2 0, IoOp.read 0 3 0] } =
        socks5_loop env wire (fuel + 1)
          { socket_ := { rx := tail ++ rest, rxEnd := rxEnd, tx := tx, txPlan := txPlan },
            m_proxyState := ProxyState.handshake,
            m_handshakeState := handshake_state.socks5_request_address, m_proxyType := pt,
            m_host := host, m_port := port, m_user := user, m_pass := pass, sendBuffer_ := [],
            m_pRecvBuffer := rsv :: atyp :: x :: buf.drop 3,
            m_recvBufferPos := 0, m_recvBufferLen := (tail.length : Int), m_can_read := true,
            m_can_write := cw, events := ev, log := lg,
            trace := tr ++ [IoOp.read 0 2 0, IoOp.read 0 3 0] } := by
      rcases hcase with ⟨h1, h2⟩ | ⟨h1, h2⟩ <;> subst h1 <;>
        simp [socks5_frame, socks5_parse, socks5_check_version, socks5_transition, socks5_queue,
          h2]
    obtain ⟨r, hr, g1, g2, g3, g4⟩ := socks5_last_frame env fuel
      { socket_ := { rx := tail ++ rest, rxEnd := rxEnd, tx := tx, txPlan := txPlan },
        m_proxyState := ProxyState.handshake,
        m_handshakeState := handshake_state.socks5_request_address, m_proxyType := pt,
        m_host := host, m_port := port, m_user := user, m_pass := pass, sendBuffer_ := [],
        m_pRecvBuffer := rsv :: atyp :: x :: buf.drop 3,
        m_recvBufferPos := 0, m_recvBufferLen := (tail.length : Int), m_can_read := true,
        m_can_write := cw, events := ev, log := lg,
        trace := tr ++ [IoOp.read 0 2 0, IoOp.read 0 3 0] }
      tail rest rfl rfl rfl rfl hne hsz rfl
    refine ⟨r, ?_, g1, g2, g3, hlen5, ?_⟩
    · dsimp only
      rw [hparse]
      exact hr
    · rw [g4]
      simp
  · rintro ⟨h1, h3, h4⟩
    simp [socks5_frame, socks5_parse, socks5_check_version, socks5_transition, log_fail_close,
      send_event, LogMessage, h1, h3, h4]

set_option maxRecDepth 1000000 in
theorem socks5_connect_reply_address_witness :
    ∃ r, OnReceive sampleEnv wire (0 + 4)
        (arrive
          { started sampleEnv ProxyType.SOCKS5 (ascii "example.com") 80 [] [] with
            m_handshakeState := handshake_state.socks5_request }
          [5, 0, 0, 1, 10, 0, 0, 1, 0, 80, 7, 7]) = some r ∧
      r.m_proxyState = ProxyState.conn ∧
      r.events = [⟨socket_event_flag.connection, 0⟩] ∧
      r.socket_.rx = [7, 7] := by
  obtain ⟨r, h1, h2, h3, h4, _⟩ := (socks5_connect_reply_address sampleEnv 0
    (arrive
      { started sampleEnv ProxyType.SOCKS5 (ascii "example.com") 80 [] [] with
        m_handshakeState := handshake_state.socks5_request }
      [5, 0, 0, 1, 10, 0, 0, 1, 0, 80, 7, 7])
    0 1 10 [0, 0, 1, 0, 80, 7, 7] (by decide) (by decide) (by decide) (by decide) (by decide)
    (by decide!) (by decide)).1 [0, 0, 1, 0, 80] [7, 7] rfl (Or.inl ⟨rfl, rfl⟩)
  exact ⟨r, h1, h2, h3, h4⟩

/-! ## The HTTP request -/

theorem base64_sample : base64 (ascii "u:p") = ascii "dTpw" ∧
    base64 (ascii "Aladdin:open sesame") = ascii "QWxhZGRpbjpvcGVuIHNlc2FtZQ==" := by
  decide

theorem replaced_go_space (inp : List Nat) :
    replaced_go [32] [47] 0 inp = inp.map (fun c => if c = 32 then 47 else c) := by
  induction inp with
  | nil => rfl
  | cons c cs ih =>
    by_cases hc : c = 32
    · subst hc
      simp [replaced_go, ih]
    · have hc2 : ¬ 32 = c := fun h => hc h.symm
      simp [replaced_go, ih, hc, hc2]

/-- The `fz::replaced_substrings(PACKAGE_STRING, " ", "/")` puts a slash for every space. -/
theorem replaced_space (inp : List Nat) :
    replaced_substrings inp (ascii " ") (ascii "/") =
      inp.map (fun c => if c = 32 then 47 else c) :=
  replaced_go_space inp
/-- C16: for every non-empty host, every port in 1..65535 and every user and pass,
`Handshake(HTTP, ...)` on a session in `noconn` returns `EINPROGRESS` and appends to the send
buffer exactly `CONNECT <host>:<port> HTTP/1.1\r\nHost: <host>:<port>\r\n`, then
`Proxy-Authorization: Basic <base64(user:pass)>\r\n` when user is not empty and nothing when
it is empty, then `User-Agent: <product-token>\r\n\r\n`; host, user and pass are in UTF-8, the
port is in decimal, and the product token is `PACKAGE_STRING` with `/` for every space. -/
theorem Handshake_http_request (env : Env) (host : List Nat) (port : Nat)
    (user pass : List Nat) (s : CProxySocket σ)
    (hstate : s.m_proxyState = ProxyState.noconn)
    (hhost : host ≠ []) (hport : 1 ≤ port ∧ port ≤ 65535) :
    (Handshake env ProxyType.HTTP host port user pass s).1 = EINPROGRESS ∧
    (user ≠ [] →
      (Handshake env ProxyType.HTTP host port user pass s).2.sendBuffer_ =
        s.sendBuffer_ ++
          (ascii "CONNECT " ++ env.to_utf8 host ++ ascii ":" ++ sprintf_u port ++
            ascii " HTTP/1.1\r\nHost: " ++ env.to_utf8 host ++ ascii ":" ++ sprintf_u port ++
            ascii "\r\n" ++
            (ascii "Proxy-Authorization: Basic " ++
              env.base64_encode (env.to_utf8 user ++ ascii ":" ++ env.to_utf8 pass) ++
              ascii "\r\n") ++
            ascii "User-Agent: " ++
            env.PACKAGE_STRING.map (fun c => if c = 32 then 47 else c) ++ ascii "\r\n\r\n")) ∧
    (user = [] →
      (Handshake env ProxyType.HTTP host port user pass s).2.sendBuffer_ =
        s.sendBuffer_ ++
          (ascii "CONNECT " ++ env.to_utf8 host ++ ascii ":" ++ sprintf_u port ++
            ascii " HTTP/1.1\r\nHost: " ++ env.to_utf8 host ++ ascii ":" ++ sprintf_u port ++
            ascii "\r\n" ++
            ascii "User-Agent: " ++
            env.PACKAGE_STRING.map (fun c => if c = 32 then 47 else c) ++ ascii "\r\n\r\n")) := by
  have hp1 : ¬ port < 1 := by omega
  have hp2 : ¬ port > 65535 := by omega
  refine ⟨?_, ?_, ?_⟩
  · simp [Handshake, hstate, hhost, hp1, hp2]
  · intro hu
    simp [Handshake, hstate, hhost, hp1, hp2, http_request, hu, replaced_space]
  · intro hu
    simp [Handshake, hstate, hhost, hp1, hp2, http_request, hu, replaced_space]

set_option maxRecDepth 100000 in
theorem Handshake_http_request_witness :
    (Handshake authEnv ProxyType.HTTP (ascii "h") 80 (ascii "u") (ascii "p")
      (CProxySocket.init idleWire)).2.sendBuffer_ =
      ascii ("CONNECT h:80 HTTP/1.1\r\nHost: h:80\r\nProxy-Authorization: Basic dTpw\r\n" ++
        "User-Agent: FileZilla/3.0\r\n\r\n") ∧
    (Handshake authEnv ProxyType.HTTP (ascii "h") 80 [] []
      (CProxySocket.init idleWire)).2.sendBuffer_ =
      ascii "CONNECT h:80 HTTP/1.1\r\nHost: h:80\r\nUser-Agent: FileZilla/3.0\r\n\r\n" :=
  ⟨((Handshake_http_request authEnv (ascii "h") 80 (ascii "u") (ascii "p")
      (CProxySocket.init idleWire) rfl (by decide) (by decide)).2.1 (by decide)).trans
      (by decide),
   ((Handshake_http_request authEnv (ascii "h") 80 [] []
      (CProxySocket.init idleWire) rfl (by decide) (by decide)).2.2 rfl).trans (by decide)⟩

theorem utf8_decode_sample :
    utf8_decode (ascii "HTTP/1.1 200 OK") = some (ascii "HTTP/1.1 200 OK") ∧
    utf8_decode [0x48, 0xC3, 0xA9, 0xE2, 0x82, 0xAC] = some [0x48, 0xE9, 0x20AC] ∧
    utf8_decode [0x48, 0xFF] = none := by
  decide
/-- C17 (as amended): for every complete HTTP reply header `r` without a NUL byte that fits
the receive buffer (`http_header`: `r` ends with its first `"\r\n\r\n"` and has at most 4095
bytes), arriving in any non-empty chunks and followed by any bytes `extra`, the driver emits
`Connection(0)` and is `conn` if and only if the status line (the bytes before the first
`\r`), converted with `fz::to_wstring_from_utf8`, begins with `HTTP/1.1 2` or `HTTP/1.0 2`;
otherwise it emits `Close(ECONNRESET)` and is `noconn`.  Where the conversion leaves the
status line as it is, the test is the one on the bytes. -/
theorem http_status_verdict (env : Env) (fuel : Nat) (s : CProxySocket Wire)
    (r extra : List Nat) (chunks : List (List Nat))
    (hs : http_at s r 0) (hr : http_header r)
    (hflat : chunks.flatten = r ++ extra) (hne : ∀ c ∈ chunks, c ≠ []) :
    ∃ res, deliver env (fuel + 3) chunks s = some res ∧
      ((res.m_proxyState = ProxyState.conn ∧
          res.events = s.events ++ [⟨socket_event_flag.connection, 0⟩]) ↔
        http_accepts env r) ∧
      (¬ http_accepts env r →
        res.m_proxyState = ProxyState.noconn ∧
          res.events = s.events ++ [⟨socket_event_flag.close, ECONNRESET⟩]) ∧
      (env.to_wstring_from_utf8 (status_line r) = status_line r →
        (http_accepts env r ↔
          ((status_line r).take 10 = ascii "HTTP/1.1 2" ∨
            (status_line r).take 10 = ascii "HTTP/1.0 2"))) := by
  obtain ⟨res, h1, _, hacc, hrej⟩ := http_deliver env fuel r extra hr chunks s 0 hs
    (by have := hr.1; omega) (by simpa using hflat) hne
  refine ⟨res, h1, ⟨?_, hacc⟩, hrej, ?_⟩
  · intro hconn
    by_contra hn
    have := (hrej hn).1
    rw [hconn.1] at this
    exact absurd this (by decide)
  · intro hid
    unfold http_accepts
    rw [hid]

set_option maxRecDepth 1000000 in
theorem http_status_verdict_witness :
    ∃ res, deliver sampleEnv (0 + 3)
        [ascii "HTTP/1.1 407 Proxy Auth", ascii "entication Required\r\n\r\n"]
        (started sampleEnv ProxyType.HTTP (ascii "example.com") 443 [] []) = some res ∧
      res.m_proxyState = ProxyState.noconn ∧
      res.events = [⟨socket_event_flag.close, ECONNRESET⟩] := by
  obtain ⟨res, h1, _, h3, _⟩ := http_status_verdict sampleEnv 0
    (started sampleEnv ProxyType.HTTP (ascii "example.com") 443 [] [])
    (ascii "HTTP/1.1 407 Proxy Authentication Required\r\n\r\n") []
    [ascii "HTTP/1.1 407 Proxy Auth", ascii "entication Required\r\n\r\n"]
    ⟨by decide, by decide, by decide, by decide!, by decide, by decide, by decide, by decide,
      by decide⟩
    ⟨by decide, by decide, by decide, by decide⟩ (by decide) (by decide)
  exact ⟨res, h1, h3 (by unfold http_accepts; decide)⟩

set_option maxRecDepth 1000000 in
/-- C17 (counterexample): two complete headers whose status line begins with `HTTP/1.1 2`.
The first holds a NUL byte in a header line: `strstr` does not see the terminator, the driver
emits nothing and stays in `handshake`.  The second has the byte `FF` in the reason phrase:
with a `fz::to_wstring_from_utf8` that gives the empty string for input that is not UTF-8, the
driver emits `Close(ECONNRESET)` and is `noconn`. -/
theorem http_2xx_not_accepted :
    ((status_line (ascii "HTTP/1.1 200 OK\r\nX: " ++ [0] ++ CRLFCRLF)).take 10 =
        ascii "HTTP/1.1 2" ∧
      (deliver sampleEnv 5 [ascii "HTTP/1.1 200 OK\r\nX: " ++ [0] ++ CRLFCRLF]
        (started sampleEnv ProxyType.HTTP (ascii "example.com") 443 [] [])).map
        (fun r => (r.m_proxyState, r.events)) = some (ProxyState.handshake, [])) ∧
    ((status_line (ascii "HTTP/1.1 200 OK" ++ [0xFF] ++ CRLFCRLF)).take 10 =
        ascii "HTTP/1.1 2" ∧
      (deliver strictEnv 5 [ascii "HTTP/1.1 200 OK" ++ [0xFF] ++ CRLFCRLF]
        (started strictEnv ProxyType.HTTP (ascii "example.com") 443 [] [])).map
        (fun r => (r.m_proxyState, r.events)) =
        some (ProxyState.noconn, [⟨socket_event_flag.close, ECONNRESET⟩])) := by
  decide!

/-! ## After the handshake -/

/-- C18 (as amended): once the proxy state is `conn`, a read, write or close event delivered
to `OnSocketEvent` is not forwarded: no event is sent to the parent handler, no transport
call is made, and the session changes only in that `m_can_read` (read, close) or
`m_can_write` (write) is set; `Read`, `Peek` and `Write` of the proxy layer return `-1` with
`EAGAIN` for every argument. -/
theorem connected_events_not_forwarded (env : Env) (T : Transport σ) (fuel : Nat)
    (s : CProxySocket σ) (error : Int) (h : s.m_proxyState = ProxyState.conn) :
    OnSocketEvent env T (fuel + 1) socket_event_flag.read error s =
      some { s with m_can_read := true } ∧
    OnSocketEvent env T (fuel + 1) socket_event_flag.write error s =
      some { s with m_can_write := true } ∧
    OnSocketEvent env T (fuel + 1) socket_event_flag.close error s =
      some { s with m_can_read := true } ∧
    (∀ t, t = socket_event_flag.read ∨ t = socket_event_flag.write ∨
        t = socket_event_flag.close →
      ∃ r, OnSocketEvent env T (fuel + 1) t error s = some r ∧ r.events = s.events ∧
        r.trace = s.trace ∧ r.m_proxyState = ProxyState.conn) ∧
    (∀ n b, Read n = (-1, EAGAIN) ∧ Peek n = (-1, EAGAIN) ∧ Write b = (-1, EAGAIN)) := by
  have hr : OnReceive env T (fuel + 1) s = some { s with m_can_read := true } := by
    rw [OnReceive_succ, OnReceive_body]
    simp [h]
  have hw : OnSend env T (fuel + 1) s = some { s with m_can_write := true } := by
    rw [OnSend_succ, OnSend_body]
    simp [h]
  refine ⟨hr, hw, hr, ?_, fun _ _ => ⟨rfl, rfl, rfl⟩⟩
  rintro t (rfl | rfl | rfl)
  · exact ⟨_, hr, rfl, rfl, h⟩
  · exact ⟨_, hw, rfl, rfl, h⟩
  · exact ⟨_, hr, rfl, rfl, h⟩

set_option maxRecDepth 1000000 in
theorem connected_events_not_forwarded_witness :
    OnSocketEvent sampleEnv wire (0 + 1) socket_event_flag.read 0
        (succeed (started sampleEnv ProxyType.SOCKS4 (ascii "1.2.3.4") 80 [] [])) =
      some { succeed (started sampleEnv ProxyType.SOCKS4 (ascii "1.2.3.4") 80 [] []) with
        m_can_read := true } :=
  (connected_events_not_forwarded sampleEnv wire 0
    (succeed (started sampleEnv ProxyType.SOCKS4 (ascii "1.2.3.4") 80 [] [])) 0 rfl).1

set_option maxRecDepth 1000000 in
/-- C18 (counterexample): a SOCKS4 session that has received the reply `00 5A ...` is `conn`
and has sent `Connection(0)`; a read event and then a write event delivered to it add no
event: nothing is forwarded to the parent handler. -/
theorem connected_read_write_not_forwarded :
    (((deliver sampleEnv 5 [[0, 0x5A, 0, 0, 0, 0, 0, 0]]
        (started sampleEnv ProxyType.SOCKS4 (ascii "1.2.3.4") 80 [] [])).bind
      (fun s => OnSocketEvent sampleEnv wire 5 socket_event_flag.read 0 s)).bind
      (fun s => OnSocketEvent sampleEnv wire 5 socket_event_flag.write 0 s)).map
      (fun r => (r.m_proxyState, r.events)) =
    some (ProxyState.conn, [⟨socket_event_flag.connection, 0⟩]) := by
  decide!

/-! ## The receive need after a domain address in the CONNECT reply -/

set_option maxRecDepth 1000000 in
/-- C19 (failing input, plain `char` signed): a SOCKS5 session receives the method reply
`05 00` and the start `05 00 00 03 80` of a CONNECT reply with a domain address of length
byte `0x80`.  The need `m_pRecvBuffer[2] + 2` is computed as `-128 + 2 = -126`, and the next
read is issued at offset 0 with the length `4294967170` (`-126` as `unsigned int`) on the
buffer of 1024 bytes. -/
theorem socks5_read_length_out_of_bounds :
    (deliver sampleEnv 12 [[5, 0, 5, 0, 0, 3, 0x80]]
      (started sampleEnv ProxyType.SOCKS5 (ascii "example.com") 80 [] [])).map
      (fun r => (r.m_proxyState, r.m_pRecvBuffer.length, r.m_recvBufferLen, r.trace)) =
    some (ProxyState.handshake, 1024, -126,
      [IoOp.write [5, 1, 0], IoOp.read 0 2 0,
        IoOp.write ([5, 1, 0, 3, 11] ++ ascii "example.com" ++ [0, 80]),
        IoOp.read 0 2 0, IoOp.read 0 3 0, IoOp.read 0 4294967170 0]) := by
  decide!

set_option maxRecDepth 1000000 in
/-- C20 (failing input, plain `char` signed): a SOCKS5 session receives the method reply
`05 00` and the start `05 00 00 03 FE` of a CONNECT reply with a domain address of length
byte `0xFE`.  The need `m_pRecvBuffer[2] + 2` is computed as `-2 + 2 = 0`: the session is
still in `handshake` (state `socks5_request_address`) with `m_recvBufferLen = 0`, and bytes
that arrive later are not read. -/
theorem socks5_handshake_need_zero :
    (deliver sampleEnv 12 [[5, 0, 5, 0, 0, 3, 0xFE], [1, 2, 3]]
      (started sampleEnv ProxyType.SOCKS5 (ascii "example.com") 80 [] [])).map
      (fun r => (r.m_proxyState, r.m_handshakeState, r.m_recvBufferLen, r.socket_.rx,
        r.events)) =
    some (ProxyState.handshake, handshake_state.socks5_request_address, 0, [1, 2, 3], []) := by
  decide!

/-! ## The invariant of the driver

With the length byte of a domain address read back as itself, every read and peek stays in
its range and the need stays positive, for every sequence of events and transport changes.
-/

theorem bytes_ok_take (l : List Nat) (n : Nat) (h : bytes_ok l) : bytes_ok (l.take n) :=
  fun b hb => h b (List.mem_of_mem_take hb)

theorem bytes_ok_drop (l : List Nat) (n : Nat) (h : bytes_ok l) : bytes_ok (l.drop n) :=
  fun b hb => h b (List.mem_of_mem_drop hb)

theorem bytes_ok_append (a b : List Nat) (ha : bytes_ok a) (hb : bytes_ok b) :
    bytes_ok (a ++ b) := by
  intro x hx
  rcases List.mem_append.mp hx with h | h
  · exact ha x h
  · exact hb x h

theorem uint_pos (x : Int) (h0 : 0 ≤ x) (h1 : x < 4294967296) : ((uint x : Nat) : Int) = x := by
  unfold uint
  omega

theorem wire_look_cases (w : Wire) (n : Nat) (hn : n ≠ 0) :
    (∃ e, w.look n = IoResult.error e) ∨ w.look n = IoResult.ok [] ∨
      (w.rx ≠ [] ∧ w.look n = IoResult.ok (w.rx.take n)) := by
  unfold Wire.look
  rw [if_neg hn]
  cases hrx : w.rx with
  | nil =>
    cases w.rxEnd with
    | again => exact Or.inl ⟨_, rfl⟩
    | eof => exact Or.inr (Or.inl rfl)
    | fail e => exact Or.inl ⟨_, rfl⟩
  | cons a t => exact Or.inr (Or.inr ⟨by simp, rfl⟩)

/-- The store of `bytes` at offset `k` keeps the first `k` bytes and puts `bytes` after them. -/
theorem take_store (buf bytes : List Nat) (k : Nat) (h : k + bytes.length ≤ buf.length) :
    (store buf (k : Int) bytes).take (k + bytes.length) = buf.take k ++ bytes := by
  rw [store_nat buf k bytes h]
  rw [List.take_left' (by simp; omega)]

theorem take_store_before (buf bytes : List Nat) (k : Nat) (h : k + bytes.length ≤ buf.length) :
    (store buf (k : Int) bytes).take k = buf.take k := by
  rw [store_nat buf k bytes h, List.append_assoc]
  rw [List.take_left' (by simp; omega)]
/-- The read at the head of a round of the SOCKS loops, on the queue transport, for a need in
range: what holds of the session after it. -/
theorem socks_read_inv (s : CProxySocket Wire) (B : Int)
    (hrx : bytes_ok s.socket_.rx) (hpos : 0 ≤ s.m_recvBufferPos) (hlen : 0 < s.m_recvBufferLen)
    (hB : s.m_recvBufferPos + s.m_recvBufferLen ≤ B) (hbuf : B ≤ s.m_pRecvBuffer.length)
    (hB2 : B ≤ 4096) :
    match socks_read wire s with
    | ReadStep.done r =>
      bytes_ok r.socket_.rx ∧
      r.trace = s.trace ++
        [IoOp.read s.m_recvBufferPos s.m_recvBufferLen.toNat s.sendBuffer_.length] ∧
      r.m_handshakeState = s.m_handshakeState ∧
      (r.m_proxyState = ProxyState.noconn ∨
        (r.m_proxyState = s.m_proxyState ∧ r.m_recvBufferPos = s.m_recvBufferPos ∧
          r.m_recvBufferLen = s.m_recvBufferLen ∧ r.m_pRecvBuffer = s.m_pRecvBuffer))
    | ReadStep.more r =>
      bytes_ok r.socket_.rx ∧
      r.trace = s.trace ++
        [IoOp.read s.m_recvBufferPos s.m_recvBufferLen.toNat s.sendBuffer_.length] ∧
      r.m_handshakeState = s.m_handshakeState ∧ r.m_proxyState = s.m_proxyState ∧
      0 ≤ r.m_recvBufferPos ∧ 0 < r.m_recvBufferLen ∧
      r.m_recvBufferPos + r.m_recvBufferLen = s.m_recvBufferPos + s.m_recvBufferLen ∧
      r.m_pRecvBuffer.length = s.m_pRecvBuffer.length ∧
      (bytes_ok (s.m_pRecvBuffer.take s.m_recvBufferPos.toNat) →
        bytes_ok (r.m_pRecvBuffer.take r.m_recvBufferPos.toNat))
    | ReadStep.frame r =>
      bytes_ok r.socket_.rx ∧
      r.trace = s.trace ++
        [IoOp.read s.m_recvBufferPos s.m_recvBufferLen.toNat s.sendBuffer_.length] ∧
      r.m_handshakeState = s.m_handshakeState ∧ r.m_proxyState = s.m_proxyState ∧
      r.m_recvBufferPos = 0 ∧ r.m_recvBufferLen = 0 ∧
      r.m_pRecvBuffer.length = s.m_pRecvBuffer.length ∧
      r.sendBuffer_ = s.sendBuffer_ ∧
      (bytes_ok (s.m_pRecvBuffer.take s.m_recvBufferPos.toNat) →
        bytes_ok (r.m_pRecvBuffer.take (s.m_recvBufferPos + s.m_recvBufferLen).toNat)) := by
  obtain ⟨sock, ps, hst, pt, host, port, user, pass, sb, buf, pos, blen, cr, cw, ev, lg, tr⟩ := s
  obtain ⟨rx, rxEnd, tx, txPlan⟩ := sock
  simp only at hrx hpos hlen hB hbuf
  obtain ⟨k, rfl⟩ := Int.eq_ofNat_of_zero_le hpos
  obtain ⟨n, rfl⟩ := Int.eq_ofNat_of_zero_le (Int.le_of_lt hlen)
  have hu : uint (n : Int) = n := uint_nat n (by omega)
  have hn0 : n ≠ 0 := by omega
  have hdrop : bytes_ok (rx.drop n) := bytes_ok_drop rx n hrx
  unfold socks_read
  simp only [hu, wire, Wire.read, Int.toNat_ofNat]
  rcases wire_look_cases { rx := rx, rxEnd := rxEnd, tx := tx, txPlan := txPlan } n hn0 with
    ⟨e, he⟩ | he | ⟨hne, he⟩
  · rw [he]
    by_cases hE : e = EAGAIN
    · simp [hE, hdrop]
    · simp [hE, hdrop, fail_close, send_event]
  · rw [he]
    simp [hdrop, fail_close, send_event]
  · rw [he]
    simp only at hne ⊢
    have hbl : (rx.take n).length ≤ n := by simp
    have hb0 : 0 < (rx.take n).length := by
      apply List.length_pos.mpr
      intro h0
      rw [List.take_eq_nil_iff] at h0
      rcases h0 with h0 | h0
      · exact hn0 h0
      · exact hne h0
    have hbok : bytes_ok (rx.take n) := bytes_ok_take rx n hrx
    have hfit : k + (rx.take n).length ≤ buf.length := by omega
    have hpre : bytes_ok (buf.take k) →
        bytes_ok ((store buf (k : Int) (rx.take n)).take (k + (rx.take n).length)) := by
      intro h
      rw [take_store buf _ k hfit]
      exact bytes_ok_append _ _ h hbok
    generalize hbs : rx.take n = bytes at hbl hb0 hbok hfit hpre
    have hr0 : ¬ ((bytes.length : Int) = 0) := by omega
    by_cases hfull : bytes.length = n
    · have hz : ¬ ((n : Int) - (bytes.length : Int) ≠ 0) := by omega
      rw [if_neg hr0, if_neg hz]
      refine ⟨hdrop, rfl, rfl, rfl, rfl, by simp only; omega, by simp [store_length], rfl, ?_⟩
      intro h
      have := hpre h
      rw [hfull] at this
      have e : ((k : Int) + (n : Int)).toNat = k + n := by omega
      rw [e]
      exact this
    · have hz : (n : Int) - (bytes.length : Int) ≠ 0 := by omega
      rw [if_neg hr0, if_pos hz]
      refine ⟨hdrop, rfl, rfl, rfl, by simp only; omega, by simp only; omega, by simp only; omega,
        by simp [store_length], ?_⟩
      intro h
      have e : ((k : Int) + (bytes.length : Int)).toNat = k + bytes.length := by omega
      simp only [e]
      exact hpre h

theorem need_ok_congr (s r : CProxySocket Wire)
    (h1 : r.m_handshakeState = s.m_handshakeState) (h2 : r.m_recvBufferPos = s.m_recvBufferPos)
    (h3 : r.m_recvBufferLen = s.m_recvBufferLen) (h4 : r.m_pRecvBuffer = s.m_pRecvBuffer)
    (h : need_ok s) : need_ok r := by
  unfold need_ok at h ⊢
  rw [h1, h2, h3, h4]
  exact h

theorem trace_ok_congr (s r : CProxySocket Wire)
    (h1 : io_bound r.m_handshakeState = io_bound s.m_handshakeState) (h2 : r.trace = s.trace)
    (h : trace_ok s) : trace_ok r := by
  unfold trace_ok at h ⊢
  rw [h1, h2]
  exact h

theorem trace_ok_snoc (s r : CProxySocket Wire) (op : IoOp)
    (h1 : io_bound r.m_handshakeState = io_bound s.m_handshakeState)
    (h2 : r.trace = s.trace ++ [op])
    (h : trace_ok s) (hop : op_ok (io_bound s.m_handshakeState) op) : trace_ok r := by
  unfold trace_ok at h ⊢
  rw [h1, h2]
  intro o ho
  rcases List.mem_append.mp ho with ho | ho
  · exact h o ho
  · rw [List.mem_singleton] at ho
    rw [ho]
    exact hop

/-- A session that is not in `handshake` satisfies the invariant once its queue and its trace
do. -/
theorem driver_inv_terminal (r : CProxySocket Wire) (h1 : bytes_ok r.socket_.rx)
    (h2 : trace_ok r) (h3 : r.m_proxyState ≠ ProxyState.handshake) : driver_inv r :=
  ⟨h1, h2, fun h => absurd h h3⟩

/-- The SOCKS4 loop keeps the invariant. -/
theorem socks4_loop_inv (fuel : Nat) : ∀ (s r : CProxySocket Wire), driver_inv s →
    s.m_handshakeState = handshake_state.socks4_handshake →
    socks4_loop wire fuel s = some r →
    driver_inv r ∧ r.m_handshakeState = handshake_state.socks4_handshake := by
  induction fuel with
  | zero => intro s r _ _ h; simp [socks4_loop] at h
  | succ f ih =>
    intro s r hinv hhs h
    rw [socks4_loop_succ, socks4_body] at h
    by_cases hc : s.m_recvBufferLen ≠ 0 ∧ s.m_can_read = true ∧
        s.m_proxyState = ProxyState.handshake
    · rw [if_pos hc] at h
      obtain ⟨hrx, htr, hneed⟩ := hinv
      have hn := hneed hc.2.2
      unfold need_ok at hn
      rw [hhs] at hn
      obtain ⟨n1, n2, n3, n4⟩ := hn
      have hread := socks_read_inv s 8 hrx n1 n2 n3 (by exact_mod_cast n4) (by omega)
      have hop : op_ok (io_bound s.m_handshakeState)
          (IoOp.read s.m_recvBufferPos s.m_recvBufferLen.toNat s.sendBuffer_.length) := by
        rw [hhs]
        simp only [op_ok, io_bound]
        omega
      cases hsr : socks_read wire s with
      | done r0 =>
        rw [hsr] at h hread
        simp only [Option.some.injEq] at h
        subst h
        obtain ⟨a, b, c, d⟩ := hread
        refine ⟨⟨a, trace_ok_snoc s _ _ (by rw [c]) b htr hop, ?_⟩, by rw [c, hhs]⟩
        intro hh
        rcases d with d | ⟨d1, d2, d3, d4⟩
        · rw [d] at hh; cases hh
        · exact need_ok_congr s _ c d2 d3 d4 (hneed hc.2.2)
      | more s1 =>
        rw [hsr] at h hread
        obtain ⟨a, b, c, d, e1, e2, e3, e4, _⟩ := hread
        refine ih s1 r ⟨a, trace_ok_snoc s _ _ (by rw [c]) b htr hop, ?_⟩ (by rw [c, hhs]) h
        intro _
        unfold need_ok
        rw [c, hhs]
        exact ⟨e1, e2, by omega, by omega⟩
      | frame s1 =>
        rw [hsr] at h hread
        obtain ⟨a, b, c, d, e1, e2, e3, _, _⟩ := hread
        have htr1 : trace_ok s1 := trace_ok_snoc s _ _ (by rw [c]) b htr hop
        simp only at h
        by_cases hok : s1.m_pRecvBuffer.getD 1 0 ≠ 0x5A
        · rw [if_pos hok] at h
          simp only [Option.some.injEq] at h
          subst h
          exact ⟨driver_inv_terminal _ a (trace_ok_congr s1 _ rfl rfl htr1) (by
            simp [log_fail_close, send_event, LogMessage]), by
            simp [log_fail_close, send_event, LogMessage, c, hhs]⟩
        · rw [if_neg hok] at h
          exact ih (succeed s1) r (driver_inv_terminal _ a (trace_ok_congr s1 _ rfl rfl htr1) (by
            simp [succeed, send_event])) (by simp [succeed, send_event, c, hhs]) h
    · rw [if_neg hc] at h
      simp only [Option.some.injEq] at h
      subst h
      exact ⟨hinv, hhs⟩

theorem getD_byte (buf : List Nat) (i n : Nat) (hi : i < n) (h : bytes_ok (buf.take n)) :
    buf.getD i 0 < 256 := by
  by_cases hl : i < buf.length
  · rw [List.getD_eq_getElem _ _ hl]
    apply h
    rw [List.mem_iff_getElem]
    exact ⟨i, by simp; omega, by simp⟩
  · rw [List.getD_eq_default _ _ (by omega)]
    omega

theorem char_val_unsigned (env : Env) (b : Nat) (h : env.char_is_signed = false) :
    char_val env b = (b : Int) := by
  simp [char_val, h]

/-- The three `switch` statements on a complete frame keep the invariant, when the length
byte of a domain address is read back as itself. -/
theorem socks5_parse_inv (env : Env) (s : CProxySocket Wire)
    (hsigned : env.char_is_signed = false)
    (h5 : io_bound s.m_handshakeState = 262)
    (hrx : bytes_ok s.socket_.rx) (htr : trace_ok s)
    (hpos : s.m_recvBufferPos = 0)
    (hbuf : 262 ≤ s.m_pRecvBuffer.length)
    (haddr : s.m_handshakeState = handshake_state.socks5_request_addrtype →
      bytes_ok (s.m_pRecvBuffer.take 3)) :
    match socks5_parse env s with
    | Sum.inl r => bytes_ok r.socket_.rx ∧ trace_ok r ∧
        r.m_proxyState ≠ ProxyState.handshake ∧ io_bound r.m_handshakeState = 262
    | Sum.inr r => bytes_ok r.socket_.rx ∧ trace_ok r ∧ need_ok r ∧
        io_bound r.m_handshakeState = 262 := by
  obtain ⟨sock, ps, hst, pt, host, port, user, pass, sb, buf, pos, blen, cr, cw, ev, lg, tr⟩ := s
  simp only at h5 hrx hpos hbuf haddr
  subst hpos
  unfold trace_ok at htr
  simp only at htr
  cases hst with
  | http_wait => simp [io_bound] at h5
  | socks4_handshake => simp [io_bound] at h5
  | socks5_method =>
    simp only [socks5_parse, socks5_check_version, socks5_transition]
    by_cases h0 : buf.getD 0 0 ≠ 5
    · rw [if_pos h0]
      exact ⟨hrx, htr, by simp [log_fail_close, send_event, LogMessage], rfl⟩
    · rw [if_neg h0]
      simp only
      by_cases h1 : buf.getD 1 0 = 0
      · rw [if_pos h1]
        refine ⟨hrx, htr, ?_, rfl⟩
        simp only [socks5_queue, need_ok]
        omega
      · rw [if_neg h1]
        by_cases h2 : buf.getD 1 0 = 2
        · rw [if_pos h2]
          refine ⟨hrx, htr, ?_, rfl⟩
          simp only [socks5_queue, need_ok]
          omega
        · rw [if_neg h2]
          exact ⟨hrx, htr, by simp [log_fail_close, send_event, LogMessage], rfl⟩
  | socks5_auth =>
    simp only [socks5_parse, socks5_check_version, socks5_transition]
    by_cases h0 : buf.getD 0 0 ≠ 1
    · rw [if_pos h0]
      exact ⟨hrx, htr, by simp [log_fail_close, send_event, LogMessage], rfl⟩
    · rw [if_neg h0]
      simp only
      by_cases h1 : buf.getD 1 0 ≠ 0
      · rw [if_pos h1]
        exact ⟨hrx, htr, by simp [log_fail_close, send_event, LogMessage], rfl⟩
      · rw [if_neg h1]
        refine ⟨hrx, htr, ?_, rfl⟩
        simp only [socks5_queue, need_ok]
        omega
  | socks5_request =>
    simp only [socks5_parse, socks5_check_version, socks5_transition]
    by_cases h0 : buf.getD 0 0 ≠ 5
    · rw [if_pos h0]
      exact ⟨hrx, htr, by simp [log_fail_close, send_event, LogMessage], rfl⟩
    · rw [if_neg h0]
      simp only
      by_cases h1 : buf.getD 1 0 ≠ 0
      · rw [if_pos h1]
        exact ⟨hrx, htr, by simp [log_fail_close, send_event, LogMessage], rfl⟩
      · rw [if_neg h1]
        refine ⟨hrx, htr, ?_, rfl⟩
        simp only [socks5_queue, need_ok]
        refine ⟨by omega, by omega, by omega, hbuf, ?_⟩
        intro b hb
        simp at hb
  | socks5_request_addrtype =>
    have hb2 : buf.getD 2 0 < 256 := getD_byte buf 2 3 (by omega) (haddr rfl)
    simp only [socks5_parse, socks5_check_version, socks5_transition]
    by_cases h1 : buf.getD 1 0 = 1
    · rw [if_pos h1]
      refine ⟨hrx, htr, ?_, rfl⟩
      simp only [socks5_queue, need_ok]
      omega
    · rw [if_neg h1]
      by_cases h3 : buf.getD 1 0 = 3
      · rw [if_pos h3]
        refine ⟨hrx, htr, ?_, rfl⟩
        simp only [socks5_queue, need_ok, char_val_unsigned env _ hsigned]
        omega
      · rw [if_neg h3]
        by_cases h4 : buf.getD 1 0 = 4
        · rw [if_pos h4]
          refine ⟨hrx, htr, ?_, rfl⟩
          simp only [socks5_queue, need_ok]
          omega
        · rw [if_neg h4]
          exact ⟨hrx, htr, by simp [log_fail_close, send_event, LogMessage], rfl⟩
  | socks5_request_address =>
    simp only [socks5_parse, socks5_check_version, socks5_transition]
    exact ⟨hrx, htr, by simp [succeed, send_event], rfl⟩

theorem find_sub_none_iff (t : List Nat) (ht : t ≠ []) (l : List Nat) :
    find_sub t l = none ↔ ∀ j, j ≤ l.length → ¬ t <+: l.drop j := by
  constructor
  · intro h j hj hp
    -- take the least position of an occurrence
    have hex : ∃ i, i ≤ l.length ∧ t <+: l.drop i := ⟨j, hj, hp⟩
    classical
    let i := Nat.find hex
    have hi : i ≤ l.length ∧ t <+: l.drop i := Nat.find_spec hex
    have hmin : ∀ m, m < i → ¬ t <+: l.drop m := by
      intro m hm hpm
      exact Nat.find_min hex hm ⟨by omega, hpm⟩
    have := (find_sub_spec t ht l i).mpr ⟨hi.2, hi.1, hmin⟩
    rw [h] at this
    cases this
  · intro h
    cases hf : find_sub t l with
    | none => rfl
    | some i =>
      obtain ⟨a, b, _⟩ := (find_sub_spec t ht l i).mp hf
      exact absurd a (h i b)

theorem c_str_before_nul (l y : List Nat) : c_str (l ++ 0 :: y) = c_str l := by
  induction l with
  | nil => simp [c_str]
  | cons a l ih =>
    unfold c_str at ih ⊢
    by_cases ha : a = 0
    · subst ha
      simp
    · simp [List.takeWhile_cons, ha, ih]

theorem c_str_has_nul (l x : List Nat) (h : ∃ b ∈ l, b = 0) : c_str (l ++ x) = c_str l := by
  induction l with
  | nil => simp at h
  | cons a l ih =>
    unfold c_str at ih ⊢
    by_cases ha : a = 0
    · subst ha
      simp
    · have hl : ∃ b ∈ l, b = 0 := by
        obtain ⟨b, hb, hb0⟩ := h
        rcases List.mem_cons.mp hb with hb | hb
        · exact absurd (hb ▸ hb0) ha
        · exact ⟨b, hb, hb0⟩
      simp [List.takeWhile_cons, ha, ih hl]

/-- A terminator found in the C string of `p ++ x`, when the C string of `p` holds none, ends
after `p`. -/
theorem find_sub_after_prefix (p x : List Nat) (e : Nat)
    (hnone : find_sub CRLFCRLF (c_str p) = none)
    (hfind : find_sub CRLFCRLF (c_str (p ++ x)) = some e) :
    p.length < e + 4 := by
  by_contra hcon
  have hle : e + 4 ≤ p.length := by omega
  by_cases hnul : ∃ b ∈ p, b = 0
  · rw [c_str_has_nul p x hnul, hnone] at hfind
    cases hfind
  · have hno : ∀ b ∈ p, b ≠ 0 := fun b hb h0 => hnul ⟨b, hb, h0⟩
    have hcp : c_str p = p := by
      have := c_str_append p [] hno
      simpa [c_str] using this
    rw [c_str_append p x hno] at hfind
    rw [hcp] at hnone
    obtain ⟨a, _, _⟩ := (find_sub_spec CRLFCRLF (by decide) _ e).mp hfind
    rw [find_sub_prefix_of_longer CRLFCRLF p (c_str x) e (by simp [CRLFCRLF]; omega)] at a
    exact (find_sub_none_iff CRLFCRLF (by decide) p).mp hnone e (by omega) a

theorem find_sub_bound (t l : List Nat) (ht : t ≠ []) (e : Nat) (h : find_sub t l = some e) :
    e + t.length ≤ l.length := by
  obtain ⟨a, b, _⟩ := (find_sub_spec t ht l e).mp h
  have := a.length_le
  simp only [List.length_drop] at this
  omega

theorem c_str_length_le (l : List Nat) : (c_str l).length ≤ l.length :=
  (List.takeWhile_sublist _).length_le

/-- The buffer after a peek of `bytes` at offset `k` and the NUL store after them. -/
theorem peek_buffer (buf bytes : List Nat) (k : Nat) (h : k + bytes.length < buf.length) :
    poke (store buf (k : Int) bytes) ((k : Int) + (bytes.length : Int)) 0 =
      buf.take k ++ bytes ++ 0 :: buf.drop (k + bytes.length + 1) := by
  have e : ((k : Int) + (bytes.length : Int)) = ((k + bytes.length : Nat) : Int) := by
    push_cast; rfl
  rw [e, poke_nat, store_nat buf k bytes (by omega)]
  have hlen : (buf.take k ++ bytes).length = k + bytes.length := by
    simp; omega
  have hd : buf.drop (k + bytes.length) =
      buf.getD (k + bytes.length) 0 :: buf.drop (k + bytes.length + 1) :=
    drop_eq_cons buf _ h
  rw [hd, ← hlen, set_append_at]

theorem take_take_length (rx : List Nat) (m : Nat) :
    rx.take (rx.take m).length = rx.take m := by
  rw [List.length_take]
  rcases Nat.le_total m rx.length with h | h
  · rw [Nat.min_eq_left h]
  · rw [Nat.min_eq_right h, List.take_of_length_le h, List.take_of_length_le (Nat.le_refl _)]

theorem need_ok_http (s : CProxySocket Wire)
    (hhs : s.m_handshakeState = handshake_state.http_wait) :
    need_ok s ↔ (0 ≤ s.m_recvBufferPos ∧ s.m_recvBufferPos ≤ 4094 ∧ s.m_recvBufferLen = 4096 ∧
      s.m_pRecvBuffer.length = 4096 ∧
      find_sub CRLFCRLF (c_str (s.m_pRecvBuffer.take s.m_recvBufferPos.toNat)) = none) := by
  unfold need_ok
  rw [hhs]

/-- The read pass of the HTTP loop keeps the invariant. -/
theorem http_read_inv (env : Env) (s : CProxySocket Wire) (n k : Nat) (end_ : Option Nat)
    (hhs : s.m_handshakeState = handshake_state.http_wait)
    (hst : s.m_proxyState = ProxyState.handshake)
    (hrx : bytes_ok s.socket_.rx) (htr : trace_ok s)
    (hpos : s.m_recvBufferPos = k) (hlen : s.m_recvBufferLen = 4096)
    (hbuf : s.m_pRecvBuffer.length = 4096) (hn : 0 < n) (hkn : k + n ≤ 4095)
    (hneed : find_sub CRLFCRLF (c_str (s.m_pRecvBuffer.take k)) = none)
    (hcont : end_ = none → k + n ≤ 4094 ∧
      find_sub CRLFCRLF
        (c_str ((store s.m_pRecvBuffer (k : Int) (s.socket_.rx.take n)).take (k + n))) = none) :
    match http_read env wire s (n : Int) end_ with
    | none => True
    | some (r, b) => driver_inv r ∧ r.m_handshakeState = handshake_state.http_wait ∧
        (b = true → r.m_proxyState = ProxyState.handshake) := by
  obtain ⟨sock, ps, hst0, pt, host, port, user, pass, sb, buf, pos, blen, cr, cw, ev, lg, tr⟩ := s
  obtain ⟨rx, rxEnd, tx, txPlan⟩ := sock
  simp only at hhs hst hrx htr hpos hlen hbuf hneed hcont
  subst hhs hst hpos hlen
  have hu : uint (n : Int) = n := uint_nat n (by omega)
  have hdrop : bytes_ok (rx.drop n) := bytes_ok_drop rx n hrx
  have htr' : ∀ (p : Nat), ∀ op ∈ tr ++ [IoOp.read (k : Int) n p],
      op_ok (io_bound handshake_state.http_wait) op := by
    intro p op hop
    rcases List.mem_append.mp hop with h | h
    · exact htr op h
    · rw [List.mem_singleton] at h
      rw [h]
      simp only [op_ok, io_bound]
      omega
  unfold http_read
  simp only [hu, wire, Wire.read]
  rcases wire_look_cases { rx := rx, rxEnd := rxEnd, tx := tx, txPlan := txPlan } n (by omega)
    with ⟨e, he⟩ | he | ⟨hne, he⟩
  · rw [he]
    dsimp only
    by_cases hE : e = EAGAIN
    · rw [if_neg (not_not.mpr hE)]
      refine ⟨⟨hdrop, htr' _, fun _ => ?_⟩, rfl, fun h => by cases h⟩
      exact (need_ok_http _ rfl).mpr
        ⟨by simp only; omega, by simp only; omega, rfl, hbuf, by simpa using hneed⟩
    · rw [if_pos hE]
      exact ⟨driver_inv_terminal _ hdrop (htr' _) (by simp [fail_close, send_event]), rfl,
        fun h => by cases h⟩
  · rw [he]
    dsimp only
    rw [if_pos (show ((([] : List Nat).length : Nat) : Int) = 0 from rfl)]
    exact ⟨driver_inv_terminal _ hdrop (htr' _) (by simp [fail_close, send_event]), rfl,
        fun h => by cases h⟩
  · rw [he]
    dsimp only
    have hne' : rx ≠ [] := hne
    have hb0 : 0 < (rx.take n).length := by
      apply List.length_pos.mpr
      intro h0
      rw [List.take_eq_nil_iff] at h0
      rcases h0 with h0 | h0
      · omega
      · exact hne' h0
    have hr0 : ¬ (((rx.take n).length : Int) = 0) := by omega
    rw [if_neg hr0]
    by_cases hsb : sb ≠ []
    · rw [if_pos hsb]
      exact ⟨driver_inv_terminal _ hdrop (htr' _)
        (by simp [fail_log_close, send_event, LogMessage]), rfl, fun h => by cases h⟩
    · rw [if_neg hsb]
      by_cases hfull : ((rx.take n).length : Int) ≠ (n : Int)
      · rw [if_pos hfull]
        exact ⟨driver_inv_terminal _ hdrop (htr' _)
          (by simp [fail_log_close, send_event, LogMessage]), rfl, fun h => by cases h⟩
      · rw [if_neg hfull]
        have hfl : (rx.take n).length = n := by omega
        cases end_ with
        | none =>
          obtain ⟨c1, c2⟩ := hcont rfl
          refine ⟨⟨hdrop, htr' _, fun _ => ?_⟩, rfl, fun _ => rfl⟩
          have e : ((k : Int) + ((rx.take n).length : Int)).toNat = k + n := by omega
          refine (need_ok_http _ rfl).mpr
            ⟨by simp only; omega, by simp only; omega, rfl, by simp only [store_length]; exact hbuf,
              ?_⟩
          simp only [e]
          exact c2
        | some e0 =>
          dsimp only
          cases strchr (store buf (k : Int) (rx.take n)) 13 with
          | none => trivial
          | some cr0 =>
            dsimp only
            split_ifs
            · exact ⟨driver_inv_terminal _ hdrop (htr' _)
                (by simp [fail_close, send_event, LogMessage]), rfl, fun h => by cases h⟩
            · exact ⟨driver_inv_terminal _ hdrop (htr' _)
                (by simp [succeed, send_event, LogMessage]), rfl, fun h => by cases h⟩

/-- One round of the HTTP loop keeps the invariant. -/
theorem http_round_inv (env : Env) (s : CProxySocket Wire)
    (hhs : s.m_handshakeState = handshake_state.http_wait)
    (hst : s.m_proxyState = ProxyState.handshake) (hinv : driver_inv s) :
    match http_round env wire s with
    | none => True
    | some (r, b) => driver_inv r ∧ r.m_handshakeState = handshake_state.http_wait ∧
        (b = true → r.m_proxyState = ProxyState.handshake) := by
  obtain ⟨hrx, htr, hneed⟩ := hinv
  obtain ⟨n1, n2, n3, n4, n5⟩ := (need_ok_http s hhs).mp (hneed hst)
  obtain ⟨sock, ps, hst0, pt, host, port, user, pass, sb, buf, pos, blen, cr, cw, ev, lg, tr⟩ := s
  obtain ⟨rx, rxEnd, tx, txPlan⟩ := sock
  simp only at hhs hst hrx htr n1 n2 n3 n4 n5
  subst hhs hst n3
  obtain ⟨k, rfl⟩ := Int.eq_ofNat_of_zero_le n1
  simp only [Int.toNat_ofNat] at n5
  have hk : k ≤ 4094 := by omega
  have hu : uint ((4096 : Int) - (k : Int) - 1) = 4095 - k := uint_http k (by omega)
  have htr1 : ∀ (p : Nat), ∀ op ∈ tr ++ [IoOp.peek (k : Int) (4095 - k) p],
      op_ok (io_bound handshake_state.http_wait) op := by
    intro p op hop
    rcases List.mem_append.mp hop with h | h
    · exact htr op h
    · rw [List.mem_singleton] at h
      rw [h]
      simp only [op_ok, io_bound]
      omega
  unfold http_round
  simp only [hu, wire, Wire.peek]
  rcases wire_look_cases { rx := rx, rxEnd := rxEnd, tx := tx, txPlan := txPlan } (4095 - k)
    (by omega) with ⟨e, he⟩ | he | ⟨hne, he⟩
  · rw [he]
    dsimp only
    by_cases hE : e = EAGAIN
    · rw [if_neg (not_not.mpr hE)]
      refine ⟨⟨hrx, htr1 _, fun _ => ?_⟩, rfl, fun h => by cases h⟩
      exact (need_ok_http _ rfl).mpr
        ⟨by simp only; omega, by simp only; omega, rfl, n4, by simpa using n5⟩
    · rw [if_pos hE]
      exact ⟨driver_inv_terminal _ hrx (htr1 _) (by simp [fail_close, send_event]), rfl,
        fun h => by cases h⟩
  · rw [he]
    dsimp only
    rw [if_pos (show ((([] : List Nat).length : Nat) : Int) = 0 from rfl)]
    exact ⟨driver_inv_terminal _ hrx (htr1 _) (by simp [fail_close, send_event]), rfl,
        fun h => by cases h⟩
  · rw [he]
    dsimp only
    have hne' : rx ≠ [] := hne
    generalize hbs : rx.take (4095 - k) = bytes
    have hbl : bytes.length ≤ 4095 - k := by rw [← hbs]; simp
    have hb0 : 0 < bytes.length := by
      apply List.length_pos.mpr
      intro h0
      rw [← hbs, List.take_eq_nil_iff] at h0
      rcases h0 with h0 | h0
      · omega
      · exact hne' h0
    have hsame : rx.take bytes.length = bytes := by
      rw [← hbs]
      exact take_take_length rx _
    have hr0 : ¬ ((bytes.length : Int) = 0) := by omega
    rw [if_neg hr0]
    by_cases hsb : sb ≠ []
    · rw [if_pos hsb]
      exact ⟨driver_inv_terminal _ hrx (htr1 _)
        (by simp [fail_log_close, send_event, LogMessage]), rfl, fun h => by cases h⟩
    · rw [if_neg hsb]
      have hpb := peek_buffer buf bytes k (by omega)
      rw [hpb]
      have htr2 : ∀ (p : Nat), ∀ op ∈ tr ++ [IoOp.peek (k : Int) (4095 - k) p] ++
          [IoOp.nul ((k : Int) + (bytes.length : Int))],
          op_ok (io_bound handshake_state.http_wait) op := by
        intro p op hop
        rcases List.mem_append.mp hop with h | h
        · exact htr1 p op h
        · rw [List.mem_singleton] at h
          rw [h]
          simp only [op_ok]
          omega
      have hcs : c_str (buf.take k ++ bytes ++ 0 :: buf.drop (k + bytes.length + 1)) =
          c_str (buf.take k ++ bytes) := c_str_before_nul _ _
      have hlk : (buf.take k).length = k := by simp; omega
      have htk : (buf.take k ++ bytes ++ 0 :: buf.drop (k + bytes.length + 1)).take k =
          buf.take k := by
        rw [List.append_assoc, List.take_left' hlk]
      have hl3 : (buf.take k ++ bytes ++ 0 :: buf.drop (k + bytes.length + 1)).length = 4096 := by
        rw [← hpb, poke_length, store_length, n4]
      unfold strstr
      rw [hcs]
      cases hf : find_sub CRLFCRLF (c_str (buf.take k ++ bytes)) with
      | none =>
        dsimp only
        by_cases hfullb : (k : Int) + (bytes.length : Int) + 1 = 4096
        · rw [if_pos hfullb]
          exact ⟨driver_inv_terminal _ hrx (htr2 _)
            (by simp [fail_log_close, send_event, LogMessage]), rfl, fun h => by cases h⟩
        · rw [if_neg hfullb]
          refine http_read_inv env _ bytes.length k none rfl rfl hrx (htr2 _) rfl rfl hl3 hb0
            (by omega) ?_ ?_
          · simp only [htk]
            exact n5
          · intro _
            refine ⟨by omega, ?_⟩
            simp only [hsame]
            rw [take_store _ bytes k (by rw [hl3]; omega), htk]
            exact hf
      | some e0 =>
        dsimp only
        have hlow : k < e0 + 4 := by
          have := find_sub_after_prefix (buf.take k) bytes e0 n5 hf
          rw [hlk] at this
          exact this
        have hhigh : e0 + 4 ≤ k + bytes.length := by
          have h1 := find_sub_bound CRLFCRLF _ (by decide) e0 hf
          have h2 := c_str_length_le (buf.take k ++ bytes)
          simp only [List.length_append, hlk] at h2
          simp only [CRLFCRLF, List.length_cons, List.length_nil] at h1
          omega
        have ecast : ((e0 : Int) + 4 - (k : Int)) = ((e0 + 4 - k : Nat) : Int) := by omega
        rw [ecast]
        refine http_read_inv env _ (e0 + 4 - k) k (some e0) rfl rfl hrx (htr2 _) rfl rfl hl3
          (by omega) (by omega) ?_ ?_
        · simp only [htk]
          exact n5
        · intro h
          cases h

/-- The HTTP loop keeps the invariant. -/
theorem http_wait_loop_inv (env : Env) (fuel : Nat) : ∀ (s r : CProxySocket Wire),
    driver_inv s → s.m_handshakeState = handshake_state.http_wait →
    s.m_proxyState = ProxyState.handshake →
    http_wait_loop env wire fuel s = some r →
    driver_inv r ∧ r.m_handshakeState = handshake_state.http_wait := by
  induction fuel with
  | zero => intro s r _ _ _ h; simp [http_wait_loop] at h
  | succ f ih =>
    intro s r hinv hhs hst h
    rw [http_wait_loop_succ] at h
    have hround := http_round_inv env s hhs hst hinv
    cases hr : http_round env wire s with
    | none => rw [hr] at h; cases h
    | some p =>
      obtain ⟨s1, b⟩ := p
      rw [hr] at h hround
      obtain ⟨a1, a2, a3⟩ := hround
      cases b with
      | true => exact ih s1 r a1 a2 (a3 rfl) h
      | false =>
        simp only [Option.some.injEq] at h
        subst h
        exact ⟨a1, a2⟩

theorem driver_inv_flags (s r : CProxySocket Wire)
    (h0 : r.socket_.rx = s.socket_.rx)
    (h1 : r.m_handshakeState = s.m_handshakeState) (h2 : r.m_recvBufferPos = s.m_recvBufferPos)
    (h3 : r.m_recvBufferLen = s.m_recvBufferLen) (h4 : r.m_pRecvBuffer = s.m_pRecvBuffer)
    (h5 : r.trace = s.trace) (h6 : r.m_proxyState = ProxyState.handshake →
      s.m_proxyState = ProxyState.handshake)
    (h : driver_inv s) : driver_inv r := by
  obtain ⟨a, b, c⟩ := h
  refine ⟨by rw [h0]; exact a, trace_ok_congr s r (by rw [h1]) h5 b, fun hh => ?_⟩
  exact need_ok_congr s r h1 h2 h3 h4 (c (h6 hh))

theorem need_ok_socks5 (s : CProxySocket Wire) (h5 : io_bound s.m_handshakeState = 262) :
    need_ok s ↔ (0 ≤ s.m_recvBufferPos ∧ 0 < s.m_recvBufferLen ∧
      s.m_recvBufferPos + s.m_recvBufferLen ≤ 262 ∧ 262 ≤ s.m_pRecvBuffer.length ∧
      (s.m_handshakeState = handshake_state.socks5_request_addrtype →
        s.m_recvBufferPos + s.m_recvBufferLen = 3 ∧
          bytes_ok (s.m_pRecvBuffer.take s.m_recvBufferPos.toNat))) := by
  unfold need_ok
  cases hh : s.m_handshakeState with
  | http_wait => rw [hh] at h5; simp [io_bound] at h5
  | socks4_handshake => rw [hh] at h5; simp [io_bound] at h5
  | socks5_request_addrtype =>
    simp only [true_implies]
    constructor
    · rintro ⟨a, b, c, d, e⟩
      exact ⟨a, b, by omega, d, c, e⟩
    · rintro ⟨a, b, _, d, c, e⟩
      exact ⟨a, b, c, d, e⟩
  | socks5_method => simp
  | socks5_auth => simp
  | socks5_request => simp
  | socks5_request_address => simp

theorem wire_write_rx (w : Wire) (b : List Nat) : (wire.write w b).2.rx = w.rx := by
  simp only [wire, Wire.write]
  cases w.txPlan with
  | nil => rfl
  | cons x plan =>
    cases x with
    | error e => rfl
    | ok n => rfl

/-- One round of `OnSend`'s loop keeps the invariant, when the rest of the loop and
`OnReceive` do. -/
theorem send_body_inv (loop recv : CProxySocket Wire → Option (CProxySocket Wire))
    (hloop : ∀ s r, driver_inv s → loop s = some r →
      driver_inv r ∧ io_bound r.m_handshakeState = io_bound s.m_handshakeState)
    (hrecv : ∀ s r, driver_inv s → recv s = some r →
      driver_inv r ∧ io_bound r.m_handshakeState = io_bound s.m_handshakeState)
    (s r : CProxySocket Wire) (hinv : driver_inv s) (h : send_body wire loop recv s = some r) :
    driver_inv r ∧ io_bound r.m_handshakeState = io_bound s.m_handshakeState := by
  have hrxw := wire_write_rx s.socket_ s.sendBuffer_
  obtain ⟨a, b, c⟩ := hinv
  have hinv1 : ∀ (sb : List Nat) (cw : Bool), driver_inv
      { s with
        socket_ := (wire.write s.socket_ s.sendBuffer_).2
        trace := s.trace ++ [IoOp.write s.sendBuffer_]
        sendBuffer_ := sb
        m_can_write := cw } := by
    intro sb cw
    refine ⟨by simp only [hrxw]; exact a, trace_ok_snoc s _ _ rfl rfl b trivial, fun hh => ?_⟩
    exact need_ok_congr s _ rfl rfl rfl rfl (c hh)
  unfold send_body at h
  cases hw : (wire.write s.socket_ s.sendBuffer_).1 with
  | error e =>
    simp only [hw] at h
    by_cases hE : e = EAGAIN
    · rw [if_neg (not_not.mpr hE)] at h
      simp only [Option.some.injEq] at h
      subst h
      exact ⟨hinv1 s.sendBuffer_ false, rfl⟩
    · rw [if_pos hE] at h
      simp only [Option.some.injEq] at h
      subst h
      have := hinv1 s.sendBuffer_ s.m_can_write
      exact ⟨driver_inv_terminal _ this.1 (trace_ok_congr _ _ rfl rfl this.2.1)
        (by simp [fail_close, send_event]), rfl⟩
  | ok written =>
    simp only [hw] at h
    have hi := hinv1 (s.sendBuffer_.drop written) s.m_can_write
    by_cases hsb : s.sendBuffer_.drop written = []
    · rw [if_pos hsb] at h
      by_cases hcr : s.m_can_read = true
      · rw [if_pos hcr] at h
        have hres := hrecv _ r hi h
        exact ⟨hres.1, hres.2⟩
      · rw [if_neg hcr] at h
        simp only [Option.some.injEq] at h
        subst h
        exact ⟨hi, rfl⟩
    · rw [if_neg hsb] at h
      have hres := hloop _ r hi h
      exact ⟨hres.1, hres.2⟩

/-- One round of the SOCKS5 loop keeps the invariant, when the rest of the loop and `OnSend`
do and the length byte of a domain address is read back as itself. -/
theorem socks5_body_inv (env : Env) (hsigned : env.char_is_signed = false)
    (loop send : CProxySocket Wire → Option (CProxySocket Wire))
    (hloop : ∀ s r, driver_inv s → io_bound s.m_handshakeState = 262 → loop s = some r →
      driver_inv r ∧ io_bound r.m_handshakeState = 262)
    (hsend : ∀ s r, driver_inv s → send s = some r →
      driver_inv r ∧ io_bound r.m_handshakeState = io_bound s.m_handshakeState)
    (s r : CProxySocket Wire) (hinv : driver_inv s) (h5 : io_bound s.m_handshakeState = 262)
    (h : socks5_body env wire loop send s = some r) :
    driver_inv r ∧ io_bound r.m_handshakeState = 262 := by
  unfold socks5_body at h
  by_cases hc : s.m_recvBufferLen ≠ 0 ∧ s.m_can_read = true ∧
      s.m_proxyState = ProxyState.handshake
  · rw [if_pos hc] at h
    obtain ⟨hrx, htr, hneed⟩ := hinv
    obtain ⟨n1, n2, n3, n4, n5⟩ := (need_ok_socks5 s h5).mp (hneed hc.2.2)
    have hread := socks_read_inv s 262 hrx n1 n2 n3 (by exact_mod_cast n4) (by omega)
    have hop : op_ok (io_bound s.m_handshakeState)
        (IoOp.read s.m_recvBufferPos s.m_recvBufferLen.toNat s.sendBuffer_.length) := by
      rw [h5]
      simp only [op_ok]
      omega
    cases hsr : socks_read wire s with
    | done r0 =>
      rw [hsr] at h hread
      simp only [Option.some.injEq] at h
      subst h
      obtain ⟨a, b, c, d⟩ := hread
      refine ⟨⟨a, trace_ok_snoc s _ _ (by rw [c]) b htr hop, ?_⟩, by rw [c, h5]⟩
      intro hh
      rcases d with d | ⟨d1, d2, d3, d4⟩
      · rw [d] at hh; cases hh
      · exact need_ok_congr s _ c d2 d3 d4 (hneed hc.2.2)
    | more s1 =>
      rw [hsr] at h hread
      obtain ⟨a, b, c, d, e1, e2, e3, e4, e5⟩ := hread
      have h51 : io_bound s1.m_handshakeState = 262 := by rw [c, h5]
      refine hloop s1 r ⟨a, trace_ok_snoc s _ _ (by rw [c]) b htr hop, ?_⟩ h51 h
      intro _
      refine (need_ok_socks5 s1 h51).mpr ⟨e1, e2, by omega, by omega, ?_⟩
      intro hh
      rw [c] at hh
      obtain ⟨m1, m2⟩ := n5 hh
      exact ⟨by omega, e5 m2⟩
    | frame s1 =>
      rw [hsr] at h hread
      obtain ⟨a, b, c, d, e1, e2, e3, e4, e5⟩ := hread
      have h51 : io_bound s1.m_handshakeState = 262 := by rw [c, h5]
      have htr1 : trace_ok s1 := trace_ok_snoc s _ _ (by rw [c]) b htr hop
      have hparse := socks5_parse_inv env s1 hsigned h51 a htr1 e1 (by omega) (by
        intro hh
        rw [c] at hh
        obtain ⟨m1, m2⟩ := n5 hh
        have := e5 m2
        rw [m1] at this
        exact this)
      simp only at h
      unfold socks5_frame at h
      cases hp : socks5_parse env s1 with
      | inl r1 =>
        rw [hp] at h hparse
        simp only [Option.some.injEq] at h
        subst h
        obtain ⟨p1, p2, p3, p4⟩ := hparse
        exact ⟨driver_inv_terminal _ p1 p2 p3, p4⟩
      | inr s2 =>
        rw [hp] at h hparse
        obtain ⟨p1, p2, p3, p4⟩ := hparse
        have hinv2 : driver_inv s2 := ⟨p1, p2, fun _ => p3⟩
        simp only at h
        by_cases hq : s2.sendBuffer_ ≠ [] ∧ s2.m_can_write = true
        · rw [if_pos hq] at h
          cases hs3 : send s2 with
          | none => rw [hs3] at h; cases h
          | some s3 =>
            rw [hs3] at h
            obtain ⟨q1, q2⟩ := hsend s2 s3 hinv2 hs3
            exact hloop s3 r q1 (by rw [q2, p4]) h
        · rw [if_neg hq] at h
          exact hloop s2 r hinv2 p4 h
  · rw [if_neg hc] at h
    simp only [Option.some.injEq] at h
    subst h
    exact ⟨hinv, h5⟩

theorem OnReceive_socks5_pending (env : Env) (T : Transport σ) (fuel : Nat)
    (s : CProxySocket σ) (hs : s.m_proxyState = ProxyState.handshake)
    (hh : s.m_handshakeState ≠ handshake_state.http_wait)
    (hh4 : s.m_handshakeState ≠ handshake_state.socks4_handshake)
    (hsb : s.sendBuffer_ ≠ []) :
    OnReceive env T (fuel + 1) s = some { s with m_can_read := true } := by
  rw [OnReceive_succ, OnReceive_body]
  simp only [hs, ne_eq, not_true_eq_false, if_false, hsb, not_false_eq_true, if_true]

theorem io_bound_socks5 (st : handshake_state) (h1 : st ≠ handshake_state.http_wait)
    (h2 : st ≠ handshake_state.socks4_handshake) : io_bound st = 262 := by
  cases st <;> simp [io_bound] at h1 h2 ⊢

/-- `OnReceive`, the SOCKS5 loop, `OnSend` and its loop keep the invariant, when the length
byte of a domain address is read back as itself. -/
theorem driver_step_inv (env : Env) (hsigned : env.char_is_signed = false) (fuel : Nat) :
    (∀ s r, driver_inv s → OnReceive env wire fuel s = some r →
      driver_inv r ∧ io_bound r.m_handshakeState = io_bound s.m_handshakeState) ∧
    (∀ s r, driver_inv s → io_bound s.m_handshakeState = 262 →
      socks5_loop env wire fuel s = some r →
      driver_inv r ∧ io_bound r.m_handshakeState = 262) ∧
    (∀ s r, driver_inv s → OnSend env wire fuel s = some r →
      driver_inv r ∧ io_bound r.m_handshakeState = io_bound s.m_handshakeState) ∧
    (∀ s r, driver_inv s → send_loop env wire fuel s = some r →
      driver_inv r ∧ io_bound r.m_handshakeState = io_bound s.m_handshakeState) := by
  induction fuel with
  | zero =>
    refine ⟨?_, ?_, ?_, ?_⟩
    · intro s r _ h; simp [OnReceive] at h
    · intro s r _ _ h; simp [socks5_loop] at h
    · intro s r _ h; simp [OnSend] at h
    · intro s r _ h; simp [send_loop] at h
  | succ f ih =>
    obtain ⟨ih1, ih2, ih3, ih4⟩ := ih
    refine ⟨?_, ?_, ?_, ?_⟩
    · intro s r hinv h
      have hinv1 : driver_inv { s with m_can_read := true } :=
        driver_inv_flags s _ rfl rfl rfl rfl rfl rfl (fun hh => hh) hinv
      by_cases hst : s.m_proxyState = ProxyState.handshake
      · by_cases hh : s.m_handshakeState = handshake_state.http_wait
        · rw [OnReceive_http env wire f s hst hh] at h
          have := http_wait_loop_inv env f _ r hinv1 hh hst h
          exact ⟨this.1, by rw [this.2, hh]⟩
        · by_cases hh4 : s.m_handshakeState = handshake_state.socks4_handshake
          · rw [OnReceive_socks4 env wire f s hst hh4] at h
            have := socks4_loop_inv f _ r hinv1 hh4 h
            exact ⟨this.1, by rw [this.2, hh4]⟩
          · have h5 := io_bound_socks5 _ hh hh4
            by_cases hsb : s.sendBuffer_ = []
            · rw [OnReceive_socks5 env wire f s hst hh hh4 hsb] at h
              have := ih2 _ r hinv1 h5 h
              exact ⟨this.1, by rw [this.2, h5]⟩
            · rw [OnReceive_socks5_pending env wire f s hst hh hh4 hsb] at h
              simp only [Option.some.injEq] at h
              subst h
              exact ⟨hinv1, rfl⟩
      · rw [(post_terminal_noop env wire f s hst).1] at h
        simp only [Option.some.injEq] at h
        subst h
        exact ⟨hinv1, rfl⟩
    · intro s r hinv h5 h
      rw [socks5_loop_succ] at h
      exact socks5_body_inv env hsigned _ _ ih2 ih3 s r hinv h5 h
    · intro s r hinv h
      rw [OnSend_succ, OnSend_body] at h
      have hinv1 : driver_inv { s with m_can_write := true } :=
        driver_inv_flags s _ rfl rfl rfl rfl rfl rfl (fun hh => hh) hinv
      simp only at h
      by_cases hc : s.m_proxyState ≠ ProxyState.handshake ∨ s.sendBuffer_ = []
      · rw [if_pos hc] at h
        simp only [Option.some.injEq] at h
        subst h
        exact ⟨hinv1, rfl⟩
      · rw [if_neg hc] at h
        have := ih4 _ r hinv1 h
        exact ⟨this.1, this.2⟩
    · intro s r hinv h
      rw [send_loop_succ] at h
      exact send_body_inv _ _ ih4 ih1 s r hinv h

theorem need_ok_pos (s : CProxySocket Wire) (h : need_ok s) : 0 < s.m_recvBufferLen := by
  unfold need_ok at h
  cases hh : s.m_handshakeState <;> simp only [hh] at h <;> omega

theorem new_char_length (env : Env) (n : Nat) : (new_char env n).length = n := by
  simp [new_char]

/-- A `Handshake` call that returns `EINPROGRESS` on a session without transport calls so far
establishes the invariant. -/
theorem Handshake_inv (env : Env) (type : ProxyType) (host : List Nat) (port : Nat)
    (user pass : List Nat) (s : CProxySocket Wire)
    (hrx : bytes_ok s.socket_.rx) (htrace : s.trace = [])
    (hret : (Handshake env type host port user pass s).1 = EINPROGRESS) :
    driver_inv (Handshake env type host port user pass s).2 ∧
      io_bound (Handshake env type host port user pass s).2.m_handshakeState =
        proto_bound type := by
  have htr : ∀ r : CProxySocket Wire, r.trace = [] → trace_ok r := by
    intro r hr op hop
    rw [hr] at hop
    cases hop
  by_cases hc1 : type = ProxyType.unknown ∨ host = [] ∨ port < 1 ∨ port > 65535
  · exfalso
    simp only [Handshake, if_pos hc1] at hret
    simp [EINVAL, EINPROGRESS] at hret
  by_cases hc2 : s.m_proxyState ≠ ProxyState.noconn
  · exfalso
    simp only [Handshake, if_neg hc1, if_pos hc2] at hret
    simp [EALREADY, EINPROGRESS] at hret
  cases type with
  | unknown => exact absurd (Or.inl rfl) hc1
  | proxytype_count =>
    exfalso
    simp only [Handshake, if_neg hc1, if_neg hc2] at hret
    simp [EPROTONOSUPPORT, EINPROGRESS] at hret
  | HTTP =>
    simp only [Handshake, if_neg hc1, if_neg hc2]
    simp only [ne_eq, not_true_eq_false, false_and, if_false, if_true]
    refine ⟨⟨hrx, htr _ htrace, fun _ => ?_⟩, ?_⟩
    · unfold need_ok
      simp [new_char_length, find_sub, c_str, CRLFCRLF]
    · simp [io_bound, proto_bound]
  | SOCKS4 =>
    simp only [Handshake, if_neg hc1, if_neg hc2] at hret ⊢
    simp only [ne_eq, not_true_eq_false, false_and, and_false, if_false, if_true,
      show ¬ (ProxyType.SOCKS4 = ProxyType.HTTP) by decide] at hret ⊢
    split_ifs at hret ⊢
    all_goals first
      | (exfalso; simp [EINVAL, EINPROGRESS] at hret; done)
      | (refine ⟨⟨hrx, htr _ (by simp [LogMessage, htrace]), fun _ => ?_⟩, ?_⟩
         · unfold need_ok
           simp [new_char_length, LogMessage]
         · simp [io_bound, proto_bound, LogMessage])
  | SOCKS5 =>
    simp only [Handshake, if_neg hc1, if_neg hc2] at hret ⊢
    simp only [ne_eq, not_true_eq_false, false_and, and_false, if_false, if_true,
      show ¬ (ProxyType.SOCKS5 = ProxyType.HTTP) by decide,
      show ¬ (ProxyType.SOCKS5 = ProxyType.SOCKS4) by decide] at hret ⊢
    split_ifs at hret ⊢
    all_goals first
      | (exfalso; simp [EINVAL, EINPROGRESS] at hret; done)
      | (refine ⟨⟨hrx, htr _ htrace, fun _ => ?_⟩, ?_⟩
         · unfold need_ok
           simp [new_char_length]
         · simp [io_bound, proto_bound])

/-- Every session reachable from one that satisfies the invariant satisfies it, and the
protocol of the session does not change. -/
theorem Reach_inv (env : Env) (hsigned : env.char_is_signed = false)
    (s0 s : CProxySocket Wire) (h0 : driver_inv s0) (hreach : Reach env s0 s) :
    driver_inv s ∧ io_bound s.m_handshakeState = io_bound s0.m_handshakeState := by
  induction hreach with
  | start => exact ⟨h0, rfl⟩
  | transport s1 w _ hw ih =>
    obtain ⟨⟨_, b, c⟩, d⟩ := ih
    exact ⟨⟨hw, trace_ok_congr s1 _ rfl rfl b,
      fun hh => need_ok_congr s1 _ rfl rfl rfl rfl (c hh)⟩, d⟩
  | event s1 r fuel t error _ hev ih =>
    obtain ⟨hinv, d⟩ := ih
    obtain ⟨ih1, _, ih3, _⟩ := driver_step_inv env hsigned fuel
    unfold OnSocketEvent at hev
    cases t with
    | connection_next =>
      simp only at hev
      split_ifs at hev
      all_goals
        simp only [Option.some.injEq] at hev
        subst hev
        exact ⟨hinv, d⟩
    | connection =>
      simp only at hev
      split_ifs at hev with he hs
      · simp only [Option.some.injEq] at hev
        subst hev
        exact ⟨driver_inv_terminal _ hinv.1 (trace_ok_congr s1 _ rfl rfl hinv.2.1)
          (by simp [send_event]), d⟩
      · simp only [Option.some.injEq] at hev
        subst hev
        exact ⟨driver_inv_terminal _ hinv.1 (trace_ok_congr s1 _ rfl rfl hinv.2.1)
          (by simpa [send_event] using hs), d⟩
      · simp only [Option.some.injEq] at hev
        subst hev
        exact ⟨driver_inv_flags s1 _ rfl rfl rfl rfl rfl rfl (fun hh => hh) hinv, d⟩
    | read =>
      have := ih1 s1 r hinv hev
      exact ⟨this.1, by rw [this.2, d]⟩
    | write =>
      have := ih3 s1 r hinv hev
      exact ⟨this.1, by rw [this.2, d]⟩
    | close =>
      have := ih1 s1 r hinv hev
      exact ⟨this.1, by rw [this.2, d]⟩

/-- With the length byte of a domain address read back as itself (plain `char` unsigned), in
every session reachable from a `Handshake` call that returned `EINPROGRESS`, by any sequence
of events and transport changes: while the proxy state is `handshake` the need
`m_recvBufferLen` is positive. -/
theorem need_positive_unsigned_char (env : Env) (hsigned : env.char_is_signed = false)
    (type : ProxyType) (host : List Nat) (port : Nat) (user pass : List Nat)
    (s0 s : CProxySocket Wire) (hrx : bytes_ok s0.socket_.rx) (htrace : s0.trace = [])
    (hret : (Handshake env type host port user pass s0).1 = EINPROGRESS)
    (hreach : Reach env (Handshake env type host port user pass s0).2 s)
    (hs : s.m_proxyState = ProxyState.handshake) :
    0 < s.m_recvBufferLen := by
  obtain ⟨h0, _⟩ := Handshake_inv env type host port user pass s0 hrx htrace hret
  obtain ⟨⟨_, _, hneed⟩, _⟩ := Reach_inv env hsigned _ s h0 hreach
  exact need_ok_pos s (hneed hs)

/-- With the length byte of a domain address read back as itself (plain `char` unsigned), in
every session reachable from a `Handshake` call that returned `EINPROGRESS`, by any sequence
of events and transport changes: every read and peek issued has a non-negative offset and
`offset + length` at most 4096 for HTTP, 8 for SOCKS4 and 262 for SOCKS5, and every NUL store
has an index of at most 4095. -/
theorem reads_in_range_unsigned_char (env : Env) (hsigned : env.char_is_signed = false)
    (type : ProxyType) (host : List Nat) (port : Nat) (user pass : List Nat)
    (s0 s : CProxySocket Wire) (hrx : bytes_ok s0.socket_.rx) (htrace : s0.trace = [])
    (hret : (Handshake env type host port user pass s0).1 = EINPROGRESS)
    (hreach : Reach env (Handshake env type host port user pass s0).2 s) :
    ∀ op ∈ s.trace, op_ok (proto_bound type) op := by
  obtain ⟨h0, hb⟩ := Handshake_inv env type host port user pass s0 hrx htrace hret
  obtain ⟨⟨_, htr, _⟩, hb2⟩ := Reach_inv env hsigned _ s h0 hreach
  unfold trace_ok at htr
  rw [hb2, hb] at htr
  exact htr

set_option maxRecDepth 1000000 in
/-- The server bytes of the two failing inputs, on a platform where plain `char` is unsigned:
after the length byte `0x80` the next read asks for 130 bytes at offset 0, and after the
length byte `0xFE` the session waits for 256 bytes. -/
theorem socks5_domain_need_unsigned_char :
    (deliver unsignedEnv 12 [[5, 0, 5, 0, 0, 3, 0x80]]
      (started unsignedEnv ProxyType.SOCKS5 (ascii "example.com") 80 [] [])).map
      (fun r => (r.m_proxyState, r.m_recvBufferLen, r.trace.getLast?)) =
      some (ProxyState.handshake, 130, some (IoOp.read 0 130 0)) ∧
    (deliver unsignedEnv 12 [[5, 0, 5, 0, 0, 3, 0xFE]]
      (started unsignedEnv ProxyType.SOCKS5 (ascii "example.com") 80 [] [])).map
      (fun r => (r.m_proxyState, r.m_recvBufferLen, r.trace.getLast?)) =
      some (ProxyState.handshake, 256, some (IoOp.read 0 256 0)) := by
  decide!

set_option maxRecDepth 1000000 in
theorem need_positive_unsigned_char_sample :
    ∀ r, deliver unsignedEnv 12 [[5, 0, 5, 0, 0, 3, 0xFE]]
        (Handshake unsignedEnv ProxyType.SOCKS5 (ascii "example.com") 80 [] []
          (CProxySocket.init idleWire)).2 = some r →
      r.m_proxyState = ProxyState.handshake → 0 < r.m_recvBufferLen := by
  intro r hr hs
  refine need_positive_unsigned_char unsignedEnv rfl ProxyType.SOCKS5 (ascii "example.com") 80
    [] [] (CProxySocket.init idleWire) r (by intro b hb; cases hb) rfl (by decide) ?_ hs
  simp only [deliver] at hr
  cases h1 : OnReceive unsignedEnv wire 12 (arrive (Handshake unsignedEnv ProxyType.SOCKS5
      (ascii "example.com") 80 [] [] (CProxySocket.init idleWire)).2 [5, 0, 5, 0, 0, 3, 0xFE]) with
  | none => rw [h1] at hr; cases hr
  | some r1 =>
    rw [h1] at hr
    simp only [Option.some.injEq] at hr
    subst hr
    exact Reach.event _ _ 12 socket_event_flag.read 0
      (Reach.transport _ _ Reach.start (by unfold bytes_ok; decide)) h1

/-! ## Reads while a request waits in the send buffer -/

set_option maxRecDepth 1000000 in
/-- C21 (failing input): a SOCKS5 session that has sent its method request gets the method
reply `05 00` on a transport whose next write gives `EAGAIN`.  `OnReceive` queues the CONNECT
request (18 bytes), `OnSend` cannot write it, and the `while` loop goes on: the next read is
issued with the 18 bytes still in the send buffer.  With a first write of 4 bytes and then
`EAGAIN` the read is issued with 14 bytes waiting.  When the transport already holds a CONNECT
reply, the driver reads it with the request unsent and ends in `conn` with `Connection(0)`,
nothing of the request written. -/
theorem socks5_read_with_unsent_request :
    (OnReceive sampleEnv wire 12
      (arrive
        { started sampleEnv ProxyType.SOCKS5 (ascii "example.com") 80 [] [] with
          socket_ := { idleWire with txPlan := [WriteResult.error EAGAIN] } }
        [5, 0])).map
      (fun r => (r.m_proxyState, r.sendBuffer_.length, r.socket_.tx, r.trace)) =
    some (ProxyState.handshake, 18, [],
      [IoOp.write [5, 1, 0], IoOp.read 0 2 0,
        IoOp.write ([5, 1, 0, 3, 11] ++ ascii "example.com" ++ [0, 80]),
        IoOp.read 0 2 18]) ∧
    (OnReceive sampleEnv wire 12
      (arrive
        { started sampleEnv ProxyType.SOCKS5 (ascii "example.com") 80 [] [] with
          socket_ := { idleWire with txPlan := [WriteResult.ok 4, WriteResult.error EAGAIN] } }
        [5, 0])).map
      (fun r => (r.sendBuffer_.length, r.socket_.tx, r.trace.getLast?)) =
    some (14, [5, 1, 0, 3], some (IoOp.read 0 2 14)) ∧
    (OnReceive sampleEnv wire 12
      (arrive
        { started sampleEnv ProxyType.SOCKS5 (ascii "example.com") 80 [] [] with
          socket_ := { idleWire with txPlan := [WriteResult.error EAGAIN] } }
        [5, 0, 5, 0, 0, 1, 10, 0, 0, 1, 0, 80])).map
      (fun r => (r.m_proxyState, r.events, r.sendBuffer_.length, r.socket_.tx,
        r.trace.drop 3)) =
    some (ProxyState.conn, [⟨socket_event_flag.connection, 0⟩], 18, [],
      [IoOp.read 0 2 18, IoOp.read 0 3 18, IoOp.read 0 5 18]) := by
  refine ⟨?_, ?_, ?_⟩
  · decide!
  · decide!
  · decide!

/-! ## Reads on a transport that never answers a write with `EAGAIN` -/

/-- The three `switch` statements on a complete frame touch neither the transport nor the
record of its calls nor `m_can_write`; a `return` leaves the handshake. -/
theorem socks5_parse_flush (env : Env) (s : CProxySocket σ)
    (h5 : io_bound s.m_handshakeState = 262) :
    match socks5_parse env s with
    | Sum.inl r => r.m_proxyState ≠ ProxyState.handshake ∧ r.socket_ = s.socket_ ∧
        r.trace = s.trace ∧ io_bound r.m_handshakeState = 262
    | Sum.inr r => r.m_proxyState = s.m_proxyState ∧ r.socket_ = s.socket_ ∧
        r.trace = s.trace ∧ io_bound r.m_handshakeState = 262 ∧
        r.m_can_write = s.m_can_write := by
  obtain ⟨sock, ps, hst, pt, host, port, user, pass, sb, buf, pos, blen, cr, cw, ev, lg, tr⟩ := s
  simp only at h5
  cases hst with
  | http_wait => simp [io_bound] at h5
  | socks4_handshake => simp [io_bound] at h5
  | socks5_method =>
    simp only [socks5_parse, socks5_check_version, socks5_transition]
    split_ifs <;>
      simp [log_fail_close, send_event, LogMessage, socks5_queue, io_bound]
  | socks5_auth =>
    simp only [socks5_parse, socks5_check_version, socks5_transition]
    split_ifs <;>
      simp [log_fail_close, send_event, LogMessage, socks5_queue, io_bound]
  | socks5_request =>
    simp only [socks5_parse, socks5_check_version, socks5_transition]
    split_ifs <;>
      simp [log_fail_close, send_event, LogMessage, socks5_queue, io_bound]
  | socks5_request_addrtype =>
    simp only [socks5_parse, socks5_check_version, socks5_transition]
    split_ifs <;>
      simp [log_fail_close, send_event, LogMessage, socks5_queue, io_bound]
  | socks5_request_address =>
    simp only [socks5_parse, socks5_check_version, socks5_transition]
    simp [succeed, send_event, io_bound]

/-- The read at the head of a round is recorded with the length of the send buffer; it leaves
the write plan, the send buffer and `m_can_write` as they are. -/
theorem socks_read_flush (s : CProxySocket Wire) :
    ∀ r, (socks_read wire s = ReadStep.done r ∨ socks_read wire s = ReadStep.more r ∨
        socks_read wire s = ReadStep.frame r) →
      r.socket_.txPlan = s.socket_.txPlan ∧
      r.trace = s.trace ++
        [IoOp.read s.m_recvBufferPos (uint s.m_recvBufferLen) s.sendBuffer_.length] ∧
      r.m_handshakeState = s.m_handshakeState ∧ r.sendBuffer_ = s.sendBuffer_ ∧
      r.m_can_write = s.m_can_write ∧
      (r.m_proxyState = ProxyState.handshake → s.m_proxyState = ProxyState.handshake) := by
  intro r hr
  unfold socks_read at hr
  have hplan : (wire.read s.socket_ (uint s.m_recvBufferLen)).2.txPlan = s.socket_.txPlan := by
    rw [wire_read_snd]
  cases hw : (wire.read s.socket_ (uint s.m_recvBufferLen)).1 with
  | error e =>
    simp only [hw] at hr
    split_ifs at hr
    all_goals
      simp only [ReadStep.done.injEq, false_or, or_false, reduceCtorEq] at hr
      subst hr
      simp [fail_close, send_event, hplan]
  | ok bytes =>
    simp only [hw] at hr
    split_ifs at hr
    all_goals
      simp only [ReadStep.done.injEq, ReadStep.more.injEq, ReadStep.frame.injEq, false_or,
        or_false, reduceCtorEq] at hr
      subst hr
      simp [fail_close, send_event, hplan]
theorem wire_write_unblocked (w : Wire) (b : List Nat) (h : never_blocks w) :
    never_blocks (wire.write w b).2 ∧ (wire.write w b).1 ≠ WriteResult.error EAGAIN := by
  unfold never_blocks at h ⊢
  simp only [wire, Wire.write]
  cases hp : w.txPlan with
  | nil => simp [hp]
  | cons x plan =>
    rw [hp] at h
    cases x with
    | error e =>
      simp only [List.mem_cons, not_or] at h
      refine ⟨h.2, fun hh => h.1 ?_⟩
      simp only at hh
      rw [hh]
    | ok n =>
      simp only [List.mem_cons, not_or] at h
      exact ⟨h.2, by simp⟩

theorem reads_flushed_write (tr : List IoOp) (b : List Nat) (h : reads_flushed tr) :
    reads_flushed (tr ++ [IoOp.write b]) := by
  intro pos len pending hm
  simp only [List.mem_append, List.mem_singleton, reduceCtorEq, or_false] at hm
  exact h pos len pending hm

theorem reads_flushed_read (tr : List IoOp) (p : Int) (l : Nat) (h : reads_flushed tr) :
    reads_flushed (tr ++ [IoOp.read p l 0]) := by
  intro pos len pending hm
  simp only [List.mem_append, List.mem_singleton, IoOp.read.injEq] at hm
  rcases hm with hm | ⟨_, _, hm⟩
  · exact h pos len pending hm
  · exact hm

/-- One round of `OnSend`'s loop, entered with `m_can_write` set, on a transport that never
answers `EAGAIN`: the invariant is kept, and the call ends with the send buffer empty or the
handshake over. -/
theorem send_body_flush (loop recv : CProxySocket Wire → Option (CProxySocket Wire))
    (hloop : ∀ s r, flush_inv s → s.m_can_write = true → loop s = some r →
      flush_inv r ∧ (r.m_proxyState = ProxyState.handshake → r.sendBuffer_ = []))
    (hrecv : ∀ s r, flush_inv s → recv s = some r →
      flush_inv r ∧ ((s.m_proxyState = ProxyState.handshake → s.sendBuffer_ = []) →
        r.m_proxyState = ProxyState.handshake → r.sendBuffer_ = []))
    (s r : CProxySocket Wire) (hinv : flush_inv s) (hcw : s.m_can_write = true)
    (h : send_body wire loop recv s = some r) :
    flush_inv r ∧ (r.m_proxyState = ProxyState.handshake → r.sendBuffer_ = []) := by
  obtain ⟨a, b, c, _⟩ := hinv
  obtain ⟨w1, w2⟩ := wire_write_unblocked s.socket_ s.sendBuffer_ a
  have hinv1 : ∀ sb : List Nat, flush_inv
      { s with
        socket_ := (wire.write s.socket_ s.sendBuffer_).2
        trace := s.trace ++ [IoOp.write s.sendBuffer_]
        sendBuffer_ := sb } :=
    fun sb => ⟨w1, b, reads_flushed_write _ _ c, fun _ _ => hcw⟩
  unfold send_body at h
  cases hw : (wire.write s.socket_ s.sendBuffer_).1 with
  | error e =>
    rw [hw] at w2
    have hE : e ≠ EAGAIN := fun hh => w2 (by rw [hh])
    simp only [hw] at h
    rw [if_pos hE] at h
    simp only [Option.some.injEq] at h
    subst h
    refine ⟨⟨w1, b, reads_flushed_write _ _ c, ?_⟩, ?_⟩
    · intro hh
      simp [fail_close, send_event] at hh
    · intro hh
      simp [fail_close, send_event] at hh
  | ok written =>
    simp only [hw] at h
    have hi := hinv1 (s.sendBuffer_.drop written)
    by_cases hsb : s.sendBuffer_.drop written = []
    · rw [if_pos hsb] at h
      by_cases hcr : s.m_can_read = true
      · rw [if_pos hcr] at h
        have hres := hrecv _ r hi h
        exact ⟨hres.1, hres.2 (fun _ => hsb)⟩
      · rw [if_neg hcr] at h
        simp only [Option.some.injEq] at h
        subst h
        exact ⟨hi, fun _ => hsb⟩
    · rw [if_neg hsb] at h
      have hres := hloop _ r hi hcw h
      exact ⟨hres.1, hres.2⟩

/-- One round of the SOCKS5 loop, entered with the send buffer empty, on a transport that
never answers a write with `EAGAIN`: the read finds the send buffer empty, and the round ends
with the send buffer empty or the handshake over. -/
theorem socks5_body_flush (env : Env)
    (loop send : CProxySocket Wire → Option (CProxySocket Wire))
    (hloop : ∀ s r, flush_inv s →
      (s.m_proxyState = ProxyState.handshake → s.sendBuffer_ = []) → loop s = some r →
      flush_inv r ∧ (r.m_proxyState = ProxyState.handshake → r.sendBuffer_ = []))
    (hsend : ∀ s r, flush_inv s → send s = some r →
      flush_inv r ∧ (r.m_proxyState = ProxyState.handshake → r.sendBuffer_ = []))
    (s r : CProxySocket Wire) (hinv : flush_inv s)
    (hsb : s.m_proxyState = ProxyState.handshake → s.sendBuffer_ = [])
    (h : socks5_body env wire loop send s = some r) :
    flush_inv r ∧ (r.m_proxyState = ProxyState.handshake → r.sendBuffer_ = []) := by
  unfold socks5_body at h
  by_cases hc : s.m_recvBufferLen ≠ 0 ∧ s.m_can_read = true ∧
      s.m_proxyState = ProxyState.handshake
  · rw [if_pos hc] at h
    obtain ⟨a, b, c, d⟩ := hinv
    have hsb0 := hsb hc.2.2
    have hcw := d hc.2.2 hsb0
    have hread := socks_read_flush s
    have hafter : ∀ r1 : CProxySocket Wire,
        (socks_read wire s = ReadStep.done r1 ∨ socks_read wire s = ReadStep.more r1 ∨
          socks_read wire s = ReadStep.frame r1) →
        flush_inv r1 ∧ r1.sendBuffer_ = [] ∧ r1.m_can_write = true := by
      intro r1 hr1
      obtain ⟨e1, e2, e3, e4, e5, _⟩ := hread r1 hr1
      rw [hsb0] at e2 e4
      refine ⟨⟨?_, by rw [e3]; exact b, ?_, fun _ _ => by rw [e5]; exact hcw⟩, e4,
        by rw [e5]; exact hcw⟩
      · unfold never_blocks at a ⊢
        rw [e1]
        exact a
      · rw [e2]
        exact reads_flushed_read _ _ _ c
    cases hsr : socks_read wire s with
    | done r0 =>
      rw [hsr] at h
      simp only [Option.some.injEq] at h
      subst h
      obtain ⟨f1, f2, _⟩ := hafter r0 (Or.inl hsr)
      exact ⟨f1, fun _ => f2⟩
    | more s1 =>
      rw [hsr] at h
      obtain ⟨f1, f2, _⟩ := hafter s1 (Or.inr (Or.inl hsr))
      exact hloop s1 r f1 (fun _ => f2) h
    | frame s1 =>
      rw [hsr] at h
      obtain ⟨⟨g1, g2, g3, _⟩, f2, f3⟩ := hafter s1 (Or.inr (Or.inr hsr))
      have hparse := socks5_parse_flush env s1 g2
      simp only at h
      unfold socks5_frame at h
      cases hp : socks5_parse env s1 with
      | inl r1 =>
        rw [hp] at h hparse
        simp only [Option.some.injEq] at h
        subst h
        obtain ⟨p1, p2, p3, p4⟩ := hparse
        refine ⟨⟨by rw [p2]; exact g1, p4, by rw [p3]; exact g3, fun hh => absurd hh p1⟩,
          fun hh => absurd hh p1⟩
      | inr s2 =>
        rw [hp] at h hparse
        obtain ⟨_, p2, p3, p4, p5⟩ := hparse
        have hcw2 : s2.m_can_write = true := by rw [p5]; exact f3
        have hinv2 : flush_inv s2 :=
          ⟨by rw [p2]; exact g1, p4, by rw [p3]; exact g3, fun _ _ => hcw2⟩
        simp only at h
        by_cases hq : s2.sendBuffer_ ≠ [] ∧ s2.m_can_write = true
        · rw [if_pos hq] at h
          cases hs3 : send s2 with
          | none => rw [hs3] at h; cases h
          | some s3 =>
            rw [hs3] at h
            obtain ⟨q1, q2⟩ := hsend s2 s3 hinv2 hs3
            exact hloop s3 r q1 q2 h
        · rw [if_neg hq] at h
          have hsb2 : s2.sendBuffer_ = [] := by
            by_contra hne
            exact hq ⟨hne, hcw2⟩
          exact hloop s2 r hinv2 (fun _ => hsb2) h
  · rw [if_neg hc] at h
    simp only [Option.some.injEq] at h
    subst h
    exact ⟨hinv, hsb⟩
theorem flush_inv_flags (s r : CProxySocket Wire)
    (h0 : r.socket_ = s.socket_) (h1 : r.m_handshakeState = s.m_handshakeState)
    (h2 : r.trace = s.trace)
    (h3 : r.m_proxyState = ProxyState.handshake → r.sendBuffer_ = [] →
      s.m_proxyState = ProxyState.handshake ∧ s.sendBuffer_ = [] ∧
        (s.m_can_write = true → r.m_can_write = true))
    (h : flush_inv s) : flush_inv r := by
  obtain ⟨a, b, c, d⟩ := h
  refine ⟨by rw [h0]; exact a, by rw [h1]; exact b, by rw [h2]; exact c, fun x y => ?_⟩
  obtain ⟨z1, z2, z3⟩ := h3 x y
  exact z3 (d z1 z2)

/-- `OnReceive`, the SOCKS5 loop, `OnSend` and its loop keep the invariant on a transport that
never answers a write with `EAGAIN`; `OnSend` ends with the send buffer empty or the handshake
over, and so does `OnReceive` when it started so. -/
theorem driver_step_flush (env : Env) (fuel : Nat) :
    (∀ s r, flush_inv s → OnReceive env wire fuel s = some r →
      flush_inv r ∧ ((s.m_proxyState = ProxyState.handshake → s.sendBuffer_ = []) →
        r.m_proxyState = ProxyState.handshake → r.sendBuffer_ = [])) ∧
    (∀ s r, flush_inv s → (s.m_proxyState = ProxyState.handshake → s.sendBuffer_ = []) →
      socks5_loop env wire fuel s = some r →
      flush_inv r ∧ (r.m_proxyState = ProxyState.handshake → r.sendBuffer_ = [])) ∧
    (∀ s r, flush_inv s → OnSend env wire fuel s = some r →
      flush_inv r ∧ (r.m_proxyState = ProxyState.handshake → r.sendBuffer_ = [])) ∧
    (∀ s r, flush_inv s → s.m_can_write = true → send_loop env wire fuel s = some r →
      flush_inv r ∧ (r.m_proxyState = ProxyState.handshake → r.sendBuffer_ = [])) := by
  induction fuel with
  | zero =>
    refine ⟨?_, ?_, ?_, ?_⟩
    · intro s r _ h; simp [OnReceive] at h
    · intro s r _ _ h; simp [socks5_loop] at h
    · intro s r _ h; simp [OnSend] at h
    · intro s r _ _ h; simp [send_loop] at h
  | succ f ih =>
    obtain ⟨ih1, ih2, ih3, ih4⟩ := ih
    refine ⟨?_, ?_, ?_, ?_⟩
    · intro s r hinv h
      have hinv1 : flush_inv { s with m_can_read := true } :=
        flush_inv_flags s _ rfl rfl rfl (fun x y => ⟨x, y, fun z => z⟩) hinv
      by_cases hst : s.m_proxyState = ProxyState.handshake
      · have h5 := hinv.2.1
        have hh : s.m_handshakeState ≠ handshake_state.http_wait := by
          intro hh
          rw [hh] at h5
          simp [io_bound] at h5
        have hh4 : s.m_handshakeState ≠ handshake_state.socks4_handshake := by
          intro hh
          rw [hh] at h5
          simp [io_bound] at h5
        by_cases hsb : s.sendBuffer_ = []
        · rw [OnReceive_socks5 env wire f s hst hh hh4 hsb] at h
          have := ih2 _ r hinv1 (fun _ => hsb) h
          exact ⟨this.1, fun _ => this.2⟩
        · rw [OnReceive_socks5_pending env wire f s hst hh hh4 hsb] at h
          simp only [Option.some.injEq] at h
          subst h
          exact ⟨hinv1, fun x => x⟩
      · rw [(post_terminal_noop env wire f s hst).1] at h
        simp only [Option.some.injEq] at h
        subst h
        exact ⟨hinv1, fun x => x⟩
    · intro s r hinv hsb h
      rw [socks5_loop_succ] at h
      exact socks5_body_flush env _ _ ih2 ih3 s r hinv hsb h
    · intro s r hinv h
      rw [OnSend_succ, OnSend_body] at h
      have hinv1 : flush_inv { s with m_can_write := true } :=
        flush_inv_flags s _ rfl rfl rfl (fun x y => ⟨x, y, fun _ => rfl⟩) hinv
      simp only at h
      by_cases hc : s.m_proxyState ≠ ProxyState.handshake ∨ s.sendBuffer_ = []
      · rw [if_pos hc] at h
        simp only [Option.some.injEq] at h
        subst h
        refine ⟨hinv1, fun hh => ?_⟩
        rcases hc with hc | hc
        · exact absurd hh hc
        · exact hc
      · rw [if_neg hc] at h
        have := ih4 _ r hinv1 rfl h
        exact ⟨this.1, this.2⟩
    · intro s r hinv hcw h
      rw [send_loop_succ] at h
      exact send_body_flush _ _ ih4 ih1 s r hinv hcw h

/-- A SOCKS5 `Handshake` call that returns `EINPROGRESS` on a session without transport calls
so far establishes the invariant: the method request waits in the send buffer. -/
theorem Handshake_flush (env : Env) (host : List Nat) (port : Nat)
    (user pass : List Nat) (s : CProxySocket Wire)
    (hw : never_blocks s.socket_) (htrace : s.trace = [])
    (hret : (Handshake env ProxyType.SOCKS5 host port user pass s).1 = EINPROGRESS) :
    flush_inv (Handshake env ProxyType.SOCKS5 host port user pass s).2 := by
  have htr : reads_flushed s.trace := by
    intro pos len pending hm
    rw [htrace] at hm
    cases hm
  by_cases hc1 : ProxyType.SOCKS5 = ProxyType.unknown ∨ host = [] ∨ port < 1 ∨ port > 65535
  · exfalso
    simp only [Handshake, if_pos hc1] at hret
    simp [EINVAL, EINPROGRESS] at hret
  by_cases hc2 : s.m_proxyState ≠ ProxyState.noconn
  · exfalso
    simp only [Handshake, if_neg hc1, if_pos hc2] at hret
    simp [EALREADY, EINPROGRESS] at hret
  simp only [Handshake, if_neg hc1, if_neg hc2] at hret ⊢
  simp only [ne_eq, not_true_eq_false, false_and, and_false, if_false, if_true,
    show ¬ (ProxyType.SOCKS5 = ProxyType.HTTP) by decide,
    show ¬ (ProxyType.SOCKS5 = ProxyType.SOCKS4) by decide] at hret ⊢
  split_ifs at hret ⊢
  all_goals first
    | (exfalso; simp [EINVAL, EINPROGRESS] at hret; done)
    | (refine ⟨hw, by simp [io_bound], htr, fun _ hsb => ?_⟩
       simp at hsb)

/-- Every session reachable from one that satisfies the invariant, with no write answered
with `EAGAIN`, satisfies it. -/
theorem ReachUnblocked_flush (env : Env) (s0 s : CProxySocket Wire) (h0 : flush_inv s0)
    (hreach : ReachUnblocked env s0 s) : flush_inv s := by
  induction hreach with
  | start => exact h0
  | transport s1 w _ hw ih =>
    obtain ⟨_, b, c, d⟩ := ih
    exact ⟨hw, b, c, d⟩
  | event s1 r fuel t error _ hev ih =>
    obtain ⟨ih1, _, ih3, _⟩ := driver_step_flush env fuel
    unfold OnSocketEvent at hev
    cases t with
    | connection_next =>
      simp only at hev
      split_ifs at hev
      all_goals
        simp only [Option.some.injEq] at hev
        subst hev
        exact ih
    | connection =>
      simp only at hev
      split_ifs at hev with he hs
      · simp only [Option.some.injEq] at hev
        subst hev
        exact ⟨ih.1, ih.2.1, ih.2.2.1, fun hh => by simp [send_event] at hh⟩
      · simp only [Option.some.injEq] at hev
        subst hev
        exact ⟨ih.1, ih.2.1, ih.2.2.1, fun hh => absurd (by simpa [send_event] using hh) hs⟩
      · simp only [Option.some.injEq] at hev
        subst hev
        exact ih
    | read => exact (ih1 s1 r ih hev).1
    | write => exact (ih3 s1 r ih hev).1
    | close => exact (ih1 s1 r ih hev).1

/-- In a SOCKS5 session, from a `Handshake` call that returned `EINPROGRESS` and through any
sequence of events and transport changes in which no write is answered with `EAGAIN` (writes
taken whole, taken in part, or failing for good): every read was issued with the send buffer
empty. -/
theorem socks5_reads_flushed_without_eagain (env : Env) (host : List Nat) (port : Nat)
    (user pass : List Nat) (s0 s : CProxySocket Wire)
    (hw : never_blocks s0.socket_) (htrace : s0.trace = [])
    (hret : (Handshake env ProxyType.SOCKS5 host port user pass s0).1 = EINPROGRESS)
    (hreach : ReachUnblocked env (Handshake env ProxyType.SOCKS5 host port user pass s0).2 s) :
    ∀ pos len pending, IoOp.read pos len pending ∈ s.trace → pending = 0 :=
  (ReachUnblocked_flush env _ s (Handshake_flush env host port user pass s0 hw htrace hret)
    hreach).2.2.1
set_option maxRecDepth 1000000 in
/-- The second failing input with writes taken in part instead of an `EAGAIN`: the method
request goes out in two writes, the CONNECT request in two writes, every read finds the send
buffer empty, and the session is `conn` with both requests written. -/
theorem socks5_writes_in_part_sample :
    ((OnSocketEvent sampleEnv wire 4 socket_event_flag.write 0
      (Handshake sampleEnv ProxyType.SOCKS5 (ascii "example.com") 80 [] []
        (CProxySocket.init { idleWire with txPlan := [WriteResult.ok 1] })).2).bind
      (fun s1 => OnSocketEvent sampleEnv wire 12 socket_event_flag.read 0
        { s1 with socket_ :=
          { rx := [5, 0, 5, 0, 0, 1, 10, 0, 0, 1, 0, 80], rxEnd := RxEnd.again,
            tx := s1.socket_.tx, txPlan := [WriteResult.ok 4] } })).map
      (fun r => (r.m_proxyState, r.sendBuffer_, r.socket_.tx, r.trace)) =
    some (ProxyState.conn, [],
      [5, 1, 0] ++ ([5, 1, 0, 3, 11] ++ ascii "example.com" ++ [0, 80]),
      [IoOp.write [5, 1, 0], IoOp.write [1, 0], IoOp.read 0 2 0,
        IoOp.write ([5, 1, 0, 3, 11] ++ ascii "example.com" ++ [0, 80]),
        IoOp.write ([11] ++ ascii "example.com" ++ [0, 80]),
        IoOp.read 0 2 0, IoOp.read 0 3 0, IoOp.read 0 5 0]) := by
  decide!

theorem socks5_reads_flushed_sample (s1 r : CProxySocket Wire)
    (h1 : OnSocketEvent sampleEnv wire 4 socket_event_flag.write 0
      (Handshake sampleEnv ProxyType.SOCKS5 (ascii "example.com") 80 [] []
        (CProxySocket.init { idleWire with txPlan := [WriteResult.ok 1] })).2 = some s1)
    (h2 : OnSocketEvent sampleEnv wire 12 socket_event_flag.read 0
      { s1 with socket_ :=
        { rx := [5, 0, 5, 0, 0, 1, 10, 0, 0, 1, 0, 80], rxEnd := RxEnd.again,
          tx := s1.socket_.tx, txPlan := [WriteResult.ok 4] } } = some r) :
    ∀ pos len pending, IoOp.read pos len pending ∈ r.trace → pending = 0 :=
  socks5_reads_flushed_without_eagain sampleEnv (ascii "example.com") 80 [] []
    (CProxySocket.init { idleWire with txPlan := [WriteResult.ok 1] }) r
    (by unfold never_blocks; decide) rfl (by decide)
    (ReachUnblocked.event _ _ 12 socket_event_flag.read 0
      (ReachUnblocked.transport _ _
        (ReachUnblocked.event _ _ 4 socket_event_flag.write 0 ReachUnblocked.start h1)
        (by unfold never_blocks; simp)) h2)

end Proxy
